import Mathlib

/-!
The real-time coordination layer of `backend/server.js` of exam_proctor.

A shallow embedding of the exam lifecycle scheduler (`checkExamSchedules`), of the
room-membership debug utility (`getRoomMembers`), of the socket event handlers registered
in `io.on('connection', ...)`, of the routes `POST /api/exams/:id/incidents` and
`PATCH /api/exams/:id/status` of `backend/routes/exams.js` and of the middleware `authorize`
of `backend/middleware/auth.js`, followed by the properties proved about them.

Conventions of the embedding

* A `Date` is its number of milliseconds since the epoch (`Int`).
* `new Date().toISOString()` is read from a `clock : Nat → String`: `clock k` is the
  `k`-th reading taken while one handler (or one scheduler cycle) runs.
* The `socket.io` server object `io` is the state `Io`: the map `io.sockets.sockets`
  and the room membership kept by `io.sockets.adapter`.
* An emission is recorded together with the connections it is delivered to, resolved
  against the membership at the moment of the call: `io.to(room)` reaches the members of
  the room, `socket.to(room)` those of them that are not members of the room named by the
  id of `socket` (the room every connection joins when it opens).
* Stored `Exam` documents are told apart by `_id`; statements about them assume the `_id`s
  of the stored documents distinct, as the database guarantees.
* An exception is a `TypeError`: reading a field of `undefined` or `null`, or converting
  to a string an object that has no usable `toString`. A listener that lets it escape
  returns `.error`; nothing in `server.js` catches it then.
* The `catch` block of `request-connection-status` is left out: nothing in its `try` block
  can throw (`getRoomMembers` catches for itself, the rest only emits).
-/

namespace ExamProctor

/-! ## JavaScript values carried by event payloads -/

/-- A whole number that JavaScript holds exactly and prints in full: its magnitude is
below 2^53. -/
structure SafeInt where
  val : Int
  isSafe : val.natAbs < 9007199254740992
  deriving DecidableEq, Repr

/-- A count as a number: an array or a set of the server has far fewer than 2^53 elements. -/
def SafeInt.ofNat (n : Nat) : SafeInt :=
  ⟨((n % 9007199254740992 : Nat) : Int), by
    rw [Int.natAbs_ofNat]; exact Nat.mod_lt _ (by decide)⟩

/-- A JavaScript value stored in a field of a payload. Numbers are whole numbers below 2^53
in magnitude. `object image` is a nested object or an array that `String(v)` converts, to
`image`; `unprintable` is one that `String(v)` cannot convert, such as `{toString: 0}` or
an array that holds one. Both are truthy. -/
inductive JsAtom where
  | undefined
  | null
  | bool (b : Bool)
  | num (n : SafeInt)
  | str (s : String)
  | object (image : String)
  | unprintable
  deriving DecidableEq, Repr

/-- An inbound payload: a single value, or a plain object with named fields
(the first binding of a key is the one that counts). -/
inductive JsVal where
  | atom (a : JsAtom)
  | record (fields : List (String × JsAtom))
  deriving DecidableEq, Repr

/-- JavaScript truthiness, as tested by `!x`, `x || y` and `if (x)`. -/
def JsAtom.truthy : JsAtom → Bool
  | .undefined => false
  | .null => false
  | .bool b => b
  | .num n => n.val != 0
  | .str s => s != ""
  | .object _ => true
  | .unprintable => true

/-- The conversion `String(x)`, which is also the conversion of a template literal and of a
property key: it throws a `TypeError` on an object that has no usable `toString`. -/
def JsAtom.toJsString : JsAtom → Except String String
  | .undefined => .ok "undefined"
  | .null => .ok "null"
  | .bool true => .ok "true"
  | .bool false => .ok "false"
  | .num n => .ok (toString n.val)
  | .str s => .ok s
  | .object image => .ok image
  | .unprintable => .error "TypeError"

/-- The `message` of the `TypeError` of a failed conversion. -/
def conversionMessage : String := "Cannot convert object to primitive value"

/-- The test `typeof data === 'object' && data !== null`. -/
def JsVal.isObject : JsVal → Bool
  | .atom (.object _) => true
  | .atom .unprintable => true
  | .atom _ => false
  | .record _ => true

/-- Property access `data.key`: a `TypeError` on `undefined` and `null`, `undefined` for a
missing key and for every key of a primitive or of an object without that field. -/
def JsVal.getField (data : JsVal) (key : String) : Except String JsAtom :=
  match data with
  | .atom .undefined => .error "TypeError"
  | .atom .null => .error "TypeError"
  | .atom _ => .ok .undefined
  | .record fields => .ok ((fields.lookup key).getD .undefined)

/-- Property access `data.key` where `data` is known not to be `undefined` or `null`. -/
def JsVal.field (data : JsVal) (key : String) : JsAtom :=
  match data with
  | .atom _ => .undefined
  | .record fields => (fields.lookup key).getD .undefined

/-- The payload read as a single value (a plain object is truthy and prints as
`[object Object]`). -/
def JsVal.asAtom : JsVal → JsAtom
  | .atom a => a
  | .record _ => .object "[object Object]"

/-- An optional string as a payload value, `null` when absent. -/
def JsAtom.ofOption : Option String → JsAtom
  | some s => .str s
  | none => .null

/-! ## The socket.io server state -/

abbrev SocketId := String
abbrev RoomId := String

inductive Role where
  | proctor
  | student
  deriving DecidableEq, Repr

/-- The object `socket.socketMetadata`; `none` stands for `null`. -/
structure Metadata where
  type : Option Role
  examId : Option String
  userId : Option String
  deriving DecidableEq, Repr

/-- One entry of `io.sockets.sockets`. -/
structure Socket where
  id : SocketId
  socketMetadata : Metadata
  deriving DecidableEq, Repr

/-- The server object `io`: the connected sockets and the adapter's room membership,
a pair `(room, socket id)` per membership, in order of joining. -/
structure Io where
  sockets : List Socket
  rooms : List (RoomId × SocketId)
  deriving DecidableEq, Repr

/-- The lookup `io.sockets.sockets.get(socketId)`. -/
def Io.getSocket (io : Io) (sid : SocketId) : Option Socket :=
  io.sockets.find? (fun s => s.id = sid)

/-- The stored `socket.socketMetadata` of the connection `sid`, if it is open. -/
def Io.metadataOf (io : Io) (sid : SocketId) : Option Metadata :=
  (io.getSocket sid).map (fun s => s.socketMetadata)

/-- The connection `sid` is a member of the room `roomId`. -/
abbrev Io.isMember (io : Io) (sid : SocketId) (roomId : RoomId) : Prop :=
  (roomId, sid) ∈ io.rooms

/-- The lookup `io.sockets.adapter.rooms.get(roomId)`: the members in order of joining,
`none` when the room has no member (socket.io deletes a room that becomes empty). -/
def Io.getRoom (io : Io) (roomId : RoomId) : Option (List SocketId) :=
  match (io.rooms.filter (fun p => p.1 = roomId)).map (fun p => p.2) with
  | [] => none
  | ms => some ms

/-- The members of a room, empty when the room does not exist. -/
def Io.members (io : Io) (roomId : RoomId) : List SocketId :=
  (io.getRoom roomId).getD []

/-- The library call `socket.join(room)`: a set insertion. -/
def Io.join (io : Io) (sid : SocketId) (roomId : RoomId) : Io :=
  if (roomId, sid) ∈ io.rooms then io else { io with rooms := io.rooms ++ [(roomId, sid)] }

/-- The assignment `socket.socketMetadata = m` on the socket `sid`. -/
def Io.setMetadata (io : Io) (sid : SocketId) (m : Metadata) : Io :=
  { io with sockets := io.sockets.map (fun s => if s.id = sid then { s with socketMetadata := m } else s) }

/-- What the library does when a client connects, before the `connection` listener runs:
the socket is registered and joins the room named by its own id. The listener then
initialises `socket.socketMetadata` to three nulls. -/
def Io.connect (io : Io) (sid : SocketId) : Io :=
  { sockets := io.sockets ++ [{ id := sid, socketMetadata := ⟨none, none, none⟩ }],
    rooms := io.rooms ++ [(sid, sid)] }

/-- What the library does when a connection closes, before the `disconnect` listener runs:
the socket leaves all its rooms and is removed from `io.sockets.sockets`. -/
def Io.teardown (io : Io) (sid : SocketId) : Io :=
  { sockets := io.sockets.filter (fun s => s.id ≠ sid),
    rooms := io.rooms.filter (fun p => p.2 ≠ sid) }

/-! ## Emissions -/

/-- The ways the server sends: `socket.emit`, `socket.to(room).emit`, `io.to(room).emit`,
and the acknowledgement callback a client may pass along with an event. -/
inductive Dest where
  | sender (sid : SocketId)
  | roomExcept (roomId : RoomId) (sid : SocketId)
  | room (roomId : RoomId)
  | callback (sid : SocketId)
  deriving DecidableEq, Repr

/-- The connections an emission is delivered to. `socket.to(room)` excepts the room named
by the id of the socket: the adapter leaves out every member of that room, the socket
itself among them while it is connected. -/
def Io.recipients (io : Io) : Dest → List SocketId
  | .sender sid => [sid]
  | .roomExcept roomId sid => (io.members roomId).filter (fun x => x ∉ io.members sid)
  | .room roomId => io.members roomId
  | .callback sid => [sid]

/-- One emitted event with its payload (an object literal, fields in source order) and the
connections it reached. -/
structure Emit where
  dest : Dest
  event : String
  payload : List (String × JsAtom)
  recipients : List SocketId
  deriving DecidableEq, Repr

/-- Emit `event` with `payload` to `dest`, delivered according to the current membership. -/
def Io.emit (io : Io) (dest : Dest) (event : String) (payload : List (String × JsAtom)) : Emit :=
  { dest := dest, event := event, payload := payload, recipients := io.recipients dest }

/-! ## `getRoomMembers` -/

/-- An element of `proctors` in the result of `getRoomMembers`. -/
structure ProctorEntry where
  socketId : SocketId
  examId : Option String
  deriving DecidableEq, Repr

/-- An element of `students` in the result of `getRoomMembers`. -/
structure StudentEntry where
  socketId : SocketId
  studentId : Option String
  examId : Option String
  deriving DecidableEq, Repr

/-- The result of `getRoomMembers`. -/
structure RoomMembers where
  total : Nat
  proctors : List ProctorEntry
  students : List StudentEntry
  deriving DecidableEq, Repr

/-- The body of `allSocketIds.forEach(...)` in `getRoomMembers` for one socket id. -/
def classifyMember (io : Io) (acc : RoomMembers) (socketId : SocketId) : RoomMembers :=
  match io.getSocket socketId with
  | none => acc
  | some socket =>
    if socket.socketMetadata.type = some .proctor then
      { acc with proctors := acc.proctors ++ [⟨socketId, socket.socketMetadata.examId⟩] }
    else if socket.socketMetadata.type = some .student then
      { acc with students := acc.students ++
          [⟨socketId, socket.socketMetadata.userId, socket.socketMetadata.examId⟩] }
    else acc

/-- The utility `getRoomMembers(io, roomId)`. -/
def getRoomMembers (io : Io) (roomId : RoomId) : RoomMembers :=
  match io.getRoom roomId with
  | none => ⟨0, [], []⟩
  | some allSocketIds => allSocketIds.foldl (classifyMember io) ⟨allSocketIds.length, [], []⟩

/-! ## The listeners registered on a connection

Each listener takes the clock, the server state, the id of the socket it is registered on
and the payload; it returns the new state and the emissions in order, or the exception it
lets escape. -/

/-- The exam id of `proctor-join` and `proctor-heartbeat`: the field `examId` of an object,
the payload itself otherwise. -/
def proctorExamId (data : JsVal) : JsAtom :=
  if data.isObject then data.field "examId" else data.asAtom

/-- The listener of `ping`. -/
def onPing (clock : Nat → String) (io : Io) (sid : SocketId) (hasCallback : Bool) :
    Io × List Emit :=
  let body := [("status", JsAtom.str "ok"), ("socketId", .str sid), ("timestamp", .str (clock 0))]
  if hasCallback then (io, [io.emit (.callback sid) "ping" body])
  else (io, [io.emit (.sender sid) "pong" body])

/-- The listener of `proctor-join`. -/
def onProctorJoin (clock : Nat → String) (io : Io) (sid : SocketId) (data : JsVal) :
    Except String (Io × List Emit) := do
  let examId := proctorExamId data
  if !examId.truthy then return (io, [])
  else
    let examIdStr ← examId.toJsString
    let io := io.setMetadata sid ⟨some .proctor, some examIdStr, none⟩
    let io := io.join sid examIdStr
    return (io,
      [io.emit (.roomExcept examIdStr sid) "proctor-connected"
        [("socketId", .str sid), ("timestamp", .str (clock 0))],
       io.emit (.room examIdStr) "proctor-status-update"
        [("examId", .str examIdStr), ("connected", .bool true), ("proctorId", .str sid),
         ("timestamp", .str (clock 1))],
       io.emit (.sender sid) "proctor-join-ack"
        [("success", .bool true), ("examId", .str examIdStr), ("socketId", .str sid)]])

/-- The listener of `student-join`. -/
def onStudentJoin (clock : Nat → String) (io : Io) (sid : SocketId) (data : JsVal) :
    Except String (Io × List Emit) := do
  let examId ← data.getField "examId"
  let studentId ← data.getField "studentId"
  if !examId.truthy || !studentId.truthy then return (io, [])
  else
    let studentIdStr ← studentId.toJsString
    let examIdStr ← examId.toJsString
    let timestamp := clock 0
    let io := io.join sid examIdStr
    let io := io.setMetadata sid ⟨some .student, some examIdStr, some studentIdStr⟩
    return (io,
      [io.emit (.roomExcept examIdStr sid) "student-connected"
        [("studentId", .str studentIdStr), ("socketId", .str sid), ("timestamp", .str timestamp),
         ("reconnection", .bool true)],
       io.emit (.roomExcept examIdStr sid) "student-online"
        [("studentId", .str studentIdStr), ("socketId", .str sid), ("timestamp", .str timestamp)]])

/-- The listener of `student-video`. -/
def onStudentVideo (clock : Nat → String) (io : Io) (sid : SocketId) (data : JsVal) :
    Except String (Io × List Emit) := do
  let studentId ← data.getField "studentId"
  let studentIdStr ← studentId.toJsString
  let examId ← data.getField "examId"
  let examIdStr ← examId.toJsString
  let videoData ← data.getField "videoData"
  return (io,
    [io.emit (.roomExcept examIdStr sid) "student-video-update"
      [("studentId", .str studentIdStr), ("videoData", videoData),
       ("timestamp", .str (clock 0))]])

/-- The JavaScript expression `a || b`. -/
def JsAtom.orElse (a b : JsAtom) : JsAtom := if a.truthy then a else b

/-- The listener of `request-id-verification`. On invalid parameters the template literal of
`console.error` converts both values before the emission. Inside the `try` block only the
two conversions can throw; the `catch` block then converts `studentId || 'unknown'` and
`examId || 'unknown'` before it emits. -/
def onRequestIdVerification (clock : Nat → String) (io : Io) (sid : SocketId) (data : JsVal) :
    Except String (Io × List Emit) := do
  let studentId ← data.getField "studentId"
  let examId ← data.getField "examId"
  if !studentId.truthy || !examId.truthy then
    let _ ← studentId.toJsString
    let _ ← examId.toJsString
    return (io,
      [io.emit (.sender sid) "verification-request-sent"
        [("studentId", studentId.orElse (.str "unknown")),
         ("examId", examId.orElse (.str "unknown")),
         ("timestamp", .str (clock 0)), ("success", .bool false),
         ("error", .str "Missing required parameters")]])
  else
    match studentId.toJsString, examId.toJsString with
    | .ok studentIdStr, .ok examIdStr =>
      let timestamp := clock 0
      return (io,
        [io.emit (.roomExcept examIdStr sid) "verify-id"
          [("studentId", .str studentIdStr), ("requestedBy", .str sid),
           ("timestamp", .str timestamp)],
         io.emit (.sender sid) "verification-request-sent"
          [("studentId", .str studentIdStr), ("examId", .str examIdStr),
           ("timestamp", .str timestamp), ("success", .bool true)]])
    | _, _ =>
      let studentIdStr ← (studentId.orElse (.str "unknown")).toJsString
      let examIdStr ← (examId.orElse (.str "unknown")).toJsString
      return (io,
        [io.emit (.sender sid) "verification-request-sent"
          [("studentId", .str studentIdStr), ("examId", .str examIdStr),
           ("timestamp", .str (clock 0)), ("success", .bool false),
           ("error", .str conversionMessage)]])

/-- The listener of `id-verification-response`. -/
def onIdVerificationResponse (clock : Nat → String) (io : Io) (sid : SocketId) (data : JsVal) :
    Except String (Io × List Emit) := do
  let studentId ← data.getField "studentId"
  let examId ← data.getField "examId"
  let verified ← data.getField "verified"
  let studentIdStr ← studentId.toJsString
  let examIdStr ← examId.toJsString
  return (io,
    [io.emit (.roomExcept examIdStr sid) "id-verification-result"
      [("studentId", .str studentIdStr), ("verified", verified),
       ("timestamp", .str (clock 0)), ("verifiedBy", .str sid)],
     io.emit (.sender sid) "verification-response-received"
      [("success", .bool true), ("verified", verified)]])

/-- The own keys of the object literal `descriptions`. -/
def descriptions : List (String × String) :=
  [("no_face_visible", "No face visible in camera"),
   ("multiple_faces", "Multiple faces detected"),
   ("looking_away", "Looking away from screen"),
   ("unusual_movement", "Unusual movement detected"),
   ("other", "Suspicious activity detected")]

/-- The keys every object literal inherits from `Object.prototype`; each holds a function or
an object, hence a truthy value. -/
def inheritedKeys : List String :=
  ["constructor", "hasOwnProperty", "isPrototypeOf", "propertyIsEnumerable", "toLocaleString",
   "toString", "valueOf", "__proto__", "__defineGetter__", "__defineSetter__",
   "__lookupGetter__", "__lookupSetter__"]

/-- The helper `getIncidentTypeDescription(type)`: `descriptions[type] || 'Suspicious
activity detected'`; the property key is `type` converted to a string. -/
def getIncidentTypeDescription (type : JsAtom) : Except String JsAtom := do
  let key ← type.toJsString
  match descriptions.lookup key with
  | some label => return .str label
  | none =>
    if key ∈ inheritedKeys then return .object ("Object.prototype." ++ key)
    else return .str "Suspicious activity detected"

/-- The expression `data.description || getIncidentTypeDescription(data.type)`: the helper is
called only when the description is missing or empty. -/
def reportDescription (data : JsVal) (type : JsAtom) : Except String JsAtom :=
  if (data.field "description").truthy then .ok (data.field "description")
  else getIncidentTypeDescription type

/-- The `try` block of `report-suspicious-activity`, run up to its end or to its first
exception: the emissions made, and whether it reached its end. The conversions to strings
can throw, the last of them in the template literal of `console.log`, which stands between
the broadcast and the acknowledgment. -/
def reportAttempt (clock : Nat → String) (io : Io) (sid : SocketId) (data : JsVal)
    (studentId examId type : JsAtom) : List Emit × Bool :=
  match studentId.toJsString with
  | .error _ => ([], false)
  | .ok studentIdStr =>
    match examId.toJsString with
    | .error _ => ([], false)
    | .ok examIdStr =>
      let timestamp := (data.field "timestamp").orElse (.str (clock 0))
      match reportDescription data type with
      | .error _ => ([], false)
      | .ok description =>
        let broadcast := io.emit (.roomExcept examIdStr sid) "suspicious-activity"
          [("studentId", .str studentIdStr), ("type", type), ("description", description),
           ("timestamp", timestamp), ("reportedBy", .str sid)]
        match type.toJsString with
        | .error _ => ([broadcast], false)
        | .ok _ =>
          ([broadcast,
            io.emit (.sender sid) "incident-report-sent"
              [("studentId", .str studentIdStr), ("examId", .str examIdStr), ("type", type),
               ("timestamp", timestamp), ("success", .bool true)]], true)

/-- The listener of `report-suspicious-activity`: the validation, the `try` block, and the
`catch` block, which acknowledges the failure to the reporter. -/
def onReportSuspiciousActivity (clock : Nat → String) (io : Io) (sid : SocketId) (data : JsVal) :
    Except String (Io × List Emit) := do
  let studentId ← data.getField "studentId"
  let examId ← data.getField "examId"
  let type ← data.getField "type"
  if !studentId.truthy || !examId.truthy || !type.truthy then return (io, [])
  else
    let attempt := reportAttempt clock io sid data studentId examId type
    if attempt.2 then return (io, attempt.1)
    else
      return (io, attempt.1 ++
        [io.emit (.sender sid) "incident-report-sent"
          [("success", .bool false), ("error", .str conversionMessage)]])

/-- The listener of `disconnect`, run after the library has torn the connection down;
`metadata` is the `socket.socketMetadata` the closed socket still carries. -/
def onDisconnect (clock : Nat → String) (io : Io) (sid : SocketId) (metadata : Metadata)
    (reason : String) : List Emit :=
  match metadata.type, metadata.examId, metadata.userId with
  | some .student, some examId, some userId =>
    if examId ≠ "" ∧ userId ≠ "" then
      [io.emit (.roomExcept examId sid) "student-disconnected"
        [("studentId", .str userId), ("socketId", .str sid), ("reason", .str reason),
         ("timestamp", .str (clock 0))]]
    else []
  | _, _, _ => []

/-- The listener of `student-heartbeat`. -/
def onStudentHeartbeat (clock : Nat → String) (io : Io) (sid : SocketId) (data : JsVal) :
    Except String (Io × List Emit) := do
  let examId ← data.getField "examId"
  let studentId ← data.getField "studentId"
  if !examId.truthy || !studentId.truthy then return (io, [])
  else
    let studentIdStr ← studentId.toJsString
    let examIdStr ← examId.toJsString
    let timestamp := clock 0
    let metadata := io.metadataOf sid
    let io :=
      if metadata.bind (fun m => m.type) ≠ some Role.student
          ∨ metadata.bind (fun m => m.userId) ≠ some studentIdStr then
        (io.setMetadata sid ⟨some .student, some examIdStr, some studentIdStr⟩).join sid examIdStr
      else io
    return (io,
      [io.emit (.roomExcept examIdStr sid) "student-online"
        [("studentId", .str studentIdStr), ("socketId", .str sid), ("timestamp", .str timestamp)]])

/-- The listener of `student-submit-exam`. -/
def onStudentSubmitExam (clock : Nat → String) (io : Io) (sid : SocketId) (data : JsVal) :
    Except String (Io × List Emit) := do
  let examId ← data.getField "examId"
  let studentId ← data.getField "studentId"
  let studentIdStr ← studentId.toJsString
  let examIdStr ← examId.toJsString
  let timestamp := clock 0
  return (io,
    [io.emit (.roomExcept examIdStr sid) "student-submitted-exam"
      [("studentId", .str studentIdStr), ("examId", .str examIdStr), ("timestamp", .str timestamp)],
     io.emit (.sender sid) "exam-submission-received"
      [("success", .bool true), ("timestamp", .str timestamp)]])

/-- The listener of `request-connection-status`. Nothing inside its `try` block can throw. -/
def onRequestConnectionStatus (clock : Nat → String) (io : Io) (sid : SocketId) (data : JsVal) :
    Except String (Io × List Emit) := do
  let examId ← data.getField "examId"
  if !examId.truthy then return (io, [])
  else
    let examIdStr ← examId.toJsString
    let roomMembers := getRoomMembers io examIdStr
    return (io,
      (roomMembers.students.enum.map (fun p =>
        io.emit (.sender sid) "student-online"
          [("studentId", JsAtom.ofOption p.2.studentId), ("socketId", .str p.2.socketId),
           ("timestamp", .str (clock p.1))]))
      ++ [io.emit (.sender sid) "connection-status-response"
          [("success", .bool true), ("examId", .str examIdStr),
           ("connectedStudents", .num (SafeInt.ofNat roomMembers.students.length)),
           ("connectedProctors", .num (SafeInt.ofNat roomMembers.proctors.length)),
           ("timestamp", .str (clock roomMembers.students.length))]])

/-- The listener of `proctor-heartbeat`. -/
def onProctorHeartbeat (clock : Nat → String) (io : Io) (sid : SocketId) (data : JsVal) :
    Except String (Io × List Emit) := do
  let examId := proctorExamId data
  if !examId.truthy then return (io, [])
  else
    let examIdStr ← examId.toJsString
    let timestamp := clock 0
    let metadata := io.metadataOf sid
    let io :=
      if metadata.bind (fun m => m.type) ≠ some Role.proctor
          ∨ metadata.bind (fun m => m.examId) ≠ some examIdStr then
        (io.setMetadata sid ⟨some .proctor, some examIdStr, none⟩).join sid examIdStr
      else io
    let roomMembers := getRoomMembers io examIdStr
    return (io,
      (if roomMembers.students.length > 0 then
        [io.emit (.room examIdStr) "proctor-status-update"
          [("examId", .str examIdStr), ("connected", .bool true), ("proctorId", .str sid),
           ("timestamp", .str timestamp)]]
       else [])
      ++ [io.emit (.sender sid) "heartbeat-ack"
          [("received", .bool true), ("timestamp", .str timestamp)]])

/-! ## Connections and their events -/

/-- The events a connected client can send, and the close of its connection. -/
inductive Event where
  | ping (hasCallback : Bool)
  | proctorJoin (data : JsVal)
  | studentJoin (data : JsVal)
  | studentVideo (data : JsVal)
  | requestIdVerification (data : JsVal)
  | idVerificationResponse (data : JsVal)
  | reportSuspiciousActivity (data : JsVal)
  | studentHeartbeat (data : JsVal)
  | studentSubmitExam (data : JsVal)
  | requestConnectionStatus (data : JsVal)
  | proctorHeartbeat (data : JsVal)
  | error
  | disconnect (reason : String)
  deriving DecidableEq, Repr

/-- Dispatch of one event to the listener registered for it on the connected socket `sid`.
For `disconnect` the library first tears the connection down. -/
def handle (clock : Nat → String) (io : Io) (sid : SocketId) :
    Event → Except String (Io × List Emit)
  | .ping hasCallback => .ok (onPing clock io sid hasCallback)
  | .proctorJoin data => onProctorJoin clock io sid data
  | .studentJoin data => onStudentJoin clock io sid data
  | .studentVideo data => onStudentVideo clock io sid data
  | .requestIdVerification data => onRequestIdVerification clock io sid data
  | .idVerificationResponse data => onIdVerificationResponse clock io sid data
  | .reportSuspiciousActivity data => onReportSuspiciousActivity clock io sid data
  | .studentHeartbeat data => onStudentHeartbeat clock io sid data
  | .studentSubmitExam data => onStudentSubmitExam clock io sid data
  | .requestConnectionStatus data => onRequestConnectionStatus clock io sid data
  | .proctorHeartbeat data => onProctorHeartbeat clock io sid data
  | .error => .ok (io, [])
  | .disconnect reason =>
    match io.getSocket sid with
    | none => .ok (io, [])
    | some socket =>
      let io := io.teardown sid
      .ok (io, onDisconnect clock io sid socket.socketMetadata reason)

/-- What reaches the server: a client connects under a socket id, or a connected socket
receives an event; `clock` holds the clock readings taken while the event is handled. -/
inductive Input where
  | connection (sid : SocketId)
  | event (sid : SocketId) (ev : Event) (clock : Nat → String)

/-- The socket the input concerns. -/
def Input.sid : Input → SocketId
  | .connection sid => sid
  | .event sid _ _ => sid

/-- The server handles one input. Socket ids are unique among open connections and events
arrive on open connections only: an input that breaks this is ignored. -/
def step (io : Io) : Input → Except String (Io × List Emit)
  | .connection sid =>
    if (io.getSocket sid).isSome then .ok (io, []) else .ok (io.connect sid, [])
  | .event sid ev clock =>
    if (io.getSocket sid).isSome then handle clock io sid ev else .ok (io, [])

/-- The server handles inputs in order; an uncaught exception ends the run. -/
def run (io : Io) : List Input → Except String (Io × List Emit)
  | [] => .ok (io, [])
  | i :: rest => do
    let (io, emits) ← step io i
    let (io, more) ← run io rest
    return (io, emits ++ more)

/-- The state of a server that has just started. -/
def Io.init : Io := ⟨[], []⟩

/-- A state the server can be in: reached from the start by handling inputs. -/
def Reachable (io : Io) : Prop :=
  ∃ inputs emits, run Io.init inputs = .ok (io, emits)

/-- The state after handling `inputs` from `io`, `none` if a listener threw. -/
def stateAfter (io : Io) (inputs : List Input) : Option Io :=
  match run io inputs with
  | .ok r => some r.1
  | .error _ => none

/-- The four events that assign a connection to an exam. -/
def Event.isJoinOrHeartbeat : Event → Bool
  | .proctorJoin _ => true
  | .studentJoin _ => true
  | .studentHeartbeat _ => true
  | .proctorHeartbeat _ => true
  | _ => false

/-- A sequence of events received on the one connection `sid`, each with its clock. -/
def onConnection (sid : SocketId) (events : List (Event × (Nat → String))) : List Input :=
  events.map (fun p => Input.event sid p.1 p.2)

/-- The emissions made while handling `inputs` from `io`, none if a listener threw. -/
def emitsAfter (io : Io) (inputs : List Input) : List Emit :=
  match run io inputs with
  | .ok r => r.2
  | .error _ => []

/-- The connection `sid` is closed: no socket carries its id and no room holds it. -/
def Io.closed (io : Io) (sid : SocketId) : Prop :=
  io.getSocket sid = none ∧ ∀ p ∈ io.rooms, p.2 ≠ sid

/-- The three shapes `socket.socketMetadata` takes: all null before any join, a proctor with
an exam and no user, a student with an exam and a user. -/
def Metadata.wellFormed (m : Metadata) : Prop :=
  match m.type with
  | none => m.examId = none ∧ m.userId = none
  | some .proctor => m.examId.isSome = true ∧ m.userId = none
  | some .student => m.examId.isSome = true ∧ m.userId.isSome = true

/-- What holds of the server state whatever the clients do: socket ids are unique, every
member of a room is an open connection, a connection whose metadata names an exam is a
member of that exam's room, every metadata has one of its three shapes, every open
connection is a member of the room named by its own id, and a connection whose metadata
names no exam is a member of that room only. -/
structure Inv (io : Io) : Prop where
  nodup : (io.sockets.map (fun s => s.id)).Nodup
  connected : ∀ p ∈ io.rooms, (io.getSocket p.2).isSome = true
  metaRoom : ∀ s ∈ io.sockets, ∀ E, s.socketMetadata.examId = some E → io.isMember s.id E
  shape : ∀ s ∈ io.sockets, s.socketMetadata.wellFormed
  ownRoom : ∀ s ∈ io.sockets, io.isMember s.id s.id
  unjoined : ∀ s ∈ io.sockets, s.socketMetadata.examId = none →
    ∀ E, io.isMember s.id E → E = s.id

/-! ## The exam lifecycle scheduler -/

inductive Status where
  | scheduled
  | inProgress
  | completed
  | cancelled
  deriving DecidableEq, Repr

/-- The fields of an `Exam` document that `checkExamSchedules` reads or writes. -/
structure Exam where
  _id : String
  title : String
  status : Status
  startTime : Int
  endTime : Int
  deriving DecidableEq, Repr

/-- Which storage operations of one cycle reject. `saveFails k` is the `k`-th call of
`exam.save()` in the cycle, counted from 0 across both loops. -/
structure Faults where
  findStartFails : Bool
  findEndFails : Bool
  saveFails : Nat → Bool

/-- No storage operation rejects. -/
def Faults.none : Faults := ⟨false, false, fun _ => false⟩

/-- The filter of the first `Exam.find`: scheduled, `startTime ≤ now`, `endTime > now`. -/
def startDue (now : Int) (e : Exam) : Bool :=
  e.status = .scheduled && e.startTime ≤ now && e.endTime > now

/-- The filter of the second `Exam.find`: in progress and `endTime ≤ now`. -/
def endDue (now : Int) (e : Exam) : Bool :=
  e.status = .inProgress && e.endTime ≤ now

/-- The call `exam.save()` after `exam.status` was assigned: the stored document with the
same `_id` takes the new status. -/
def save (store : List Exam) (doc : Exam) : List Exam :=
  store.map (fun e => if e._id = doc._id then { e with status := doc.status } else e)

/-- The state of a cycle: the stored documents, the emissions so far, the number of
`save` calls so far, and whether the `catch` block was entered. -/
structure Cycle where
  store : List Exam
  emits : List Emit
  saves : Nat
  failed : Bool

/-- The payload of `exam-started` and `exam-ended`. -/
def lifecyclePayload (exam : Exam) (verb : String) (timestamp : String) : List (String × JsAtom) :=
  [("examId", .str exam._id), ("title", .str exam.title),
   ("message", .str ("The exam \"" ++ exam.title ++ "\" has " ++ verb ++ "!")),
   ("timestamp", .str timestamp)]

/-- The two `for (const exam of ...)` loops of `checkExamSchedules`, which differ in the
status written, the event and the verb of the message only: assign the status, save
(a rejection leaves the loop for the `catch` block), then emit to the room of the exam. -/
def transitionLoop (F : Faults) (clock : Nat → String) (io : Io)
    (status : Status) (event verb : String) : List Exam → Cycle → Cycle
  | [], c => c
  | exam :: rest, c =>
    if F.saveFails c.saves then { c with failed := true }
    else
      let doc := { exam with status := status }
      transitionLoop F clock io status event verb rest
        { c with
          store := save c.store doc,
          emits := c.emits ++ [io.emit (.room doc._id) event
            (lifecyclePayload doc verb (clock c.emits.length))],
          saves := c.saves + 1 }

/-- One run of `checkExamSchedules` at time `now` on the stored documents `store`, taken as one
uninterrupted step: nothing else writes the documents or changes the rooms while it runs.
`failed` tells whether the `catch` block was entered. -/
def checkExamSchedules (F : Faults) (clock : Nat → String) (io : Io) (now : Int)
    (store : List Exam) : Cycle :=
  if F.findStartFails then ⟨store, [], 0, true⟩
  else
    let examsToStart := store.filter (startDue now)
    let c := transitionLoop F clock io .inProgress "exam-started" "started" examsToStart
      ⟨store, [], 0, false⟩
    if c.failed then c
    else if F.findEndFails then { c with failed := true }
    else
      let examsToEnd := c.store.filter (endDue now)
      transitionLoop F clock io .completed "exam-ended" "ended" examsToEnd c

/-- One firing of the timer set by `setInterval(checkExamSchedules, 60000)`: the storage
rejections, the clock, the rooms and the time `now` of that run. -/
structure Tick where
  F : Faults
  clock : Nat → String
  io : Io
  now : Int

/-- Successive runs of `checkExamSchedules`, each on the documents left by the previous
one; emissions are accumulated, `failed` records whether any run entered its `catch`. -/
def runCycles : List Tick → List Exam → Cycle
  | [], store => ⟨store, [], 0, false⟩
  | t :: ts, store =>
    let c := checkExamSchedules t.F t.clock t.io t.now store
    let r := runCycles ts c.store
    ⟨r.store, c.emits ++ r.emits, c.saves + r.saves, c.failed || r.failed⟩

/-! ### Vocabulary for the statements about the scheduler -/

/-- The documents whose `_id` is in `ids` take the status `s`. -/
def setStatusOf (ids : List String) (s : Status) (store : List Exam) : List Exam :=
  store.map (fun e => if e._id ∈ ids then { e with status := s } else e)

/-- The emissions of a loop that runs over `docs` without a rejection, the first one
stamped with `clock base`. -/
def loopEmits (clock : Nat → String) (io : Io) (status : Status) (event verb : String) :
    Nat → List Exam → List Emit
  | _, [] => []
  | base, exam :: rest =>
    io.emit (.room exam._id) event (lifecyclePayload { exam with status := status } verb (clock base))
      :: loopEmits clock io status event verb (base + 1) rest

/-- What the first loop of a cycle at `now` does to a document. -/
def startDoc (now : Int) (e : Exam) : Exam :=
  if startDue now e then { e with status := .inProgress } else e

/-- What one successful cycle at `now` does to a document. -/
def cycleDoc (now : Int) (e : Exam) : Exam :=
  if startDue now e then { e with status := .inProgress }
  else if endDue now e then { e with status := .completed }
  else e

/-- The number of emissions of `event` addressed to the room `roomId`. -/
def countTo (event : String) (roomId : RoomId) (emits : List Emit) : Nat :=
  emits.countP (fun m => m.event = event && m.dest = .room roomId)

/-! ## Incidents: the `Incident` model and `POST /api/exams/:id/incidents` -/

/-- The values allowed for `type` by the `enum` of `IncidentSchema`. -/
def incidentTypes : List String :=
  ["no_face_visible", "multiple_faces", "looking_away", "unusual_movement", "other"]

/-- A stored document of the `Incident` model. The ids are kept as they were given, before
the cast to `ObjectId`; `timestamp` is a `Date`; `resolutionNotes` is never set on creation. -/
structure Incident where
  exam : String
  student : JsAtom
  reportedBy : String
  type : String
  description : String
  timestamp : Int
  resolved : Bool
  deriving DecidableEq, Repr

/-- A rejection by the storage library: its `kind` (empty when it has none) and `message`. -/
structure StorageError where
  kind : String
  message : String
  deriving DecidableEq, Repr

/-- What the route takes from its surroundings: the test `mongoose.Types.ObjectId.isValid`,
the value of `Date.now()` when a document is built, the rejections of `Exam.findById`
and of the insertion, if any, the `message` the library gives to the validation error
of a `type` and a `description`, and the `message` the engine gives to the `TypeError` of
destructuring a `req.body` that is `undefined` or `null`. -/
structure IncidentEnv where
  isValid : JsAtom → Bool
  now : Int
  findError : Option StorageError
  insertError : Option StorageError
  validationMessage : JsAtom → JsAtom → String
  bodyMessage : String

/-- The cast of a value to the schema type `String`: strings, numbers and booleans are
converted, objects and arrays are refused. -/
def castString : JsAtom → Option String
  | .str s => some s
  | .num n => some (toString n.val)
  | .bool true => some "true"
  | .bool false => some "false"
  | _ => none

/-- The call `Incident.create({exam, student, reportedBy, type, description})`: the schema
defaults `timestamp` to `Date.now` and `resolved` to `false`, validation refuses a `type`
outside the enum and a value that is no string, then the document is inserted. -/
def Incident.create (env : IncidentEnv) (incidents : List Incident) (exam : String)
    (student : JsAtom) (reportedBy : String) (type description : JsAtom) :
    Except StorageError (Incident × List Incident) :=
  match castString type, castString description with
  | some t, some d =>
    if t ∈ incidentTypes then
      match env.insertError with
      | some err => .error err
      | none =>
        let incident : Incident := ⟨exam, student, reportedBy, t, d, env.now, false⟩
        .ok (incident, incidents ++ [incident])
    else .error ⟨"", env.validationMessage type description⟩
  | _, _ => .error ⟨"", env.validationMessage type description⟩

/-- The JSON body of a response of the route, with its status code. -/
structure Response where
  status : Nat
  success : Bool
  message : Option String
  error : Option String
  data : Option Incident
  deriving DecidableEq, Repr

/-- The handler of `POST /api/exams/:id/incidents`, run once `protect` and
`authorize('proctor')` have let the request through: `id` is `req.params.id`, `userId` is
`req.user.id`, `body` is `req.body`. It returns the response and the stored incidents. -/
def postIncident (env : IncidentEnv) (exams : List Exam) (incidents : List Incident)
    (id userId : String) (body : JsVal) : Response × List Incident :=
  if !env.isValid (.str id) then
    (⟨400, false, some "Invalid exam ID format", none, none⟩, incidents)
  else
    match env.findError with
    | some err =>
      if err.kind = "ObjectId" then
        (⟨404, false, some "Exam or student not found", none, none⟩, incidents)
      else (⟨500, false, some "Server error", some err.message, none⟩, incidents)
    | none =>
      match exams.find? (fun e => e._id = id) with
      | none => (⟨404, false, some "Exam not found", none, none⟩, incidents)
      | some _ =>
        match body.getField "student", body.getField "type", body.getField "description" with
        | .ok student, .ok type, .ok description =>
          if !student.truthy then
            (⟨400, false, some "Please provide a student ID", none, none⟩, incidents)
          else if !type.truthy then
            (⟨400, false, some "Please provide an incident type", none, none⟩, incidents)
          else if !env.isValid student then
            (⟨400, false, some "Invalid student ID format", none, none⟩, incidents)
          else
            match Incident.create env incidents id student userId type
                (description.orElse (.str "")) with
            | .ok (incident, incidents) => (⟨201, true, none, none, some incident⟩, incidents)
            | .error createError =>
              (⟨500, false, some "Error creating incident", some createError.message, none⟩,
                incidents)
        | _, _, _ => (⟨500, false, some "Server error", some env.bodyMessage, none⟩, incidents)

/-! ## The server as a whole -/

/-- The state of the server: the socket.io state and the stored documents. -/
structure Server where
  io : Io
  exams : List Exam
  incidents : List Incident
  deriving DecidableEq, Repr

/-- A socket event handled by the server. The listeners of `server.js` use no model: the
stored documents are left as they are. -/
def Server.onEvent (clock : Nat → String) (s : Server) (sid : SocketId) (ev : Event) :
    Except String (Server × List Emit) :=
  match handle clock s.io sid ev with
  | .ok r => .ok ({ s with io := r.1 }, r.2)
  | .error e => .error e

/-- A request `POST /api/exams/:id/incidents` handled by the server. The routes emit no
socket event. -/
def Server.onPostIncident (env : IncidentEnv) (s : Server) (id userId : String)
    (body : JsVal) : Response × Server :=
  let r := postIncident env s.exams s.incidents id userId body
  (r.1, { s with incidents := r.2 })

/-! ## The middleware `authorize` and `PATCH /api/exams/:id/status` -/

/-- What a middleware does with a request: hand it on by calling `next()`, or answer it with
a status code and the JSON body `{success, message}`. -/
inductive Handled where
  | next
  | respond (status : Nat) (success : Bool) (message : String)
  deriving DecidableEq, Repr

/-- The image `String(x)` of a value that the conversion accepts. -/
def JsAtom.image : (a : JsAtom) → a ≠ .unprintable → String
  | .undefined, _ => "undefined"
  | .null, _ => "null"
  | .bool true, _ => "true"
  | .bool false, _ => "false"
  | .num n, _ => toString n.val
  | .str s, _ => s
  | .object image, _ => image
  | .unprintable, h => absurd rfl h

/-- The fields of `req.user` that `authorize` reads. The user is a stored document: its
role is a value that converts to a string. -/
structure User where
  id : String
  role : JsAtom
  printable : role ≠ .unprintable
  deriving DecidableEq, Repr

/-- The middleware returned by `authorize(...roles)`, applied to a request whose `req.user`
is `user` (`none` when `protect` did not set it). -/
def authorize (roles : List String) (user : Option User) : Handled :=
  match user with
  | none => .respond 500 false "User not authenticated properly"
  | some u =>
    if !(roles.any (fun r => u.role = .str r)) then
      .respond 403 false
        ("User role " ++ u.role.image u.printable ++ " is not authorized to access this route")
    else .next

/-- The array `validStatuses` of the route. -/
def validStatuses : List String := ["scheduled", "in-progress", "completed", "cancelled"]

/-- The status a string of `validStatuses` stands for. -/
def Status.ofString : String → Option Status
  | "scheduled" => some .scheduled
  | "in-progress" => some .inProgress
  | "completed" => some .completed
  | "cancelled" => some .cancelled
  | _ => none

/-- The JSON body of a response of the status route, with its status code. -/
structure ExamResponse where
  status : Nat
  success : Bool
  message : String
  error : Option String
  data : Option Exam
  deriving DecidableEq, Repr

/-- The rejections of `Exam.findById` and of `exam.save()` in the status route, if any, and
the `message` the engine gives to the `TypeError` of destructuring a `req.body` that is
`undefined` or `null`. -/
structure StatusEnv where
  findError : Option StorageError
  saveError : Option StorageError
  bodyMessage : String

/-- The `catch` block of the status route. -/
def statusCatch (err : StorageError) : ExamResponse :=
  if err.kind = "ObjectId" then ⟨404, false, "Exam not found", none, none⟩
  else ⟨500, false, "Error updating exam status", some err.message, none⟩

/-- The handler of `PATCH /api/exams/:id/status`, run once `protect` and
`authorize('admin')` have let the request through: `id` is `req.params.id`, `body` is
`req.body`. It returns the response and the stored exams. -/
def patchStatus (env : StatusEnv) (exams : List Exam) (id : String) (body : JsVal) :
    ExamResponse × List Exam :=
  match body.getField "status" with
  | .error _ => (statusCatch ⟨"", env.bodyMessage⟩, exams)
  | .ok status =>
    if !status.truthy then (⟨400, false, "Please provide a status", none, none⟩, exams)
    else
      match status with
      | .str s =>
        match Status.ofString s with
        | none =>
          (⟨400, false,
            "Invalid status. Must be one of: scheduled, in-progress, completed, cancelled",
            none, none⟩, exams)
        | some requested =>
          match env.findError with
          | some err => (statusCatch err, exams)
          | none =>
            match exams.find? (fun e => e._id = id) with
            | none => (⟨404, false, "Exam not found", none, none⟩, exams)
            | some exam =>
              let exam := { exam with status := requested }
              match env.saveError with
              | some err => (statusCatch err, exams)
              | none =>
                (⟨200, true, "Exam status updated to " ++ s, none, some exam⟩, save exams exam)
      | _ =>
        (⟨400, false,
          "Invalid status. Must be one of: scheduled, in-progress, completed, cancelled",
          none, none⟩, exams)

/-! ### Vocabulary for the statements about payloads -/

/-- The value of the field `key` of the payload of an emission, if it has one. -/
def Emit.field (m : Emit) (key : String) : Option JsAtom :=
  m.payload.lookup key

/-- The value is a boolean. -/
def JsAtom.isBool : JsAtom → Bool
  | .bool _ => true
  | _ => false

/-- The events the server sends back to the sender of an event as acknowledgments. -/
def ackEvents : List String :=
  ["proctor-join-ack", "heartbeat-ack", "verification-request-sent",
   "verification-response-received", "incident-report-sent", "exam-submission-received",
   "connection-status-response"]

/-- What an acknowledgment carries, event by event. -/
def ackShape (clock : Nat → String) (sid : SocketId) (m : Emit) : Prop :=
  m.dest = .sender sid ∧
  (m.event = "proctor-join-ack" ∨ m.event = "verification-response-received" →
    m.field "success" = some (.bool true) ∧ m.field "timestamp" = none) ∧
  (m.event = "heartbeat-ack" →
    m.field "success" = none ∧ m.field "received" = some (.bool true) ∧
    m.field "timestamp" = some (.str (clock 0))) ∧
  (m.event = "verification-request-sent" ∨
      m.event = "exam-submission-received" ∨ m.event = "connection-status-response" →
    (∃ b, m.field "success" = some (.bool b)) ∧ (m.field "timestamp").isSome = true) ∧
  (m.event = "incident-report-sent" →
    (m.field "success" = some (.bool true) ∧ (m.field "timestamp").isSome = true) ∨
    (m.field "success" = some (.bool false) ∧ m.field "timestamp" = none ∧
      m.field "error" = some (.str conversionMessage))) ∧
  (m.field "success" = some (.bool false) → (m.field "error").isSome = true)

/-! ### Sample data -/

/-- A clock whose `k`-th reading is `t` followed by `k`. -/
def tickClock : Nat → String := fun k => "t" ++ toString k

/-- A proctor connects, joins exam `A`, then joins exam `B`. -/
def rejoinInputs : List Input :=
  [.connection "s1",
   .event "s1" (.proctorJoin (.atom (.str "A"))) tickClock,
   .event "s1" (.proctorJoin (.record [("examId", .str "B")])) tickClock]

/-- A proctor connects, joins exam `A`, then heartbeats into exam `B`. -/
def migrateInputs : List Input :=
  [.connection "s1",
   .event "s1" (.proctorJoin (.atom (.str "A"))) tickClock,
   .event "s1" (.proctorHeartbeat (.record [("examId", .str "B")])) tickClock]

/-- The state after `rejoinInputs`, and after `migrateInputs`. -/
def twoRooms : Io :=
  ⟨[⟨"s1", ⟨some .proctor, some "B", none⟩⟩], [("s1", "s1"), ("A", "s1"), ("B", "s1")]⟩

/-- One connection `s1`, open and not yet joined. -/
def oneOpen : Io := Io.init.connect "s1"

/-- A proctor `s1` in exam `A`, and a second connection `s2`, open and not yet joined. -/
def proctorAndGuest : Io :=
  ⟨[⟨"s1", ⟨some .proctor, some "A", none⟩⟩, ⟨"s2", ⟨none, none, none⟩⟩],
   [("s1", "s1"), ("A", "s1"), ("s2", "s2")]⟩

/-- The inputs that lead to `proctorAndGuest`. -/
def proctorAndGuestInputs : List Input :=
  [.connection "s1",
   .event "s1" (.proctorJoin (.atom (.str "A"))) tickClock,
   .connection "s2"]

/-- Four stored exams: one due to start at 1000, one in progress and over, one not yet due,
one of zero duration. -/
def sampleStore : List Exam :=
  [⟨"e1", "Algebra", .scheduled, 1000, 61000⟩, ⟨"e2", "Logic", .inProgress, 0, 900⟩,
   ⟨"e3", "Optics", .scheduled, 5000, 9000⟩, ⟨"e4", "Zero", .scheduled, 1000, 1000⟩]

/-- A student `s1` sits in the room of exam `e1`. -/
def sampleRooms : Io :=
  ⟨[⟨"s1", ⟨some .student, some "e1", some "u1"⟩⟩], [("s1", "s1"), ("e1", "s1")]⟩

/-- A timer firing at `now` with no storage rejection. -/
def sampleTick (now : Int) : Tick := ⟨Faults.none, tickClock, sampleRooms, now⟩

/-- The id of the exam of the sample server. -/
def sampleExamId : String := "64b7f0c2a1d3e4f5a6b7c8d9"

/-- The id of the user who reports in the samples. -/
def sampleProctorId : String := "64b7f0c2a1d3e4f5a6b7c001"

/-- The id of the student reported in the samples. -/
def sampleStudentId : String := "64b7f0c2a1d3e4f5a6b7c002"

/-- Surroundings in which a value is a valid id when it prints as 24 characters, the clock
reads 5000 and no storage operation rejects. -/
def sampleEnv : IncidentEnv :=
  ⟨fun a => a.toJsString.toOption.any (fun image => image.length == 24), 5000, none, none,
   fun _ _ => "Incident validation failed", "req.body is undefined"⟩

/-- The surroundings of `sampleEnv`, except that the insertion rejects. -/
def rejectingEnv : IncidentEnv :=
  { sampleEnv with insertError := some ⟨"", "connection lost"⟩ }

/-- A server with one exam in progress, a proctor `s1` and a student `s2` in its room, and
no incident stored. -/
def sampleServer : Server :=
  ⟨⟨[⟨"s1", ⟨some .proctor, some sampleExamId, none⟩⟩,
      ⟨"s2", ⟨some .student, some sampleExamId, some sampleStudentId⟩⟩],
     [("s1", "s1"), (sampleExamId, "s1"), ("s2", "s2"), (sampleExamId, "s2")]⟩,
   [⟨sampleExamId, "Algebra", .inProgress, 0, 9000⟩], []⟩

/-- The payload of a report of `multiple_faces` on the socket, without description. -/
def sampleReport : JsVal :=
  .record [("studentId", .str sampleStudentId), ("examId", .str sampleExamId),
    ("type", .str "multiple_faces")]

/-- The body of the same report sent to the route, without description. -/
def sampleBody : JsVal :=
  .record [("student", .str sampleStudentId), ("type", .str "multiple_faces")]

/-- Storage in which the first save of a cycle rejects. -/
def firstSaveRejects : Faults := ⟨false, false, fun k => k == 0⟩

/-- The inputs that lead to `proctorAndStudent`. -/
def proctorAndStudentInputs : List Input :=
  [.connection "s1",
   .event "s1" (.proctorJoin (.atom (.str "A"))) tickClock,
   .connection "s2",
   .event "s2" (.studentJoin (.record [("examId", .str "A"), ("studentId", .str "u2")]))
     tickClock]

/-- A proctor `s1` and a student `s2`, both in exam `A`. -/
def proctorAndStudent : Io :=
  ⟨[⟨"s1", ⟨some .proctor, some "A", none⟩⟩, ⟨"s2", ⟨some .student, some "A", some "u2"⟩⟩],
   [("s1", "s1"), ("A", "s1"), ("s2", "s2"), ("A", "s2")]⟩

/-- The inputs that lead to `proctorAndTwoStudents`. -/
def proctorAndTwoStudentsInputs : List Input :=
  proctorAndStudentInputs ++
  [.connection "s3",
   .event "s3" (.studentJoin (.record [("examId", .str "A"), ("studentId", .str "u3")]))
     tickClock,
   .connection "s4"]

/-- A proctor `s1` and two students `s2` and `s3`, all in exam `A`, and a connection `s4`,
open and not yet joined. -/
def proctorAndTwoStudents : Io :=
  ⟨[⟨"s1", ⟨some .proctor, some "A", none⟩⟩, ⟨"s2", ⟨some .student, some "A", some "u2"⟩⟩,
    ⟨"s3", ⟨some .student, some "A", some "u3"⟩⟩, ⟨"s4", ⟨none, none, none⟩⟩],
   [("s1", "s1"), ("A", "s1"), ("s2", "s2"), ("A", "s2"), ("s3", "s3"), ("A", "s3"),
    ("s4", "s4")]⟩

/-- Two stored exams that are over: one completed, one cancelled. -/
def archivedStore : List Exam :=
  [⟨"e5", "History", .completed, 0, 900⟩, ⟨"e6", "Physics", .cancelled, 0, 900⟩]

/-- Storage in which neither `Exam.findById` nor `exam.save()` rejects. -/
def calmEnv : StatusEnv := ⟨none, none, "req.body is undefined"⟩

/-- A closed exam `e7` that was never started, among the sample documents. -/
def lateStore : List Exam :=
  sampleStore ++ [⟨"e7", "Late", .scheduled, 100, 900⟩]

/-- Two connections `s1` and `s2`, open and not yet joined. -/
def twoOpen : Io := (Io.init.connect "s1").connect "s2"

/-- The inputs that lead to `crossed`: after both joined exam `A`, the proctor joins the
exam id `s2`, which is the socket id of the student. -/
def crossedInputs : List Input :=
  proctorAndStudentInputs ++ [.event "s1" (.proctorJoin (.atom (.str "s2"))) tickClock]

/-- A proctor `s1` and a student `s2`, both in exam `A`; the proctor is also a member of the
room named `s2`. -/
def crossed : Io :=
  ⟨[⟨"s1", ⟨some .proctor, some "s2", none⟩⟩, ⟨"s2", ⟨some .student, some "A", some "u2"⟩⟩],
   [("s1", "s1"), ("A", "s1"), ("s2", "s2"), ("A", "s2"), ("s2", "s1")]⟩

/-- The inputs that lead to `crossedBack`: after both joined exam `A`, the student joins the
exam id `s1`, which is the socket id of the proctor. -/
def crossedBackInputs : List Input :=
  proctorAndStudentInputs ++
  [.event "s2" (.studentJoin (.record [("examId", .str "s1"), ("studentId", .str "u2")]))
    tickClock]

/-- A proctor `s1` and a student `s2`, both in exam `A`; the student is also a member of the
room named `s1`. -/
def crossedBack : Io :=
  ⟨[⟨"s1", ⟨some .proctor, some "A", none⟩⟩, ⟨"s2", ⟨some .student, some "s1", some "u2"⟩⟩],
   [("s1", "s1"), ("A", "s1"), ("s2", "s2"), ("A", "s2"), ("s1", "s2")]⟩

/-- A report of `other` whose student id is an object that does not convert to a string. -/
def unprintableReport : JsVal :=
  .record [("studentId", .unprintable), ("examId", .str sampleExamId), ("type", .str "other")]

/-! ## The scheduler: what the loops and a cycle do to the stored documents -/

theorem save_setStatusOf (ids : List String) (s : Status) (store : List Exam) (d : Exam) :
    setStatusOf ids s (save store { d with status := s }) = setStatusOf (d._id :: ids) s store := by
  unfold setStatusOf save
  rw [List.map_map]
  apply List.map_congr_left
  intro e _
  by_cases h : e._id = d._id
  · by_cases h2 : d._id ∈ ids <;> simp [h, h2]
  · simp [h]

theorem setStatusOf_nil (s : Status) (store : List Exam) : setStatusOf [] s store = store := by
  simp [setStatusOf]

theorem transitionLoop_spec (F : Faults) (clock : Nat → String) (io : Io) (s : Status)
    (event verb : String) (docs : List Exam) (c : Cycle) :
    ∃ j, j ≤ docs.length ∧
      (transitionLoop F clock io s event verb docs c).store
        = setStatusOf ((docs.take j).map (fun e => e._id)) s c.store ∧
      (transitionLoop F clock io s event verb docs c).emits
        = c.emits ++ loopEmits clock io s event verb c.emits.length (docs.take j) ∧
      (transitionLoop F clock io s event verb docs c).saves = c.saves + j ∧
      (∀ i, i < j → F.saveFails (c.saves + i) = false) ∧
      (j < docs.length → F.saveFails (c.saves + j) = true ∧
        (transitionLoop F clock io s event verb docs c).failed = true) ∧
      (j = docs.length → (transitionLoop F clock io s event verb docs c).failed = c.failed) := by
  induction docs generalizing c with
  | nil =>
    refine ⟨0, le_refl _, ?_⟩
    simp [transitionLoop, setStatusOf_nil, loopEmits]
  | cons d ds ih =>
    by_cases hf : F.saveFails c.saves = true
    · refine ⟨0, Nat.zero_le _, ?_⟩
      simp [transitionLoop, hf, setStatusOf_nil, loopEmits]
    · simp only [Bool.not_eq_true] at hf
      obtain ⟨j, hj, h1, h2, h3, h4, h5, h6⟩ := ih
        { c with
          store := save c.store { d with status := s },
          emits := c.emits ++ [io.emit (.room d._id) event
            (lifecyclePayload { d with status := s } verb (clock c.emits.length))],
          saves := c.saves + 1 }
      simp only [] at h1 h2 h3 h4 h5 h6
      refine ⟨j + 1, by simpa using hj, ?_⟩
      simp only [transitionLoop, hf, Bool.false_eq_true, if_false, List.take_succ_cons, List.map_cons]
      refine ⟨?_, ?_, ?_, ?_, ?_, ?_⟩
      · rw [h1, save_setStatusOf]
      · rw [h2]; simp [loopEmits]
      · rw [h3]; omega
      · intro i hi
        cases i with
        | zero => simpa using hf
        | succ i => have := h4 i (by omega); rw [← this]; congr 1; omega
      · intro hlt
        have := h5 (by simpa using hlt)
        refine ⟨?_, this.2⟩
        rw [← this.1]; congr 1; omega
      · intro heq
        exact h6 (by simpa using heq)

theorem mem_ids_filter {store : List Exam} (hnd : (store.map (fun e => e._id)).Nodup)
    (p : Exam → Bool) {e : Exam} (he : e ∈ store) :
    e._id ∈ (store.filter p).map (fun e => e._id) ↔ p e = true := by
  constructor
  · intro h
    obtain ⟨e', he', hid⟩ := List.mem_map.1 h
    obtain ⟨hm, hp⟩ := List.mem_filter.1 he'
    have : e' = e := List.inj_on_of_nodup_map hnd hm he hid
    exact this ▸ hp
  · intro h
    exact List.mem_map.2 ⟨e, List.mem_filter.2 ⟨he, h⟩, rfl⟩

theorem setStatusOf_filter {store : List Exam} (hnd : (store.map (fun e => e._id)).Nodup)
    (p : Exam → Bool) (s : Status) :
    setStatusOf ((store.filter p).map (fun e => e._id)) s store
      = store.map (fun e => if p e then { e with status := s } else e) := by
  unfold setStatusOf
  apply List.map_congr_left
  intro e he
  by_cases h : p e = true
  · simp [(mem_ids_filter hnd p he).2 h, h]
  · have : ¬ e._id ∈ (store.filter p).map (fun e => e._id) := fun hm => h ((mem_ids_filter hnd p he).1 hm)
    simp only [Bool.not_eq_true] at h
    rw [if_neg this]; simp [h]

theorem startDue_endDue (now : Int) (e : Exam) : startDue now e = true → endDue now e = false := by
  unfold startDue endDue
  intro h
  simp only [Bool.and_eq_true, decide_eq_true_eq] at h
  simp [h.1.1]

theorem endDue_started (now : Int) (e : Exam) (h : startDue now e = true) :
    endDue now { e with status := .inProgress } = false := by
  unfold startDue at h
  unfold endDue
  simp only [Bool.and_eq_true, decide_eq_true_eq] at h
  simp only [Bool.and_eq_false_imp, decide_eq_true_eq, decide_eq_false_iff_not, not_le]
  intro _; exact h.2

theorem map_id_map_status (store : List Exam) (f : Exam → Exam) (hf : ∀ e, (f e)._id = e._id) :
    (store.map f).map (fun e => e._id) = store.map (fun e => e._id) := by
  rw [List.map_map]; apply List.map_congr_left; intro e _; exact hf e

theorem loopEmits_length (clock : Nat → String) (io : Io) (s : Status) (event verb : String)
    (base : Nat) (docs : List Exam) :
    (loopEmits clock io s event verb base docs).length = docs.length := by
  induction docs generalizing base with
  | nil => rfl
  | cons d ds ih => simp [loopEmits, ih]

theorem filter_endDue_startDoc (now : Int) (store : List Exam) :
    (store.map (startDoc now)).filter (endDue now) = store.filter (endDue now) := by
  induction store with
  | nil => rfl
  | cons e es ih =>
    simp only [List.map_cons, List.filter_cons, ih]
    by_cases h : startDue now e = true
    · have h1 : startDoc now e = { e with status := .inProgress } := by simp [startDoc, h]
      rw [h1, endDue_started now e h, startDue_endDue now e h]
      simp
    · have h1 : startDoc now e = e := by simp [startDoc, h]
      rw [h1]

theorem transitionLoop_ok (F : Faults) (clock : Nat → String) (io : Io) (s : Status)
    (event verb : String) (docs : List Exam) (c : Cycle)
    (hok : (transitionLoop F clock io s event verb docs c).failed = false) :
    (transitionLoop F clock io s event verb docs c).store
        = setStatusOf (docs.map (fun e => e._id)) s c.store ∧
    (transitionLoop F clock io s event verb docs c).emits
        = c.emits ++ loopEmits clock io s event verb c.emits.length docs ∧
    c.failed = false := by
  obtain ⟨j, hj, h1, h2, _, _, h5, h6⟩ := transitionLoop_spec F clock io s event verb docs c
  have hjl : j = docs.length := by
    by_contra hne
    have := (h5 (lt_of_le_of_ne hj hne)).2
    rw [hok] at this; exact Bool.noConfusion this
  rw [hjl, List.take_length] at h1 h2
  exact ⟨h1, h2, by rw [← h6 hjl]; exact hok⟩

theorem checkExamSchedules_ok (F : Faults) (clock : Nat → String) (io : Io) (now : Int)
    (store : List Exam) (hnd : (store.map (fun e => e._id)).Nodup)
    (hok : (checkExamSchedules F clock io now store).failed = false) :
    (checkExamSchedules F clock io now store).store = store.map (cycleDoc now) ∧
    (checkExamSchedules F clock io now store).emits
      = loopEmits clock io .inProgress "exam-started" "started" 0 (store.filter (startDue now))
        ++ loopEmits clock io .completed "exam-ended" "ended"
            (store.filter (startDue now)).length (store.filter (endDue now)) := by
  unfold checkExamSchedules at hok ⊢
  by_cases hfs : F.findStartFails = true
  · simp [hfs] at hok
  simp only [Bool.not_eq_true] at hfs
  simp only [hfs, Bool.false_eq_true, if_false] at hok ⊢
  by_cases hc : (transitionLoop F clock io .inProgress "exam-started" "started"
      (store.filter (startDue now)) ⟨store, [], 0, false⟩).failed = true
  · simp [hc] at hok
  simp only [Bool.not_eq_true] at hc
  simp only [hc, Bool.false_eq_true, if_false] at hok ⊢
  by_cases hfe : F.findEndFails = true
  · simp [hfe] at hok
  simp only [Bool.not_eq_true] at hfe
  simp only [hfe, Bool.false_eq_true, if_false] at hok ⊢
  obtain ⟨s1, e1, _⟩ := transitionLoop_ok F clock io .inProgress "exam-started" "started" _ _ hc
  simp only [List.nil_append, List.length_nil] at e1
  rw [setStatusOf_filter hnd] at s1
  have s1' : (transitionLoop F clock io .inProgress "exam-started" "started"
      (store.filter (startDue now)) ⟨store, [], 0, false⟩).store = store.map (startDoc now) := s1
  have hflt : (transitionLoop F clock io .inProgress "exam-started" "started"
      (store.filter (startDue now)) ⟨store, [], 0, false⟩).store.filter (endDue now)
      = store.filter (endDue now) := by rw [s1', filter_endDue_startDoc]
  rw [hflt] at hok ⊢
  obtain ⟨s2, e2, _⟩ := transitionLoop_ok F clock io .completed "exam-ended" "ended" _ _ hok
  rw [s1'] at s2
  rw [e1, loopEmits_length] at e2
  refine ⟨?_, e2⟩
  rw [s2]
  unfold setStatusOf
  rw [List.map_map]
  apply List.map_congr_left
  intro e he
  have hid : (startDoc now e)._id = e._id := by unfold startDoc; split <;> rfl
  simp only [Function.comp, hid]
  by_cases hE : endDue now e = true
  · have hS : startDue now e = false := by
      by_contra h; simp only [Bool.not_eq_false] at h
      rw [startDue_endDue now e h] at hE; exact Bool.noConfusion hE
    rw [if_pos ((mem_ids_filter hnd _ he).2 hE)]
    simp [cycleDoc, startDoc, hS, hE]
  · rw [if_neg (fun hm => hE ((mem_ids_filter hnd _ he).1 hm))]
    simp only [Bool.not_eq_true] at hE
    simp [cycleDoc, startDoc, hE]

theorem loopEmits_eq_enumFrom (clock : Nat → String) (io : Io) (s : Status) (event verb : String)
    (base : Nat) (docs : List Exam) :
    loopEmits clock io s event verb base docs
      = (docs.enumFrom base).map (fun p =>
          io.emit (.room p.2._id) event (lifecyclePayload p.2 verb (clock p.1))) := by
  induction docs generalizing base with
  | nil => rfl
  | cons d ds ih => simp [loopEmits, ih, List.enumFrom, lifecyclePayload]

theorem loopEmits_filter_same (clock : Nat → String) (io : Io) (s : Status) (event verb : String)
    (base : Nat) (docs : List Exam) :
    (loopEmits clock io s event verb base docs).filter (fun m => m.event = event)
      = loopEmits clock io s event verb base docs := by
  induction docs generalizing base with
  | nil => rfl
  | cons d ds ih => simp [loopEmits, ih, Io.emit]

theorem loopEmits_filter_other (clock : Nat → String) (io : Io) (s : Status)
    (event verb other : String) (hne : event ≠ other) (base : Nat) (docs : List Exam) :
    (loopEmits clock io s event verb base docs).filter (fun m => m.event = other) = [] := by
  induction docs generalizing base with
  | nil => rfl
  | cons d ds ih => simp [loopEmits, ih, Io.emit, hne]

theorem mem_loopEmits {clock : Nat → String} {io : Io} {s : Status} {event verb : String}
    {base : Nat} {docs : List Exam} {m : Emit}
    (hm : m ∈ loopEmits clock io s event verb base docs) :
    m.event = event ∧ ∃ d ∈ docs, m.dest = .room d._id := by
  induction docs generalizing base with
  | nil => simp [loopEmits] at hm
  | cons d ds ih =>
    simp only [loopEmits, List.mem_cons] at hm
    rcases hm with h | h
    · subst h; exact ⟨rfl, d, List.mem_cons_self _ _, rfl⟩
    · obtain ⟨h1, d', hd', h2⟩ := ih h
      exact ⟨h1, d', List.mem_cons_of_mem _ hd', h2⟩

theorem cycleDoc_id (now : Int) (e : Exam) : (cycleDoc now e)._id = e._id := by
  unfold cycleDoc; split
  · rfl
  · split <;> rfl

theorem started_ne_ended : ("exam-started" : String) ≠ "exam-ended" := by decide

/-- Claim C1. A run of `checkExamSchedules` at `now` that does not enter its `catch` block, on stored
documents with distinct `_id`s, keeps every document in place with its `_id`, title and times;
it puts in progress every document that was scheduled with `startTime ≤ now < endTime`, and a
document that is in progress afterwards without having been so before is one of those. Its
`exam-started` emissions are, in the order of the selected documents, exactly one per such
document, addressed to the room named by its `_id`, carrying its `_id` as `examId` and its
title: no other session is started. -/
theorem checkExamSchedules_starts_exactly_due (F : Faults) (clock : Nat → String) (io : Io)
    (now : Int) (store : List Exam) (hnd : (store.map (fun e => e._id)).Nodup)
    (hok : (checkExamSchedules F clock io now store).failed = false) :
    List.Forall₂
      (fun e e' => e'._id = e._id ∧ e'.title = e.title ∧
        e'.startTime = e.startTime ∧ e'.endTime = e.endTime ∧
        (e.status = .scheduled ∧ e.startTime ≤ now ∧ now < e.endTime → e'.status = .inProgress) ∧
        (e'.status = .inProgress ∧ e.status ≠ .inProgress →
          e.status = .scheduled ∧ e.startTime ≤ now ∧ now < e.endTime))
      store (checkExamSchedules F clock io now store).store ∧
    (checkExamSchedules F clock io now store).emits.filter (fun m => m.event = "exam-started")
      = ((store.filter (fun e => e.status = .scheduled ∧ e.startTime ≤ now ∧ now < e.endTime)).enum).map
          (fun p => io.emit (.room p.2._id) "exam-started"
            [("examId", .str p.2._id), ("title", .str p.2.title),
             ("message", .str ("The exam \"" ++ p.2.title ++ "\" has " ++ "started" ++ "!")),
             ("timestamp", .str (clock p.1))]) := by
  obtain ⟨hs, he⟩ := checkExamSchedules_ok F clock io now store hnd hok
  have hfilter : store.filter (fun e => decide (e.status = .scheduled ∧ e.startTime ≤ now ∧ now < e.endTime))
      = store.filter (startDue now) := by
    apply List.filter_congr
    intro e _
    simp [startDue, Bool.and_assoc]
  refine ⟨?_, ?_⟩
  · rw [hs, List.forall₂_map_right_iff, List.forall₂_same]
    intro e _
    have hsd : startDue now e = true ↔ (e.status = .scheduled ∧ e.startTime ≤ now ∧ now < e.endTime) := by
      simp [startDue, and_assoc]
    unfold cycleDoc
    by_cases h1 : startDue now e = true
    · rw [if_pos h1]
      exact ⟨rfl, rfl, rfl, rfl, fun _ => rfl, fun _ => hsd.1 h1⟩
    · by_cases h2 : endDue now e = true
      · rw [if_neg h1, if_pos h2]
        refine ⟨rfl, rfl, rfl, rfl, fun h => absurd (hsd.2 h) h1, fun h => ?_⟩
        exact Status.noConfusion h.1
      · rw [if_neg h1, if_neg h2]
        exact ⟨rfl, rfl, rfl, rfl, fun h => absurd (hsd.2 h) h1, fun h => absurd h.1 h.2⟩
  · rw [he, List.filter_append, loopEmits_filter_same,
      loopEmits_filter_other _ _ _ _ _ _ (Ne.symm started_ne_ended), List.append_nil,
      loopEmits_eq_enumFrom, hfilter]
    rfl

theorem startDue_iff (now : Int) (e : Exam) :
    startDue now e = true ↔ (e.status = .scheduled ∧ e.startTime ≤ now ∧ now < e.endTime) := by
  simp [startDue, and_assoc]

theorem endDue_iff (now : Int) (e : Exam) :
    endDue now e = true ↔ (e.status = .inProgress ∧ e.endTime ≤ now) := by
  simp [endDue]

/-- Claim C2. A run of `checkExamSchedules` at `now` that does not enter its `catch` block, on stored
documents with distinct `_id`s, completes every document that was in progress when the cycle
began with `endTime ≤ now`, and a document that is completed afterwards without having been so
before is one of those. A document started in this cycle stays in progress and no `exam-ended`
is addressed to its room. The `exam-ended` emissions are exactly one per document to end,
addressed to the room named by its `_id`, stamped after the `exam-started` ones. -/
theorem checkExamSchedules_ends_exactly_due (F : Faults) (clock : Nat → String) (io : Io)
    (now : Int) (store : List Exam) (hnd : (store.map (fun e => e._id)).Nodup)
    (hok : (checkExamSchedules F clock io now store).failed = false) :
    List.Forall₂
      (fun e e' => e'._id = e._id ∧ e'.title = e.title ∧
        e'.startTime = e.startTime ∧ e'.endTime = e.endTime ∧
        (e.status = .inProgress ∧ e.endTime ≤ now → e'.status = .completed) ∧
        (e'.status = .completed ∧ e.status ≠ .completed →
          e.status = .inProgress ∧ e.endTime ≤ now) ∧
        (e.status = .scheduled ∧ e.startTime ≤ now ∧ now < e.endTime →
          e'.status = .inProgress ∧
          ∀ m ∈ (checkExamSchedules F clock io now store).emits,
            m.event = "exam-ended" → m.dest ≠ .room e._id))
      store (checkExamSchedules F clock io now store).store ∧
    (checkExamSchedules F clock io now store).emits.filter (fun m => m.event = "exam-ended")
      = ((store.filter (fun e => e.status = .inProgress ∧ e.endTime ≤ now)).enumFrom
          (store.filter (fun e => e.status = .scheduled ∧ e.startTime ≤ now ∧ now < e.endTime)).length).map
          (fun p => io.emit (.room p.2._id) "exam-ended"
            [("examId", .str p.2._id), ("title", .str p.2.title),
             ("message", .str ("The exam \"" ++ p.2.title ++ "\" has " ++ "ended" ++ "!")),
             ("timestamp", .str (clock p.1))]) := by
  obtain ⟨hs, he⟩ := checkExamSchedules_ok F clock io now store hnd hok
  have hfs : store.filter (fun e => decide (e.status = .scheduled ∧ e.startTime ≤ now ∧ now < e.endTime))
      = store.filter (startDue now) := by
    apply List.filter_congr
    intro e _
    simp [startDue, Bool.and_assoc]
  have hfe : store.filter (fun e => decide (e.status = .inProgress ∧ e.endTime ≤ now))
      = store.filter (endDue now) := by
    apply List.filter_congr
    intro e _
    simp [endDue]
  refine ⟨?_, ?_⟩
  · rw [hs, List.forall₂_map_right_iff, List.forall₂_same]
    intro e hmem
    unfold cycleDoc
    by_cases h1 : startDue now e = true
    · rw [if_pos h1]
      have hsch := ((startDue_iff now e).1 h1).1
      refine ⟨rfl, rfl, rfl, rfl, fun h => ?_, fun h => Status.noConfusion h.1, fun _ => ⟨rfl, ?_⟩⟩
      · rw [hsch] at h; exact Status.noConfusion h.1
      · intro m hm hev hdest
        rw [he, List.mem_append] at hm
        rcases hm with hm | hm
        · have := (mem_loopEmits hm).1
          rw [hev] at this
          exact started_ne_ended this.symm
        · obtain ⟨_, d, hd, hdd⟩ := mem_loopEmits hm
          obtain ⟨hdm, hdE⟩ := List.mem_filter.1 hd
          rw [hdest] at hdd
          have hid : e._id = d._id := by injection hdd
          have : e = d := List.inj_on_of_nodup_map hnd hmem hdm hid
          rw [← this, startDue_endDue now e h1] at hdE
          exact Bool.noConfusion hdE
    · have hns : ¬ (e.status = .scheduled ∧ e.startTime ≤ now ∧ now < e.endTime) :=
        fun h => h1 ((startDue_iff now e).2 h)
      by_cases h2 : endDue now e = true
      · rw [if_neg h1, if_pos h2]
        exact ⟨rfl, rfl, rfl, rfl, fun _ => rfl, fun _ => (endDue_iff now e).1 h2,
          fun h => absurd h hns⟩
      · rw [if_neg h1, if_neg h2]
        exact ⟨rfl, rfl, rfl, rfl, fun h => absurd ((endDue_iff now e).2 h) h2,
          fun h => absurd h.1 h.2, fun h => absurd h hns⟩
  · rw [he, List.filter_append, loopEmits_filter_same,
      loopEmits_filter_other _ _ _ _ _ _ started_ne_ended, List.nil_append,
      loopEmits_eq_enumFrom, hfs, hfe]
    rfl

theorem filter_startDue_cycleDoc (now : Int) (store : List Exam) :
    (store.map (cycleDoc now)).filter (startDue now) = [] := by
  rw [List.filter_eq_nil_iff]
  intro e' he'
  obtain ⟨e, _, rfl⟩ := List.mem_map.1 he'
  unfold cycleDoc
  by_cases h1 : startDue now e = true
  · rw [if_pos h1]; simp [startDue]
  · by_cases h2 : endDue now e = true
    · rw [if_neg h1, if_pos h2]; simp [startDue]
    · rw [if_neg h1, if_neg h2]; exact h1

theorem filter_endDue_cycleDoc (now : Int) (store : List Exam) :
    (store.map (cycleDoc now)).filter (endDue now) = [] := by
  rw [List.filter_eq_nil_iff]
  intro e' he'
  obtain ⟨e, _, rfl⟩ := List.mem_map.1 he'
  unfold cycleDoc
  by_cases h1 : startDue now e = true
  · rw [if_pos h1, endDue_started now e h1]; exact Bool.noConfusion
  · by_cases h2 : endDue now e = true
    · rw [if_neg h1, if_pos h2]; simp [endDue]
    · rw [if_neg h1, if_neg h2]; exact h2

/-- A cycle that finds nothing to start and nothing to end changes nothing and emits nothing,
whatever rejects. -/
theorem checkExamSchedules_nothing_due (F : Faults) (clock : Nat → String) (io : Io) (now : Int)
    (store : List Exam) (h1 : store.filter (startDue now) = [])
    (h2 : store.filter (endDue now) = []) :
    (checkExamSchedules F clock io now store).store = store ∧
    (checkExamSchedules F clock io now store).emits = [] := by
  unfold checkExamSchedules
  rw [h1]
  simp only [transitionLoop]
  by_cases hfs : F.findStartFails = true
  · simp [hfs]
  · simp only [Bool.not_eq_true] at hfs
    by_cases hfe : F.findEndFails = true
    · simp [hfs, hfe]
    · simp only [Bool.not_eq_true] at hfe
      simp [hfs, hfe, h2, transitionLoop]

theorem setStatusOf_ids (ids : List String) (s : Status) (store : List Exam) :
    (setStatusOf ids s store).map (fun e => e._id) = store.map (fun e => e._id) := by
  unfold setStatusOf
  apply map_id_map_status
  intro e; split <;> rfl

theorem mem_setStatusOf_of_not_mem {ids : List String} {s : Status} {store : List Exam} {e : Exam}
    (he : e ∈ store) (hid : e._id ∉ ids) : e ∈ setStatusOf ids s store := by
  unfold setStatusOf
  exact List.mem_map.2 ⟨e, he, by rw [if_neg hid]⟩

/-- A loop leaves alone a stored document that is not among the documents it runs over, and
emits nothing to its room. -/
theorem transitionLoop_untouched (F : Faults) (clock : Nat → String) (io : Io) (s : Status)
    (event verb : String) (docs : List Exam) (c : Cycle) (e : Exam) (he : e ∈ c.store)
    (hdocs : ∀ d ∈ docs, d._id ≠ e._id) (hem : ∀ m ∈ c.emits, m.dest ≠ .room e._id) :
    e ∈ (transitionLoop F clock io s event verb docs c).store ∧
    (∀ m ∈ (transitionLoop F clock io s event verb docs c).emits, m.dest ≠ .room e._id) ∧
    (transitionLoop F clock io s event verb docs c).store.map (fun e => e._id)
      = c.store.map (fun e => e._id) := by
  obtain ⟨j, _, h1, h2, _⟩ := transitionLoop_spec F clock io s event verb docs c
  rw [h1, h2]
  refine ⟨mem_setStatusOf_of_not_mem he ?_, ?_, setStatusOf_ids _ _ _⟩
  · intro hmem
    obtain ⟨d, hd, hid⟩ := List.mem_map.1 hmem
    exact hdocs d (List.mem_of_mem_take hd) hid
  · intro m hm
    rcases List.mem_append.1 hm with hm | hm
    · exact hem m hm
    · obtain ⟨_, d, hd, hdd⟩ := mem_loopEmits hm
      intro hdest
      rw [hdest] at hdd
      have hid : e._id = d._id := by injection hdd
      exact hdocs d (List.mem_of_mem_take hd) hid.symm

/-- A cycle, successful or not, leaves alone a document that neither query selects, and emits
nothing to its room. -/
theorem checkExamSchedules_untouched (F : Faults) (clock : Nat → String) (io : Io) (now : Int)
    (store : List Exam) (hnd : (store.map (fun e => e._id)).Nodup) (e : Exam) (he : e ∈ store)
    (h1 : startDue now e = false) (h2 : endDue now e = false) :
    e ∈ (checkExamSchedules F clock io now store).store ∧
    ∀ m ∈ (checkExamSchedules F clock io now store).emits, m.dest ≠ .room e._id := by
  have hA := transitionLoop_untouched F clock io .inProgress "exam-started" "started"
    (store.filter (startDue now)) ⟨store, [], 0, false⟩ e he
    (by
      intro d hd hid
      obtain ⟨hdm, hdS⟩ := List.mem_filter.1 hd
      have : d = e := List.inj_on_of_nodup_map hnd hdm he hid
      rw [this, h1] at hdS
      exact Bool.noConfusion hdS)
    (by intro m hm; simp at hm)
  obtain ⟨hA1, hA2, hA3⟩ := hA
  have hB := transitionLoop_untouched F clock io .completed "exam-ended" "ended"
    ((transitionLoop F clock io .inProgress "exam-started" "started"
      (store.filter (startDue now)) ⟨store, [], 0, false⟩).store.filter (endDue now))
    (transitionLoop F clock io .inProgress "exam-started" "started"
      (store.filter (startDue now)) ⟨store, [], 0, false⟩) e hA1
    (by
      intro d hd hid
      obtain ⟨hdm, hdE⟩ := List.mem_filter.1 hd
      have hnd' := hnd
      rw [← hA3] at hnd'
      have : d = e := List.inj_on_of_nodup_map hnd' hdm hA1 hid
      rw [this, h2] at hdE
      exact Bool.noConfusion hdE)
    hA2
  unfold checkExamSchedules
  by_cases hfs : F.findStartFails = true
  · rw [if_pos hfs]; exact ⟨he, by intro m hm; simp at hm⟩
  rw [if_neg hfs]
  simp only []
  split
  · exact ⟨hA1, hA2⟩
  · split
    · exact ⟨hA1, hA2⟩
    · exact ⟨hB.1, hB.2.1⟩

/-- Claim C5. A scheduled session with `startTime = endTime` is never selected by the first query,
and a cycle at any `now`, whether or not a storage operation rejects, leaves its document as it
is (still scheduled) and addresses no emission to its room. -/
theorem checkExamSchedules_zero_duration_never_starts (F : Faults) (clock : Nat → String)
    (io : Io) (now : Int) (store : List Exam) (hnd : (store.map (fun e => e._id)).Nodup)
    (e : Exam) (he : e ∈ store) (hsch : e.status = .scheduled) (hzero : e.startTime = e.endTime) :
    startDue now e = false ∧
    e ∈ (checkExamSchedules F clock io now store).store ∧
    ∀ m ∈ (checkExamSchedules F clock io now store).emits, m.dest ≠ .room e._id := by
  have h1 : startDue now e = false := by
    unfold startDue
    rw [hzero]
    simp only [Bool.and_eq_false_imp, Bool.and_eq_true, decide_eq_true_eq, decide_eq_false_iff_not,
      not_lt, and_imp, gt_iff_lt]
    intro _ h; exact h
  have h2 : endDue now e = false := by
    unfold endDue; rw [hsch]; rfl
  exact ⟨h1, checkExamSchedules_untouched F clock io now store hnd e he h1 h2⟩

theorem countTo_append (event : String) (roomId : RoomId) (a b : List Emit) :
    countTo event roomId (a ++ b) = countTo event roomId a + countTo event roomId b := by
  unfold countTo; exact List.countP_append _ _ _

theorem countTo_loopEmits_same (clock : Nat → String) (io : Io) (s : Status) (event verb : String)
    (roomId : RoomId) (base : Nat) (docs : List Exam) :
    countTo event roomId (loopEmits clock io s event verb base docs)
      = docs.countP (fun d => d._id = roomId) := by
  induction docs generalizing base with
  | nil => rfl
  | cons d ds ih =>
    have := ih (base + 1)
    unfold countTo at this ⊢
    simp only [loopEmits, List.countP_cons, this, Io.emit]
    simp

theorem countTo_loopEmits_other (clock : Nat → String) (io : Io) (s : Status)
    (event verb other : String) (hne : event ≠ other)
    (roomId : RoomId) (base : Nat) (docs : List Exam) :
    countTo other roomId (loopEmits clock io s event verb base docs) = 0 := by
  unfold countTo
  rw [List.countP_eq_zero]
  intro m hm
  have := (mem_loopEmits hm).1
  simp [this, hne]

theorem countP_id_le_one {store : List Exam} (hnd : (store.map (fun e => e._id)).Nodup)
    (p : Exam → Bool) (id : String) :
    (store.filter p).countP (fun d => d._id = id) ≤ 1 := by
  have h1 : (store.filter p).countP (fun d => d._id = id) ≤ store.countP (fun d => d._id = id) :=
    List.Sublist.countP_le _ (List.filter_sublist store)
  have h2 : store.countP (fun d => d._id = id) = (store.map (fun e => e._id)).count id := by
    rw [List.count, List.countP_map]
    apply List.countP_congr
    intro x _
    simp [Function.comp]
  have h3 := List.nodup_iff_count_le_one.1 hnd id
  omega

theorem countP_id_pos {store : List Exam} (p : Exam → Bool) {e : Exam} (he : e ∈ store)
    (hp : p e = true) : 0 < (store.filter p).countP (fun d => d._id = e._id) := by
  rw [List.countP_pos_iff]
  exact ⟨e, List.mem_filter.2 ⟨he, hp⟩, by simp⟩

theorem countP_id_zero {store : List Exam} (hnd : (store.map (fun e => e._id)).Nodup)
    (p : Exam → Bool) {e : Exam} (he : e ∈ store) (hp : p e = false) :
    (store.filter p).countP (fun d => d._id = e._id) = 0 := by
  rw [List.countP_eq_zero]
  intro d hd
  obtain ⟨hdm, hdp⟩ := List.mem_filter.1 hd
  intro hid
  simp only [decide_eq_true_eq] at hid
  have : d = e := List.inj_on_of_nodup_map hnd hdm he hid
  rw [this, hp] at hdp
  exact Bool.noConfusion hdp

theorem cycle_count_started (F : Faults) (clock : Nat → String) (io : Io) (now : Int)
    (store : List Exam) (hnd : (store.map (fun e => e._id)).Nodup)
    (hok : (checkExamSchedules F clock io now store).failed = false) (id : String) :
    countTo "exam-started" id (checkExamSchedules F clock io now store).emits
      = (store.filter (startDue now)).countP (fun d => d._id = id) := by
  rw [(checkExamSchedules_ok F clock io now store hnd hok).2, countTo_append,
    countTo_loopEmits_same, countTo_loopEmits_other _ _ _ _ _ _ (Ne.symm started_ne_ended)]
  rfl

theorem cycle_count_ended (F : Faults) (clock : Nat → String) (io : Io) (now : Int)
    (store : List Exam) (hnd : (store.map (fun e => e._id)).Nodup)
    (hok : (checkExamSchedules F clock io now store).failed = false) (id : String) :
    countTo "exam-ended" id (checkExamSchedules F clock io now store).emits
      = (store.filter (endDue now)).countP (fun d => d._id = id) := by
  rw [(checkExamSchedules_ok F clock io now store hnd hok).2, countTo_append,
    countTo_loopEmits_same, countTo_loopEmits_other _ _ _ _ _ _ started_ne_ended]
  simp

/-- Claim C3. The cycle is idempotent: after a run at `now` that did not enter its `catch` block, a
second run at the same `now` on the documents it left (whatever rejects, whatever the clock and
the rooms) leaves the stored documents as they are and emits nothing. In particular a scheduled
session with `startTime = now` and `endTime = now + 60000` is in progress after the two runs
and exactly one `exam-started` was addressed to its room over both. -/
theorem checkExamSchedules_idempotent (F F' : Faults) (clock clock' : Nat → String)
    (io io' : Io) (now : Int) (store : List Exam) (hnd : (store.map (fun e => e._id)).Nodup)
    (hok : (checkExamSchedules F clock io now store).failed = false) :
    (checkExamSchedules F' clock' io' now (checkExamSchedules F clock io now store).store).store
      = (checkExamSchedules F clock io now store).store ∧
    (checkExamSchedules F' clock' io' now (checkExamSchedules F clock io now store).store).emits
      = [] ∧
    ∀ e ∈ store, e.status = .scheduled → e.startTime = now → e.endTime = now + 60000 →
      { e with status := .inProgress } ∈
        (checkExamSchedules F' clock' io' now (checkExamSchedules F clock io now store).store).store ∧
      countTo "exam-started" e._id
        ((checkExamSchedules F clock io now store).emits ++
         (checkExamSchedules F' clock' io' now (checkExamSchedules F clock io now store).store).emits)
        = 1 := by
  have hs := (checkExamSchedules_ok F clock io now store hnd hok).1
  have h2 := checkExamSchedules_nothing_due F' clock' io' now
    (checkExamSchedules F clock io now store).store
    (by rw [hs]; exact filter_startDue_cycleDoc now store)
    (by rw [hs]; exact filter_endDue_cycleDoc now store)
  refine ⟨h2.1, h2.2, ?_⟩
  intro e he hsch hst hen
  have hdue : startDue now e = true := by
    rw [startDue_iff]; exact ⟨hsch, le_of_eq hst, by rw [hen]; omega⟩
  rw [h2.1, h2.2, List.append_nil, cycle_count_started F clock io now store hnd hok, hs]
  refine ⟨List.mem_map.2 ⟨e, he, by unfold cycleDoc; rw [if_pos hdue]⟩, ?_⟩
  have := countP_id_le_one hnd (startDue now) e._id
  have := countP_id_pos (startDue now) he hdue
  omega

theorem runCycles_failed_cons {t : Tick} {ts : List Tick} {store : List Exam}
    (h : (runCycles (t :: ts) store).failed = false) :
    (checkExamSchedules t.F t.clock t.io t.now store).failed = false ∧
    (runCycles ts (checkExamSchedules t.F t.clock t.io t.now store).store).failed = false := by
  simpa [runCycles] using h

theorem cycleDoc_nodup (now : Int) {store : List Exam} (hnd : (store.map (fun e => e._id)).Nodup) :
    ((store.map (cycleDoc now)).map (fun e => e._id)).Nodup := by
  rw [map_id_map_status store (cycleDoc now) (cycleDoc_id now)]; exact hnd

/-- Across successful cycles, a room that receives `exam-started` belongs to a document that
was scheduled, one that receives `exam-ended` to a document that was scheduled or in progress,
and neither event is sent twice to the same room. -/
theorem runCycles_counts (ts : List Tick) (store : List Exam)
    (hnd : (store.map (fun e => e._id)).Nodup) (hok : (runCycles ts store).failed = false)
    (id : String) :
    countTo "exam-started" id (runCycles ts store).emits ≤ 1 ∧
    (1 ≤ countTo "exam-started" id (runCycles ts store).emits →
      ∃ e ∈ store, e._id = id ∧ e.status = .scheduled) ∧
    countTo "exam-ended" id (runCycles ts store).emits ≤ 1 ∧
    (1 ≤ countTo "exam-ended" id (runCycles ts store).emits →
      ∃ e ∈ store, e._id = id ∧ (e.status = .scheduled ∨ e.status = .inProgress)) := by
  induction ts generalizing store with
  | nil => simp [runCycles, countTo]
  | cons t ts ih =>
    obtain ⟨hc, hr⟩ := runCycles_failed_cons hok
    have hs := (checkExamSchedules_ok t.F t.clock t.io t.now store hnd hc).1
    have hkS := cycle_count_started t.F t.clock t.io t.now store hnd hc id
    have hkE := cycle_count_ended t.F t.clock t.io t.now store hnd hc id
    have hleS := countP_id_le_one hnd (startDue t.now) id
    have hleE := countP_id_le_one hnd (endDue t.now) id
    rw [hs] at hr
    obtain ⟨i1, i2, i3, i4⟩ := ih (store.map (cycleDoc t.now)) (cycleDoc_nodup t.now hnd) hr
    have hem : (runCycles (t :: ts) store).emits
        = (checkExamSchedules t.F t.clock t.io t.now store).emits
          ++ (runCycles ts (store.map (cycleDoc t.now))).emits := by
      simp [runCycles, hs]
    rw [hem, countTo_append, countTo_append, hkS, hkE]
    -- the document behind a later `exam-started`
    have restS : 1 ≤ countTo "exam-started" id (runCycles ts (store.map (cycleDoc t.now))).emits →
        (∃ e ∈ store, e._id = id ∧ e.status = .scheduled) ∧
        (store.filter (startDue t.now)).countP (fun d => d._id = id) = 0 := by
      intro h
      obtain ⟨e', he', hid, hst⟩ := i2 h
      obtain ⟨e, he, rfl⟩ := List.mem_map.1 he'
      rw [cycleDoc_id] at hid
      have hnS : startDue t.now e = false := by
        by_contra hS
        simp only [Bool.not_eq_false] at hS
        unfold cycleDoc at hst; rw [if_pos hS] at hst
        exact Status.noConfusion hst
      have hnE : endDue t.now e = false := by
        by_contra hE
        simp only [Bool.not_eq_false] at hE
        unfold cycleDoc at hst; rw [hnS, if_neg (by simp), if_pos hE] at hst
        exact Status.noConfusion hst
      have hsame : cycleDoc t.now e = e := by
        unfold cycleDoc; rw [hnS, hnE]; simp
      rw [hsame] at hst
      refine ⟨⟨e, he, hid, hst⟩, ?_⟩
      rw [← hid]; exact countP_id_zero hnd _ he hnS
    have restE : 1 ≤ countTo "exam-ended" id (runCycles ts (store.map (cycleDoc t.now))).emits →
        (∃ e ∈ store, e._id = id ∧ (e.status = .scheduled ∨ e.status = .inProgress)) ∧
        (store.filter (endDue t.now)).countP (fun d => d._id = id) = 0 := by
      intro h
      obtain ⟨e', he', hid, hst⟩ := i4 h
      obtain ⟨e, he, rfl⟩ := List.mem_map.1 he'
      rw [cycleDoc_id] at hid
      have hnE : endDue t.now e = false := by
        by_contra hE
        simp only [Bool.not_eq_false] at hE
        have hnS : startDue t.now e = false := by
          by_contra hS
          simp only [Bool.not_eq_false] at hS
          rw [startDue_endDue _ _ hS] at hE; exact Bool.noConfusion hE
        unfold cycleDoc at hst; rw [hnS, if_neg (by simp), if_pos hE] at hst
        rcases hst with h | h <;> exact Status.noConfusion h
      refine ⟨⟨e, he, hid, ?_⟩, ?_⟩
      · by_cases hS : startDue t.now e = true
        · exact Or.inl ((startDue_iff _ _).1 hS).1
        · have hsame : cycleDoc t.now e = e := by
            unfold cycleDoc; rw [if_neg hS, hnE]; simp
          rw [hsame] at hst; exact hst
      · rw [← hid]; exact countP_id_zero hnd _ he hnE
    refine ⟨?_, ?_, ?_, ?_⟩
    · by_cases h : 1 ≤ countTo "exam-started" id (runCycles ts (store.map (cycleDoc t.now))).emits
      · have := (restS h).2; omega
      · omega
    · intro h
      by_cases h' : 1 ≤ countTo "exam-started" id (runCycles ts (store.map (cycleDoc t.now))).emits
      · exact (restS h').1
      · have hpos : 0 < (store.filter (startDue t.now)).countP (fun d => d._id = id) := by omega
        obtain ⟨d, hd, hdid⟩ := List.countP_pos_iff.1 hpos
        obtain ⟨hdm, hdS⟩ := List.mem_filter.1 hd
        exact ⟨d, hdm, by simpa using hdid, ((startDue_iff _ _).1 hdS).1⟩
    · by_cases h : 1 ≤ countTo "exam-ended" id (runCycles ts (store.map (cycleDoc t.now))).emits
      · have := (restE h).2; omega
      · omega
    · intro h
      by_cases h' : 1 ≤ countTo "exam-ended" id (runCycles ts (store.map (cycleDoc t.now))).emits
      · exact (restE h').1
      · have hpos : 0 < (store.filter (endDue t.now)).countP (fun d => d._id = id) := by omega
        obtain ⟨d, hd, hdid⟩ := List.countP_pos_iff.1 hpos
        obtain ⟨hdm, hdE⟩ := List.mem_filter.1 hd
        exact ⟨d, hdm, by simpa using hdid, Or.inr ((endDue_iff _ _).1 hdE).1⟩

theorem runCycles_keeps_completed (ts : List Tick) (store : List Exam)
    (hnd : (store.map (fun e => e._id)).Nodup) (hok : (runCycles ts store).failed = false)
    (e : Exam) (he : e ∈ store) (hc : e.status = .completed) :
    e ∈ (runCycles ts store).store := by
  induction ts generalizing store with
  | nil => simpa [runCycles] using he
  | cons t ts ih =>
    obtain ⟨hc1, hr⟩ := runCycles_failed_cons hok
    have hs := (checkExamSchedules_ok t.F t.clock t.io t.now store hnd hc1).1
    rw [hs] at hr
    have hsame : cycleDoc t.now e = e := by
      unfold cycleDoc startDue endDue; rw [hc]; simp
    have := ih (store.map (cycleDoc t.now)) (cycleDoc_nodup t.now hnd) hr
      (List.mem_map.2 ⟨e, he, hsame⟩)
    simpa [runCycles, hs] using this

/-- Claim C4. Over any finite sequence of cycles none of which enters its `catch` block, run at any
times on documents with distinct `_id`s and with no other writer, each room receives at
most one `exam-started` and at most one `exam-ended`. For a session that is in progress with
`endTime` not after any of the cycle times, and at least one cycle, exactly one `exam-ended` is
addressed to its room and it ends up completed, however many cycles follow the first. -/
theorem runCycles_fires_each_transition_once (ts : List Tick) (store : List Exam)
    (hnd : (store.map (fun e => e._id)).Nodup) (hok : (runCycles ts store).failed = false) :
    (∀ id, countTo "exam-started" id (runCycles ts store).emits ≤ 1 ∧
      countTo "exam-ended" id (runCycles ts store).emits ≤ 1) ∧
    (∀ e ∈ store, e.status = .inProgress → ts ≠ [] → (∀ t ∈ ts, e.endTime ≤ t.now) →
      countTo "exam-ended" e._id (runCycles ts store).emits = 1 ∧
      { e with status := .completed } ∈ (runCycles ts store).store) := by
  refine ⟨fun id => ⟨(runCycles_counts ts store hnd hok id).1,
    (runCycles_counts ts store hnd hok id).2.2.1⟩, ?_⟩
  intro e he hip hne hall
  cases ts with
  | nil => exact absurd rfl hne
  | cons t ts =>
    obtain ⟨hc, hr⟩ := runCycles_failed_cons hok
    have hs := (checkExamSchedules_ok t.F t.clock t.io t.now store hnd hc).1
    have hE : endDue t.now e = true :=
      (endDue_iff _ _).2 ⟨hip, hall t (List.mem_cons_self _ _)⟩
    have hS : startDue t.now e = false := by
      unfold startDue; rw [hip]; rfl
    have hdoc : cycleDoc t.now e = { e with status := .completed } := by
      unfold cycleDoc; rw [hS, hE]; simp
    have hmem : ({ e with status := .completed } : Exam) ∈ store.map (cycleDoc t.now) :=
      List.mem_map.2 ⟨e, he, hdoc⟩
    have hnd' := cycleDoc_nodup t.now hnd
    rw [hs] at hr
    have hrest : countTo "exam-ended" e._id (runCycles ts (store.map (cycleDoc t.now))).emits = 0 := by
      by_contra hpos
      obtain ⟨e', he', hid, hst⟩ :=
        (runCycles_counts ts _ hnd' hr e._id).2.2.2 (by omega)
      have : e' = { e with status := .completed } :=
        List.inj_on_of_nodup_map hnd' he' hmem hid
      rw [this] at hst
      rcases hst with h | h <;> exact Status.noConfusion h
    have hem : (runCycles (t :: ts) store).emits
        = (checkExamSchedules t.F t.clock t.io t.now store).emits
          ++ (runCycles ts (store.map (cycleDoc t.now))).emits := by
      simp [runCycles, hs]
    have hst : (runCycles (t :: ts) store).store
        = (runCycles ts (store.map (cycleDoc t.now))).store := by
      simp [runCycles, hs]
    rw [hem, hst, countTo_append, hrest, cycle_count_ended _ _ _ _ _ hnd hc]
    refine ⟨?_, runCycles_keeps_completed ts _ hnd' hr _ hmem rfl⟩
    have := countP_id_le_one hnd (endDue t.now) e._id
    have := countP_id_pos (endDue t.now) he hE
    omega

/-! ### Cycles in which a storage operation rejects -/

/-- The loop stops at the first document whose save rejects: the documents before it are
saved and announced, nothing else happens. -/
theorem transitionLoop_rejects_at (F : Faults) (clock : Nat → String) (io : Io) (s : Status)
    (event verb : String) (pre post : List Exam) (d : Exam) (c : Cycle)
    (hpre : ∀ i, i < pre.length → F.saveFails (c.saves + i) = false)
    (hd : F.saveFails (c.saves + pre.length) = true) :
    (transitionLoop F clock io s event verb (pre ++ d :: post) c).store
      = setStatusOf (pre.map (fun e => e._id)) s c.store ∧
    (transitionLoop F clock io s event verb (pre ++ d :: post) c).emits
      = c.emits ++ loopEmits clock io s event verb c.emits.length pre ∧
    (transitionLoop F clock io s event verb (pre ++ d :: post) c).failed = true := by
  obtain ⟨j, hj, h1, h2, _, h4, h5, _⟩ :=
    transitionLoop_spec F clock io s event verb (pre ++ d :: post) c
  have hlen : (pre ++ d :: post).length = pre.length + post.length + 1 := by
    simp [List.length_append]; omega
  have hjeq : j = pre.length := by
    rcases Nat.lt_trichotomy j pre.length with hlt | heq | hgt
    · have := (h5 (by omega)).1
      rw [hpre j hlt] at this; exact Bool.noConfusion this
    · exact heq
    · have := h4 pre.length hgt
      rw [hd] at this; exact Bool.noConfusion this
  have htake : (pre ++ d :: post).take j = pre := by
    rw [hjeq]; exact List.take_left' rfl
  rw [htake] at h1 h2
  exact ⟨h1, h2, (h5 (by omega)).2⟩

/-- A loop none of whose saves rejects runs over all its documents. -/
theorem transitionLoop_accepts_all (F : Faults) (clock : Nat → String) (io : Io) (s : Status)
    (event verb : String) (docs : List Exam) (c : Cycle)
    (hall : ∀ i, i < docs.length → F.saveFails (c.saves + i) = false) :
    (transitionLoop F clock io s event verb docs c).store
      = setStatusOf (docs.map (fun e => e._id)) s c.store ∧
    (transitionLoop F clock io s event verb docs c).emits
      = c.emits ++ loopEmits clock io s event verb c.emits.length docs ∧
    (transitionLoop F clock io s event verb docs c).saves = c.saves + docs.length ∧
    (transitionLoop F clock io s event verb docs c).failed = c.failed := by
  obtain ⟨j, hj, h1, h2, h3, _, h5, h6⟩ := transitionLoop_spec F clock io s event verb docs c
  have hjeq : j = docs.length := by
    by_contra hne
    have hlt : j < docs.length := lt_of_le_of_ne hj hne
    have := (h5 hlt).1
    rw [hall j hlt] at this; exact Bool.noConfusion this
  rw [hjeq, List.take_length] at h1 h2
  rw [hjeq] at h3
  exact ⟨h1, h2, h3, h6 hjeq⟩

theorem nodup_ids_of_filter {store : List Exam} (hnd : (store.map (fun e => e._id)).Nodup)
    (p : Exam → Bool) : ((store.filter p).map (fun e => e._id)).Nodup :=
  List.Nodup.sublist (List.Sublist.map _ (List.filter_sublist _)) hnd

theorem id_not_mem_pre {pre post : List Exam} {d : Exam}
    (hnd : ((pre ++ d :: post).map (fun e => e._id)).Nodup) :
    d._id ∉ pre.map (fun e => e._id) := by
  rw [List.map_append, List.map_cons] at hnd
  intro hmem
  have := (List.nodup_append.1 hnd).2.2
  exact this hmem (List.mem_cons_self _ _)

theorem no_emit_to_room_of_not_mem {clock : Nat → String} {io : Io} {s : Status}
    {event verb : String} {base : Nat} {docs : List Exam} {id : String}
    (hid : id ∉ docs.map (fun e => e._id)) :
    ∀ m ∈ loopEmits clock io s event verb base docs, m.dest ≠ .room id := by
  intro m hm hdest
  obtain ⟨_, e, he, hde⟩ := mem_loopEmits hm
  rw [hdest] at hde
  have : id = e._id := by injection hde
  exact hid (List.mem_map.2 ⟨e, he, this.symm⟩)

/-- After a cycle without rejection on documents with distinct ids, a document that was due to
start is in progress and its room received exactly one `exam-started`. -/
theorem cycle_starts_due {F : Faults} {clock : Nat → String} {io : Io} {now : Int}
    {store : List Exam} (hnd : (store.map (fun e => e._id)).Nodup)
    (hok : (checkExamSchedules F clock io now store).failed = false)
    {d : Exam} (hd : d ∈ store) (hdue : startDue now d = true) :
    ({ d with status := .inProgress } : Exam) ∈ (checkExamSchedules F clock io now store).store ∧
    countTo "exam-started" d._id (checkExamSchedules F clock io now store).emits = 1 := by
  rw [(checkExamSchedules_ok F clock io now store hnd hok).1,
    cycle_count_started F clock io now store hnd hok]
  refine ⟨List.mem_map.2 ⟨d, hd, by unfold cycleDoc; rw [if_pos hdue]⟩, ?_⟩
  have := countP_id_le_one hnd (startDue now) d._id
  have := countP_id_pos (startDue now) hd hdue
  omega

/-- After a cycle without rejection on documents with distinct ids, a document that was due to
end is completed and its room received exactly one `exam-ended`. -/
theorem cycle_ends_due {F : Faults} {clock : Nat → String} {io : Io} {now : Int}
    {store : List Exam} (hnd : (store.map (fun e => e._id)).Nodup)
    (hok : (checkExamSchedules F clock io now store).failed = false)
    {d : Exam} (hd : d ∈ store) (hdue : endDue now d = true) :
    ({ d with status := .completed } : Exam) ∈ (checkExamSchedules F clock io now store).store ∧
    countTo "exam-ended" d._id (checkExamSchedules F clock io now store).emits = 1 := by
  have hS : startDue now d = false := by
    by_contra h; simp only [Bool.not_eq_false] at h
    rw [startDue_endDue now d h] at hdue; exact Bool.noConfusion hdue
  rw [(checkExamSchedules_ok F clock io now store hnd hok).1,
    cycle_count_ended F clock io now store hnd hok]
  refine ⟨List.mem_map.2 ⟨d, hd, by unfold cycleDoc; rw [hS, hdue]; simp⟩, ?_⟩
  have := countP_id_le_one hnd (endDue now) d._id
  have := countP_id_pos (endDue now) hd hdue
  omega

/-- The cycle when the save of a document to start rejects. -/
theorem cycle_start_rejected (F : Faults) (clock : Nat → String) (io : Io) (now : Int)
    (store : List Exam) (pre post : List Exam) (d : Exam)
    (hfind : F.findStartFails = false)
    (hsel : store.filter (startDue now) = pre ++ d :: post)
    (hpre : ∀ i, i < pre.length → F.saveFails i = false)
    (hd : F.saveFails pre.length = true) :
    (checkExamSchedules F clock io now store).failed = true ∧
    (checkExamSchedules F clock io now store).store
      = setStatusOf (pre.map (fun e => e._id)) .inProgress store ∧
    (checkExamSchedules F clock io now store).emits
      = loopEmits clock io .inProgress "exam-started" "started" 0 pre := by
  obtain ⟨h1, h2, h3⟩ := transitionLoop_rejects_at F clock io .inProgress "exam-started" "started"
    pre post d ⟨store, [], 0, false⟩ (by simpa using hpre) (by simpa using hd)
  unfold checkExamSchedules
  simp only [hfind, Bool.false_eq_true, if_false, hsel, h3, if_true]
  exact ⟨trivial, h1, by simpa using h2⟩

/-- The cycle when the save of a document to end rejects. -/
theorem cycle_end_rejected (F : Faults) (clock : Nat → String) (io : Io) (now : Int)
    (store : List Exam) (hnd : (store.map (fun e => e._id)).Nodup)
    (pre post : List Exam) (d : Exam)
    (hfind : F.findStartFails = false) (hfind2 : F.findEndFails = false)
    (hsel : store.filter (endDue now) = pre ++ d :: post)
    (hpre : ∀ i, i < (store.filter (startDue now)).length + pre.length → F.saveFails i = false)
    (hd : F.saveFails ((store.filter (startDue now)).length + pre.length) = true) :
    (checkExamSchedules F clock io now store).failed = true ∧
    (checkExamSchedules F clock io now store).store
      = setStatusOf (pre.map (fun e => e._id)) .completed (store.map (startDoc now)) ∧
    (checkExamSchedules F clock io now store).emits
      = loopEmits clock io .inProgress "exam-started" "started" 0 (store.filter (startDue now))
        ++ loopEmits clock io .completed "exam-ended" "ended"
            (store.filter (startDue now)).length pre := by
  obtain ⟨a1, a2, a3, a4⟩ := transitionLoop_accepts_all F clock io .inProgress "exam-started"
    "started" (store.filter (startDue now)) ⟨store, [], 0, false⟩
    (by intro i hi; simpa using hpre i (by omega))
  simp only [List.nil_append, List.length_nil, Nat.zero_add] at a2 a3
  rw [setStatusOf_filter hnd] at a1
  have a1' : (transitionLoop F clock io .inProgress "exam-started" "started"
      (store.filter (startDue now)) ⟨store, [], 0, false⟩).store = store.map (startDoc now) := a1
  have hflt : (transitionLoop F clock io .inProgress "exam-started" "started"
      (store.filter (startDue now)) ⟨store, [], 0, false⟩).store.filter (endDue now)
      = pre ++ d :: post := by rw [a1', filter_endDue_startDoc, hsel]
  obtain ⟨b1, b2, b3⟩ := transitionLoop_rejects_at F clock io .completed "exam-ended" "ended"
    pre post d (transitionLoop F clock io .inProgress "exam-started" "started"
      (store.filter (startDue now)) ⟨store, [], 0, false⟩)
    (by intro i hi; rw [a3]; exact hpre _ (by omega)) (by rw [a3]; exact hd)
  unfold checkExamSchedules
  simp only [hfind, hfind2, Bool.false_eq_true, if_false, a4, hflt]
  refine ⟨b3, by rw [b1, a1'], ?_⟩
  rw [b2, a2, loopEmits_length]

/-- Claim C11. A cycle on documents with distinct `_id`s in which the save of the session `d` rejects,
the saves of the sessions `pre` selected before it having succeeded: the cycle enters its
`catch` block, none of its emissions is addressed to the room of `d` (the save precedes the
emit, and the rejection leaves the loop), the stored document of `d` is unchanged, and at every
later time at which the transition condition still holds the query selects `d` again, so that
a cycle at that time without rejection transitions it and announces it exactly once. The first
part is a rejection while starting sessions, the second a rejection while ending them. -/
theorem rejected_save_skips_and_retries (F : Faults) (clock : Nat → String) (io : Io)
    (now : Int) (store : List Exam) (hnd : (store.map (fun e => e._id)).Nodup)
    (pre post : List Exam) (d : Exam) :
    (F.findStartFails = false →
      store.filter (startDue now) = pre ++ d :: post →
      (∀ i, i < pre.length → F.saveFails i = false) →
      F.saveFails pre.length = true →
        (checkExamSchedules F clock io now store).failed = true ∧
        (∀ m ∈ (checkExamSchedules F clock io now store).emits, m.dest ≠ .room d._id) ∧
        d ∈ (checkExamSchedules F clock io now store).store ∧
        d.status = .scheduled ∧
        ∀ (F' : Faults) (clock' : Nat → String) (io' : Io) (now' : Int),
          d.startTime ≤ now' → now' < d.endTime →
            d ∈ (checkExamSchedules F clock io now store).store.filter (startDue now') ∧
            ((checkExamSchedules F' clock' io' now'
                (checkExamSchedules F clock io now store).store).failed = false →
              ({ d with status := .inProgress } : Exam) ∈
                (checkExamSchedules F' clock' io' now'
                  (checkExamSchedules F clock io now store).store).store ∧
              countTo "exam-started" d._id
                (checkExamSchedules F' clock' io' now'
                  (checkExamSchedules F clock io now store).store).emits = 1)) ∧
    (F.findStartFails = false → F.findEndFails = false →
      store.filter (endDue now) = pre ++ d :: post →
      (∀ i, i < (store.filter (startDue now)).length + pre.length → F.saveFails i = false) →
      F.saveFails ((store.filter (startDue now)).length + pre.length) = true →
        (checkExamSchedules F clock io now store).failed = true ∧
        (∀ m ∈ (checkExamSchedules F clock io now store).emits, m.dest ≠ .room d._id) ∧
        d ∈ (checkExamSchedules F clock io now store).store ∧
        d.status = .inProgress ∧
        ∀ (F' : Faults) (clock' : Nat → String) (io' : Io) (now' : Int),
          d.endTime ≤ now' →
            d ∈ (checkExamSchedules F clock io now store).store.filter (endDue now') ∧
            ((checkExamSchedules F' clock' io' now'
                (checkExamSchedules F clock io now store).store).failed = false →
              ({ d with status := .completed } : Exam) ∈
                (checkExamSchedules F' clock' io' now'
                  (checkExamSchedules F clock io now store).store).store ∧
              countTo "exam-ended" d._id
                (checkExamSchedules F' clock' io' now'
                  (checkExamSchedules F clock io now store).store).emits = 1)) := by
  constructor
  · intro hfind hsel hpre hd
    obtain ⟨r1, r2, r3⟩ := cycle_start_rejected F clock io now store pre post d hfind hsel hpre hd
    have hdsel : d ∈ store.filter (startDue now) := by rw [hsel]; simp
    obtain ⟨hdm, hdS⟩ := List.mem_filter.1 hdsel
    have hsch : d.status = .scheduled := ((startDue_iff now d).1 hdS).1
    have hnid : d._id ∉ pre.map (fun e => e._id) :=
      id_not_mem_pre (hsel ▸ nodup_ids_of_filter hnd (startDue now))
    have hmem : d ∈ (checkExamSchedules F clock io now store).store := by
      rw [r2]; exact mem_setStatusOf_of_not_mem hdm hnid
    have hnd' : ((checkExamSchedules F clock io now store).store.map (fun e => e._id)).Nodup := by
      rw [r2, setStatusOf_ids]; exact hnd
    refine ⟨r1, by rw [r3]; exact no_emit_to_room_of_not_mem hnid, hmem, hsch, ?_⟩
    intro F' clock' io' now' h1 h2
    have hdue : startDue now' d = true := (startDue_iff now' d).2 ⟨hsch, h1, h2⟩
    exact ⟨List.mem_filter.2 ⟨hmem, hdue⟩, fun hok => cycle_starts_due hnd' hok hmem hdue⟩
  · intro hfind hfind2 hsel hpre hd
    obtain ⟨r1, r2, r3⟩ :=
      cycle_end_rejected F clock io now store hnd pre post d hfind hfind2 hsel hpre hd
    have hdsel : d ∈ store.filter (endDue now) := by rw [hsel]; simp
    obtain ⟨hdm, hdE⟩ := List.mem_filter.1 hdsel
    have hip : d.status = .inProgress := ((endDue_iff now d).1 hdE).1
    have hdS : startDue now d = false := by
      unfold startDue; rw [hip]; rfl
    have hnid : d._id ∉ pre.map (fun e => e._id) :=
      id_not_mem_pre (hsel ▸ nodup_ids_of_filter hnd (endDue now))
    have hnid1 : d._id ∉ (store.filter (startDue now)).map (fun e => e._id) := by
      intro h
      rw [mem_ids_filter hnd _ hdm, hdS] at h
      exact Bool.noConfusion h
    have hmem1 : d ∈ store.map (startDoc now) :=
      List.mem_map.2 ⟨d, hdm, by unfold startDoc; rw [hdS]; rfl⟩
    have hmem : d ∈ (checkExamSchedules F clock io now store).store := by
      rw [r2]; exact mem_setStatusOf_of_not_mem hmem1 hnid
    have hnd' : ((checkExamSchedules F clock io now store).store.map (fun e => e._id)).Nodup := by
      rw [r2, setStatusOf_ids, map_id_map_status]
      · exact hnd
      · intro e; unfold startDoc; split <;> rfl
    refine ⟨r1, ?_, hmem, hip, ?_⟩
    · rw [r3]
      intro m hm
      rcases List.mem_append.1 hm with hm | hm
      · exact no_emit_to_room_of_not_mem hnid1 m hm
      · exact no_emit_to_room_of_not_mem hnid m hm
    · intro F' clock' io' now' h1
      have hdue : endDue now' d = true := (endDue_iff now' d).2 ⟨hip, h1⟩
      exact ⟨List.mem_filter.2 ⟨hmem, hdue⟩, fun hok => cycle_ends_due hnd' hok hmem hdue⟩

/-! ### The statuses a cycle writes -/

/-- Whatever rejects, the documents after a cycle are those before it with the status of
some documents selected by the first query set to in progress, and then the status of some
documents selected by the second query set to completed. -/
theorem checkExamSchedules_shape (F : Faults) (clock : Nat → String) (io : Io) (now : Int)
    (store : List Exam) :
    ∃ ids1 ids2 : List String,
      (checkExamSchedules F clock io now store).store
        = setStatusOf ids2 .completed (setStatusOf ids1 .inProgress store) ∧
      (∀ i ∈ ids1, ∃ e ∈ store, e._id = i ∧ startDue now e = true) ∧
      (∀ i ∈ ids2, ∃ e ∈ setStatusOf ids1 .inProgress store, e._id = i ∧ endDue now e = true) := by
  obtain ⟨j1, _, a1, _⟩ := transitionLoop_spec F clock io .inProgress "exam-started" "started"
    (store.filter (startDue now)) ⟨store, [], 0, false⟩
  obtain ⟨j2, _, b1, _⟩ := transitionLoop_spec F clock io .completed "exam-ended" "ended"
    ((transitionLoop F clock io .inProgress "exam-started" "started"
      (store.filter (startDue now)) ⟨store, [], 0, false⟩).store.filter (endDue now))
    (transitionLoop F clock io .inProgress "exam-started" "started"
      (store.filter (startDue now)) ⟨store, [], 0, false⟩)
  have hids1 : ∀ i ∈ ((store.filter (startDue now)).take j1).map (fun e => e._id),
      ∃ e ∈ store, e._id = i ∧ startDue now e = true := by
    intro i hi
    obtain ⟨e, he, rfl⟩ := List.mem_map.1 hi
    obtain ⟨hm, hS⟩ := List.mem_filter.1 (List.mem_of_mem_take he)
    exact ⟨e, hm, rfl, hS⟩
  unfold checkExamSchedules
  by_cases hfs : F.findStartFails = true
  · refine ⟨[], [], ?_, by simp, by simp⟩
    rw [if_pos hfs, setStatusOf_nil, setStatusOf_nil]
  rw [if_neg hfs]
  simp only []
  split
  · refine ⟨((store.filter (startDue now)).take j1).map (fun e => e._id), [], ?_, hids1,
      by simp⟩
    rw [setStatusOf_nil]; exact a1
  · split
    · refine ⟨((store.filter (startDue now)).take j1).map (fun e => e._id), [], ?_, hids1,
        by simp⟩
      rw [setStatusOf_nil]; exact a1
    · refine ⟨((store.filter (startDue now)).take j1).map (fun e => e._id),
        (((transitionLoop F clock io .inProgress "exam-started" "started"
          (store.filter (startDue now)) ⟨store, [], 0, false⟩).store.filter (endDue now)).take
            j2).map (fun e => e._id), ?_, hids1, ?_⟩
      · rw [b1, a1]
      · intro i hi
        obtain ⟨e, he, rfl⟩ := List.mem_map.1 hi
        obtain ⟨hm, hE⟩ := List.mem_filter.1 (List.mem_of_mem_take he)
        rw [a1] at hm
        exact ⟨e, hm, rfl, hE⟩

/-- Claim C12. Whatever rejects, a cycle on documents with distinct `_id`s keeps every document in
place with its `_id`, title and times, and its status is either unchanged, or changed from
scheduled to in progress, or changed from in progress to completed. Hence a status that changed
is neither cancelled nor scheduled, and a completed or cancelled document is left as it is. -/
theorem checkExamSchedules_only_forward (F : Faults) (clock : Nat → String) (io : Io)
    (now : Int) (store : List Exam) (hnd : (store.map (fun e => e._id)).Nodup) :
    List.Forall₂
      (fun e e' => e'._id = e._id ∧ e'.title = e.title ∧
        e'.startTime = e.startTime ∧ e'.endTime = e.endTime ∧
        (e'.status = e.status ∨
          (e.status = .scheduled ∧ e'.status = .inProgress) ∨
          (e.status = .inProgress ∧ e'.status = .completed)) ∧
        (e'.status ≠ e.status → e'.status ≠ .cancelled ∧ e'.status ≠ .scheduled) ∧
        (e.status = .completed ∨ e.status = .cancelled → e' = e))
      store (checkExamSchedules F clock io now store).store := by
  obtain ⟨ids1, ids2, hs, h1, h2⟩ := checkExamSchedules_shape F clock io now store
  have hnd1 : ((setStatusOf ids1 .inProgress store).map (fun e => e._id)).Nodup := by
    rw [setStatusOf_ids]; exact hnd
  rw [hs]
  unfold setStatusOf
  rw [List.map_map, List.forall₂_map_right_iff, List.forall₂_same]
  intro e he
  have key : ∀ e' : Exam, e'._id = e._id → e'.title = e.title → e'.startTime = e.startTime →
      e'.endTime = e.endTime →
      (e'.status = e.status ∨ (e.status = .scheduled ∧ e'.status = .inProgress) ∨
        (e.status = .inProgress ∧ e'.status = .completed)) →
      e'._id = e._id ∧ e'.title = e.title ∧
        e'.startTime = e.startTime ∧ e'.endTime = e.endTime ∧
        (e'.status = e.status ∨
          (e.status = .scheduled ∧ e'.status = .inProgress) ∨
          (e.status = .inProgress ∧ e'.status = .completed)) ∧
        (e'.status ≠ e.status → e'.status ≠ .cancelled ∧ e'.status ≠ .scheduled) ∧
        (e.status = .completed ∨ e.status = .cancelled → e' = e) := by
    intro e' i1 i2 i3 i4 i5
    refine ⟨i1, i2, i3, i4, i5, ?_, ?_⟩
    · intro hne
      rcases i5 with h | ⟨_, h⟩ | ⟨_, h⟩
      · exact absurd h hne
      · rw [h]; exact ⟨by decide, by decide⟩
      · rw [h]; exact ⟨by decide, by decide⟩
    · intro hterm
      have hst : e'.status = e.status := by
        rcases i5 with h | ⟨h, _⟩ | ⟨h, _⟩
        · exact h
        · rcases hterm with t | t <;> rw [h] at t <;> exact Status.noConfusion t
        · rcases hterm with t | t <;> rw [h] at t <;> exact Status.noConfusion t
      cases e; cases e'
      simp only at i1 i2 i3 i4 hst
      rw [i1, i2, i3, i4, hst]
  simp only [Function.comp]
  by_cases m1 : e._id ∈ ids1
  · -- started in this cycle: the second query cannot select it
    obtain ⟨e0, he0, hid0, hS0⟩ := h1 _ m1
    have : e0 = e := List.inj_on_of_nodup_map hnd he0 he hid0
    rw [this] at hS0
    have hsch := ((startDue_iff now e).1 hS0).1
    have hin1 : ({ e with status := .inProgress } : Exam) ∈ setStatusOf ids1 .inProgress store :=
      List.mem_map.2 ⟨e, he, by rw [if_pos m1]⟩
    have m2 : e._id ∉ ids2 := by
      intro m2
      obtain ⟨e2, he2, hid2, hE2⟩ := h2 _ m2
      have : e2 = { e with status := .inProgress } :=
        List.inj_on_of_nodup_map hnd1 he2 hin1 hid2
      rw [this, endDue_started now e hS0] at hE2
      exact Bool.noConfusion hE2
    rw [if_pos m1]
    simp only []
    rw [if_neg m2]
    exact key _ rfl rfl rfl rfl (Or.inr (Or.inl ⟨hsch, rfl⟩))
  · rw [if_neg m1]
    have hin1 : e ∈ setStatusOf ids1 .inProgress store :=
      mem_setStatusOf_of_not_mem he m1
    by_cases m2 : e._id ∈ ids2
    · obtain ⟨e2, he2, hid2, hE2⟩ := h2 _ m2
      have : e2 = e := List.inj_on_of_nodup_map hnd1 he2 hin1 hid2
      rw [this] at hE2
      rw [if_pos m2]
      exact key _ rfl rfl rfl rfl (Or.inr (Or.inr ⟨((endDue_iff now e).1 hE2).1, rfl⟩))
    · rw [if_neg m2]
      exact key _ rfl rfl rfl rfl (Or.inl rfl)

/-- Whatever rejects, a cycle keeps the `_id`s of the stored documents, in order. -/
theorem checkExamSchedules_ids (F : Faults) (clock : Nat → String) (io : Io) (now : Int)
    (store : List Exam) :
    (checkExamSchedules F clock io now store).store.map (fun e => e._id)
      = store.map (fun e => e._id) := by
  obtain ⟨ids1, ids2, h, _, _⟩ := checkExamSchedules_shape F clock io now store
  rw [h, setStatusOf_ids, setStatusOf_ids]

/-- Whatever rejects, successive cycles keep the `_id`s of the stored documents. -/
theorem runCycles_ids (ts : List Tick) (store : List Exam) :
    (runCycles ts store).store.map (fun e => e._id) = store.map (fun e => e._id) := by
  induction ts generalizing store with
  | nil => rfl
  | cons t ts ih =>
    simp only [runCycles]
    rw [ih, checkExamSchedules_ids]

/-- A document that no cycle of the sequence selects is left as it is by all of them, and no
emission of any of them is addressed to its room. -/
theorem runCycles_untouched (ts : List Tick) (store : List Exam)
    (hnd : (store.map (fun e => e._id)).Nodup) (e : Exam) (he : e ∈ store)
    (hts : ∀ t ∈ ts, startDue t.now e = false ∧ endDue t.now e = false) :
    e ∈ (runCycles ts store).store ∧
    ∀ m ∈ (runCycles ts store).emits, m.dest ≠ .room e._id := by
  induction ts generalizing store with
  | nil => exact ⟨he, by intro m hm; simp [runCycles] at hm⟩
  | cons t ts ih =>
    obtain ⟨h1, h2⟩ := hts t (List.mem_cons_self _ _)
    obtain ⟨a1, a2⟩ := checkExamSchedules_untouched t.F t.clock t.io t.now store hnd e he h1 h2
    have hnd2 : ((checkExamSchedules t.F t.clock t.io t.now store).store.map
        (fun e => e._id)).Nodup := by
      rw [checkExamSchedules_ids]; exact hnd
    obtain ⟨b1, b2⟩ := ih _ hnd2 a1 (fun t' ht' => hts t' (List.mem_cons_of_mem _ ht'))
    simp only [runCycles]
    refine ⟨b1, ?_⟩
    intro m hm
    rcases List.mem_append.1 hm with h | h
    · exact a2 m h
    · exact b2 m h

theorem mem_setStatusOf_of_mem {ids : List String} {s : Status} {store : List Exam} {e : Exam}
    (he : e ∈ store) (hid : e._id ∈ ids) :
    ({ e with status := s } : Exam) ∈ setStatusOf ids s store := by
  unfold setStatusOf
  exact List.mem_map.2 ⟨e, he, by rw [if_pos hid]⟩

/-- In a list of documents with distinct ids, a document selected after `d` has an id other
than those of the documents selected before `d`. -/
theorem id_not_mem_pre_of_post {pre post : List Exam} {d e : Exam}
    (hnd : ((pre ++ d :: post).map (fun e => e._id)).Nodup) (he : e ∈ post) :
    e._id ∉ pre.map (fun e => e._id) := by
  rw [List.map_append, List.map_cons] at hnd
  intro hmem
  have := (List.nodup_append.1 hnd).2.2
  exact this hmem (List.mem_cons_of_mem _ (List.mem_map.2 ⟨e, he, rfl⟩))

/-- With distinct ids, a stored document that a filter rejects has an id other than those of
the documents the filter selects. -/
theorem id_not_mem_filter {store : List Exam} (hnd : (store.map (fun e => e._id)).Nodup)
    {p : Exam → Bool} {e : Exam} (he : e ∈ store) (hp : p e = false) :
    e._id ∉ (store.filter p).map (fun e => e._id) := by
  intro hmem
  obtain ⟨x, hx, hid⟩ := List.mem_map.1 hmem
  obtain ⟨hxs, hxp⟩ := List.mem_filter.1 hx
  have : x = e := List.inj_on_of_nodup_map hnd hxs he hid
  rw [this, hp] at hxp
  exact Bool.noConfusion hxp

theorem not_mem_map_of_append_left {pre rest : List Exam} {i : String}
    (h : i ∉ (pre ++ rest).map (fun e => e._id)) : i ∉ pre.map (fun e => e._id) := by
  intro hmem
  apply h
  rw [List.map_append]
  exact List.mem_append_left _ hmem

/-- Claim C29. A stored session that is scheduled with `endTime ≤ now` is left as it is by every
sequence of cycles run at times not before `now`, whatever rejects in them, on documents with
distinct `_id`s: its document is still stored unchanged, the document with its `_id` is still
scheduled (neither in progress nor completed), and no emission of any of these cycles is
addressed to its room. -/
theorem past_end_scheduled_never_runs (ts : List Tick) (store : List Exam)
    (hnd : (store.map (fun e => e._id)).Nodup) (e : Exam) (he : e ∈ store)
    (hs : e.status = .scheduled) (now : Int) (hend : e.endTime ≤ now)
    (hts : ∀ t ∈ ts, now ≤ t.now) :
    e ∈ (runCycles ts store).store ∧
    (∀ e' ∈ (runCycles ts store).store, e'._id = e._id → e'.status = .scheduled) ∧
    (∀ m ∈ (runCycles ts store).emits, m.dest ≠ .room e._id) := by
  have hsel : ∀ t ∈ ts, startDue t.now e = false ∧ endDue t.now e = false := by
    intro t ht
    have := hts t ht
    constructor
    · cases h : startDue t.now e with
      | false => rfl
      | true =>
        have := (startDue_iff t.now e).1 h
        omega
    · cases h : endDue t.now e with
      | false => rfl
      | true =>
        have h2 := ((endDue_iff t.now e).1 h).1
        rw [hs] at h2
        exact Status.noConfusion h2
  obtain ⟨h1, h2⟩ := runCycles_untouched ts store hnd e he hsel
  refine ⟨h1, ?_, h2⟩
  intro e' he' hid
  have hnd2 : ((runCycles ts store).store.map (fun e => e._id)).Nodup := by
    rw [runCycles_ids]; exact hnd
  have : e' = e := List.inj_on_of_nodup_map hnd2 he' h1 hid
  rw [this]; exact hs

/-- Claim C30. A cycle on documents with distinct `_id`s in which the save of the session `d` rejects,
the earlier saves having succeeded, returns with its `catch` block entered. If `d` was to be
started: the sessions selected before `d` are stored in progress and the emissions are exactly
their `exam-started`; every session selected after `d`, and every session that was to be ended,
is stored unchanged and nothing is addressed to its room. If `d` was to be ended: the sessions
to start are stored in progress, the sessions to end selected before `d` are stored completed,
the emissions are exactly theirs; every session selected after `d` is stored unchanged and
nothing is addressed to its room. -/
theorem rejected_save_stops_the_cycle (F : Faults) (clock : Nat → String) (io : Io)
    (now : Int) (store : List Exam) (hnd : (store.map (fun e => e._id)).Nodup)
    (pre post : List Exam) (d : Exam) :
    (F.findStartFails = false →
      store.filter (startDue now) = pre ++ d :: post →
      (∀ i, i < pre.length → F.saveFails i = false) →
      F.saveFails pre.length = true →
        (checkExamSchedules F clock io now store).failed = true ∧
        (∀ e ∈ pre,
          ({ e with status := .inProgress } : Exam) ∈
            (checkExamSchedules F clock io now store).store) ∧
        (checkExamSchedules F clock io now store).emits
          = loopEmits clock io .inProgress "exam-started" "started" 0 pre ∧
        (∀ e, e ∈ post ∨ (e ∈ store ∧ endDue now e = true) →
          e ∈ (checkExamSchedules F clock io now store).store ∧
          ∀ m ∈ (checkExamSchedules F clock io now store).emits, m.dest ≠ .room e._id)) ∧
    (F.findStartFails = false → F.findEndFails = false →
      store.filter (endDue now) = pre ++ d :: post →
      (∀ i, i < (store.filter (startDue now)).length + pre.length → F.saveFails i = false) →
      F.saveFails ((store.filter (startDue now)).length + pre.length) = true →
        (checkExamSchedules F clock io now store).failed = true ∧
        (∀ e ∈ store, startDue now e = true →
          ({ e with status := .inProgress } : Exam) ∈
            (checkExamSchedules F clock io now store).store) ∧
        (∀ e ∈ pre,
          ({ e with status := .completed } : Exam) ∈
            (checkExamSchedules F clock io now store).store) ∧
        (checkExamSchedules F clock io now store).emits
          = loopEmits clock io .inProgress "exam-started" "started" 0
              (store.filter (startDue now))
            ++ loopEmits clock io .completed "exam-ended" "ended"
                (store.filter (startDue now)).length pre ∧
        (∀ e ∈ post,
          e ∈ (checkExamSchedules F clock io now store).store ∧
          ∀ m ∈ (checkExamSchedules F clock io now store).emits, m.dest ≠ .room e._id)) := by
  constructor
  · intro hfind hsel hpre hd
    obtain ⟨h1, h2, h3⟩ := cycle_start_rejected F clock io now store pre post d hfind hsel hpre hd
    have hndsel : ((pre ++ d :: post).map (fun e => e._id)).Nodup := by
      rw [← hsel]; exact nodup_ids_of_filter hnd _
    have hsub : ∀ e ∈ pre ++ d :: post, e ∈ store ∧ startDue now e = true := by
      intro e he; rw [← hsel] at he; exact List.mem_filter.1 he
    refine ⟨h1, ?_, h3, ?_⟩
    · intro e he
      rw [h2]
      exact mem_setStatusOf_of_mem (hsub e (List.mem_append_left _ he)).1
        (List.mem_map.2 ⟨e, he, rfl⟩)
    · intro e he
      have hmem : e ∈ store := by
        rcases he with h | h
        · exact (hsub e (List.mem_append_right _ (List.mem_cons_of_mem _ h))).1
        · exact h.1
      have hid : e._id ∉ pre.map (fun e => e._id) := by
        rcases he with h | h
        · exact id_not_mem_pre_of_post hndsel h
        · have hns : startDue now e = false := by
            cases hc : startDue now e with
            | false => rfl
            | true => have := startDue_endDue now e hc; rw [h.2] at this; exact Bool.noConfusion this
          have := id_not_mem_filter hnd h.1 hns
          rw [hsel] at this
          exact not_mem_map_of_append_left this
      rw [h2, h3]
      exact ⟨mem_setStatusOf_of_not_mem hmem hid, no_emit_to_room_of_not_mem hid⟩
  · intro hfind hfind2 hsel hpre hd
    obtain ⟨h1, h2, h3⟩ :=
      cycle_end_rejected F clock io now store hnd pre post d hfind hfind2 hsel hpre hd
    have hndsel : ((pre ++ d :: post).map (fun e => e._id)).Nodup := by
      rw [← hsel]; exact nodup_ids_of_filter hnd _
    have hsub : ∀ e ∈ pre ++ d :: post, e ∈ store ∧ endDue now e = true := by
      intro e he; rw [← hsel] at he; exact List.mem_filter.1 he
    have hnotstart : ∀ e, endDue now e = true → startDue now e = false := by
      intro e h
      cases hc : startDue now e with
      | false => rfl
      | true => have := startDue_endDue now e hc; rw [h] at this; exact Bool.noConfusion this
    have hkeep : ∀ e, e ∈ store → endDue now e = true → e ∈ store.map (startDoc now) := by
      intro e he h
      refine List.mem_map.2 ⟨e, he, ?_⟩
      unfold startDoc
      rw [hnotstart e h]; rfl
    refine ⟨h1, ?_, ?_, h3, ?_⟩
    · intro e he hs
      rw [h2]
      have hin : ({ e with status := .inProgress } : Exam) ∈ store.map (startDoc now) :=
        List.mem_map.2 ⟨e, he, by unfold startDoc; rw [if_pos hs]⟩
      have hid : e._id ∉ pre.map (fun e => e._id) := by
        have := id_not_mem_filter hnd he (startDue_endDue now e hs)
        rw [hsel] at this
        exact not_mem_map_of_append_left this
      exact mem_setStatusOf_of_not_mem hin hid
    · intro e he
      rw [h2]
      obtain ⟨hes, hed⟩ := hsub e (List.mem_append_left _ he)
      exact mem_setStatusOf_of_mem (hkeep e hes hed) (List.mem_map.2 ⟨e, he, rfl⟩)
    · intro e he
      obtain ⟨hes, hed⟩ := hsub e (List.mem_append_right _ (List.mem_cons_of_mem _ he))
      have hid : e._id ∉ pre.map (fun e => e._id) := id_not_mem_pre_of_post hndsel he
      have hid2 : e._id ∉ (store.filter (startDue now)).map (fun e => e._id) :=
        id_not_mem_filter hnd hes (hnotstart e hed)
      rw [h2, h3]
      refine ⟨mem_setStatusOf_of_not_mem (hkeep e hes hed) hid, ?_⟩
      intro m hm
      rcases List.mem_append.1 hm with h | h
      · exact no_emit_to_room_of_not_mem hid2 m h
      · exact no_emit_to_room_of_not_mem hid m h

/-! ## The connections: rooms, metadata and the listeners -/

/-! ### Rooms and sockets -/

theorem mem_members_iff (io : Io) (roomId : RoomId) (sid : SocketId) :
    sid ∈ io.members roomId ↔ io.isMember sid roomId := by
  unfold Io.members Io.getRoom Io.isMember
  have key : sid ∈ (io.rooms.filter (fun p => p.1 = roomId)).map (fun p => p.2)
      ↔ (roomId, sid) ∈ io.rooms := by
    simp only [List.mem_map, List.mem_filter, decide_eq_true_eq]
    constructor
    · rintro ⟨⟨r, s⟩, ⟨hm, hr⟩, hs⟩
      simp only at hr hs
      rw [← hr, ← hs]; exact hm
    · intro h; exact ⟨(roomId, sid), ⟨h, rfl⟩, rfl⟩
  rw [← key]
  cases h : (io.rooms.filter (fun p => p.1 = roomId)).map (fun p => p.2) with
  | nil => simp
  | cons a l => simp

theorem getRoom_some_mem {io : Io} {roomId : RoomId} {l : List SocketId}
    (h : io.getRoom roomId = some l) (sid : SocketId) :
    sid ∈ l ↔ io.isMember sid roomId := by
  rw [← mem_members_iff]; unfold Io.members; rw [h]; rfl

theorem join_sockets (io : Io) (sid : SocketId) (r : RoomId) :
    (io.join sid r).sockets = io.sockets := by
  unfold Io.join; split <;> rfl

theorem mem_join_rooms (io : Io) (sid : SocketId) (r : RoomId) (p : RoomId × SocketId) :
    p ∈ (io.join sid r).rooms ↔ p ∈ io.rooms ∨ p = (r, sid) := by
  unfold Io.join
  split
  · rename_i h
    constructor
    · exact Or.inl
    · rintro (h' | h')
      · exact h'
      · rw [h']; exact h
  · simp

theorem setMetadata_rooms (io : Io) (sid : SocketId) (m : Metadata) :
    (io.setMetadata sid m).rooms = io.rooms := rfl

theorem getSocket_join (io : Io) (sid : SocketId) (r : RoomId) (x : SocketId) :
    (io.join sid r).getSocket x = io.getSocket x := by
  unfold Io.getSocket; rw [join_sockets]

theorem getSocket_some_id {io : Io} {x : SocketId} {s : Socket} (h : io.getSocket x = some s) :
    s.id = x := by
  unfold Io.getSocket at h
  have := List.find?_some h
  simpa using this

theorem getSocket_some_mem {io : Io} {x : SocketId} {s : Socket} (h : io.getSocket x = some s) :
    s ∈ io.sockets := by
  unfold Io.getSocket at h
  exact List.mem_of_find?_eq_some h

theorem getSocket_setMetadata (io : Io) (sid : SocketId) (m : Metadata) (x : SocketId) :
    (io.setMetadata sid m).getSocket x
      = if x = sid then (io.getSocket x).map (fun s => { s with socketMetadata := m })
        else io.getSocket x := by
  unfold Io.getSocket Io.setMetadata
  simp only [List.find?_map]
  have hcomp : ((fun s : Socket => decide (s.id = x)) ∘
      fun s : Socket => if s.id = sid then { s with socketMetadata := m } else s)
      = fun s : Socket => decide (s.id = x) := by
    funext s
    simp only [Function.comp]
    split <;> rfl
  rw [hcomp]
  cases hf : io.sockets.find? (fun s => decide (s.id = x)) with
  | none => simp
  | some s =>
    have hid : s.id = x := by simpa using List.find?_some hf
    by_cases hx : x = sid
    · simp [hx, hid ▸ hx]
    · have : ¬ s.id = sid := fun h => hx (hid ▸ h)
      simp [hx, this]

theorem metadataOf_setMetadata_self (io : Io) (sid : SocketId) (m : Metadata)
    (h : (io.getSocket sid).isSome) : (io.setMetadata sid m).metadataOf sid = some m := by
  unfold Io.metadataOf
  rw [getSocket_setMetadata, if_pos rfl]
  cases hs : io.getSocket sid with
  | none => rw [hs] at h; exact Bool.noConfusion h
  | some s => rfl

theorem metadataOf_join (io : Io) (sid : SocketId) (r : RoomId) (x : SocketId) :
    (io.join sid r).metadataOf x = io.metadataOf x := by
  unfold Io.metadataOf; rw [getSocket_join]

theorem metadataOf_setMetadata_other (io : Io) (sid : SocketId) (m : Metadata) (x : SocketId)
    (h : x ≠ sid) : (io.setMetadata sid m).metadataOf x = io.metadataOf x := by
  unfold Io.metadataOf; rw [getSocket_setMetadata, if_neg h]

theorem join_setMetadata_comm (io : Io) (sid : SocketId) (r : RoomId) (m : Metadata) :
    (io.join sid r).setMetadata sid m = (io.setMetadata sid m).join sid r := by
  unfold Io.join Io.setMetadata
  simp only
  split <;> rfl

/-! ### The conversion to a string -/

theorem toJsString_str (s : String) : (JsAtom.str s).toJsString = .ok s := rfl

/-- The conversion refuses one value only. -/
theorem toJsString_error {a : JsAtom} {x : String} (h : a.toJsString = .error x) :
    a = .unprintable ∧ x = "TypeError" := by
  cases a with
  | bool b => cases b <;> exact Except.noConfusion h
  | unprintable => injection h with h; exact ⟨rfl, h.symm⟩
  | _ => exact Except.noConfusion h

theorem toJsString_ok_of_ne {a : JsAtom} (h : a ≠ .unprintable) :
    ∃ s, a.toJsString = .ok s := by
  cases a with
  | bool b => cases b <;> exact ⟨_, rfl⟩
  | unprintable => exact absurd rfl h
  | _ => exact ⟨_, rfl⟩

theorem toJsString_unprintable : JsAtom.unprintable.toJsString = .error "TypeError" := rfl

/-- A value that is falsy converts to a string. -/
theorem toJsString_ok_of_falsy {a : JsAtom} (h : a.truthy = false) :
    ∃ s, a.toJsString = .ok s :=
  toJsString_ok_of_ne (by intro hu; rw [hu] at h; exact Bool.noConfusion h)

theorem orElse_of_truthy {a b : JsAtom} (h : a.truthy = true) : a.orElse b = a := by
  unfold JsAtom.orElse; rw [if_pos h]

theorem orElse_of_falsy {a b : JsAtom} (h : a.truthy = false) : a.orElse b = b := by
  unfold JsAtom.orElse; rw [h]; rfl

/-! ### What each listener returns -/

theorem onProctorJoin_dropped (clock : Nat → String) (io : Io) (sid : SocketId) (data : JsVal)
    (h : (proctorExamId data).truthy = false) :
    onProctorJoin clock io sid data = .ok (io, []) := by
  simp only [onProctorJoin, h, Bool.not_false, if_true, pure, Except.pure]

theorem onProctorJoin_valid (clock : Nat → String) (io : Io) (sid : SocketId) (data : JsVal)
    (e : String) (h : (proctorExamId data).truthy = true)
    (he : (proctorExamId data).toJsString = .ok e) :
    onProctorJoin clock io sid data = .ok
      ((io.setMetadata sid ⟨some .proctor, some e, none⟩).join sid e,
        [((io.setMetadata sid ⟨some .proctor, some e, none⟩).join sid e).emit
            (.roomExcept e sid) "proctor-connected"
            [("socketId", .str sid), ("timestamp", .str (clock 0))],
         ((io.setMetadata sid ⟨some .proctor, some e, none⟩).join sid e).emit
            (.room e) "proctor-status-update"
            [("examId", .str e), ("connected", .bool true), ("proctorId", .str sid),
             ("timestamp", .str (clock 1))],
         ((io.setMetadata sid ⟨some .proctor, some e, none⟩).join sid e).emit
            (.sender sid) "proctor-join-ack"
            [("success", .bool true), ("examId", .str e), ("socketId", .str sid)]]) := by
  simp only [onProctorJoin, h, he, Bool.not_true, Bool.false_eq_true, if_false, bind,
    Except.bind, pure, Except.pure]

theorem onProctorJoin_throws (clock : Nat → String) (io : Io) (sid : SocketId) (data : JsVal)
    (he : proctorExamId data = .unprintable) :
    onProctorJoin clock io sid data = .error "TypeError" := by
  simp only [onProctorJoin, he, toJsString_unprintable, bind, Except.bind]
  rfl

theorem onProctorHeartbeat_dropped (clock : Nat → String) (io : Io) (sid : SocketId)
    (data : JsVal) (h : (proctorExamId data).truthy = false) :
    onProctorHeartbeat clock io sid data = .ok (io, []) := by
  simp only [onProctorHeartbeat, h, Bool.not_false, if_true, pure, Except.pure]

/-- A valid `proctor-heartbeat` naming the exam `e` returns: from the state in which the
metadata was written and the room joined if the stored type or exam id differed, it emits
`proctor-status-update` to the room if `getRoomMembers` lists a student there, then
`heartbeat-ack`. -/
theorem onProctorHeartbeat_valid (clock : Nat → String) (io : Io) (sid : SocketId)
    (data : JsVal) (e : String) (h : (proctorExamId data).truthy = true)
    (he : (proctorExamId data).toJsString = .ok e) :
    ∃ io', (io' = (io.setMetadata sid ⟨some .proctor, some e, none⟩).join sid e ∨
        (io' = io ∧ ∃ m, io.metadataOf sid = some m ∧ m.type = some .proctor ∧
          m.examId = some e)) ∧
      onProctorHeartbeat clock io sid data = .ok (io',
        (if (getRoomMembers io' e).students.length > 0 then
          [io'.emit (.room e) "proctor-status-update"
            [("examId", .str e), ("connected", .bool true), ("proctorId", .str sid),
             ("timestamp", .str (clock 0))]]
         else [])
        ++ [io'.emit (.sender sid) "heartbeat-ack"
            [("received", .bool true), ("timestamp", .str (clock 0))]]) := by
  simp only [onProctorHeartbeat, h, he, Bool.not_true, Bool.false_eq_true, if_false, bind,
    Except.bind, pure, Except.pure]
  split
  · exact ⟨_, Or.inl rfl, rfl⟩
  · rename_i hcond
    simp only [not_or, not_not] at hcond
    obtain ⟨ht, hx⟩ := hcond
    refine ⟨_, Or.inr ⟨rfl, ?_⟩, rfl⟩
    cases hm : io.metadataOf sid with
    | none => rw [hm] at ht; exact Option.noConfusion ht
    | some m =>
      rw [hm] at ht hx
      simp only [Option.some_bind] at ht hx
      exact ⟨m, rfl, ht, hx⟩

theorem onStudentJoin_dropped (clock : Nat → String) (io : Io) (sid : SocketId) (data : JsVal)
    (E S : JsAtom) (hE : data.getField "examId" = .ok E)
    (hS : data.getField "studentId" = .ok S) (h : E.truthy = false ∨ S.truthy = false) :
    onStudentJoin clock io sid data = .ok (io, []) := by
  have hc : (!E.truthy || !S.truthy) = true := by rcases h with h | h <;> simp [h]
  simp only [onStudentJoin, hE, hS, hc, if_true, bind, Except.bind, pure, Except.pure]

theorem onStudentJoin_valid (clock : Nat → String) (io : Io) (sid : SocketId) (data : JsVal)
    (E S : JsAtom) (e s : String) (hE : data.getField "examId" = .ok E)
    (hS : data.getField "studentId" = .ok S) (hEt : E.truthy = true) (hSt : S.truthy = true)
    (he : E.toJsString = .ok e) (hs : S.toJsString = .ok s) :
    onStudentJoin clock io sid data = .ok
      ((io.join sid e).setMetadata sid ⟨some .student, some e, some s⟩,
        [((io.join sid e).setMetadata sid ⟨some .student, some e, some s⟩).emit
            (.roomExcept e sid) "student-connected"
            [("studentId", .str s), ("socketId", .str sid), ("timestamp", .str (clock 0)),
             ("reconnection", .bool true)],
         ((io.join sid e).setMetadata sid ⟨some .student, some e, some s⟩).emit
            (.roomExcept e sid) "student-online"
            [("studentId", .str s), ("socketId", .str sid),
             ("timestamp", .str (clock 0))]]) := by
  simp only [onStudentJoin, hE, hS, hEt, hSt, he, hs, Bool.not_true, Bool.or_self,
    Bool.false_eq_true, if_false, bind, Except.bind, pure, Except.pure]

theorem onStudentHeartbeat_dropped (clock : Nat → String) (io : Io) (sid : SocketId)
    (data : JsVal) (E S : JsAtom) (hE : data.getField "examId" = .ok E)
    (hS : data.getField "studentId" = .ok S) (h : E.truthy = false ∨ S.truthy = false) :
    onStudentHeartbeat clock io sid data = .ok (io, []) := by
  have hc : (!E.truthy || !S.truthy) = true := by rcases h with h | h <;> simp [h]
  simp only [onStudentHeartbeat, hE, hS, hc, if_true, bind, Except.bind, pure, Except.pure]

/-- A valid `student-heartbeat` returns one emission, the `student-online` sent through
`socket.to` to the room, from the state in which the metadata was written and the room
joined if the stored type or user id differed. -/
theorem onStudentHeartbeat_valid (clock : Nat → String) (io : Io) (sid : SocketId)
    (data : JsVal) (E S : JsAtom) (e s : String)
    (hE : data.getField "examId" = .ok E) (hS : data.getField "studentId" = .ok S)
    (hEt : E.truthy = true) (hSt : S.truthy = true)
    (he : E.toJsString = .ok e) (hs : S.toJsString = .ok s) :
    ∃ io', (io' = (io.setMetadata sid ⟨some .student, some e, some s⟩).join sid e ∨
        (io' = io ∧ ∃ m, io.metadataOf sid = some m ∧ m.type = some .student ∧
          m.userId = some s)) ∧
      onStudentHeartbeat clock io sid data = .ok (io',
        [io'.emit (.roomExcept e sid) "student-online"
          [("studentId", .str s), ("socketId", .str sid),
           ("timestamp", .str (clock 0))]]) := by
  simp only [onStudentHeartbeat, hE, hS, bind, Except.bind, pure, Except.pure, hEt, hSt, he, hs,
    Bool.not_true, Bool.or_self, Bool.false_eq_true, if_false]
  split
  · exact ⟨_, Or.inl rfl, rfl⟩
  · rename_i hcond
    simp only [not_or, not_not] at hcond
    obtain ⟨ht, hx⟩ := hcond
    refine ⟨_, Or.inr ⟨rfl, ?_⟩, rfl⟩
    cases hm : io.metadataOf sid with
    | none => rw [hm] at ht; exact Option.noConfusion ht
    | some m =>
      rw [hm] at ht hx
      simp only [Option.some_bind] at ht hx
      exact ⟨m, rfl, ht, hx⟩

theorem onStudentVideo_valid (clock : Nat → String) (io : Io) (sid : SocketId) (data : JsVal)
    (E S V : JsAtom) (e s : String) (hS : data.getField "studentId" = .ok S)
    (hE : data.getField "examId" = .ok E) (hV : data.getField "videoData" = .ok V)
    (he : E.toJsString = .ok e) (hs : S.toJsString = .ok s) :
    onStudentVideo clock io sid data = .ok (io,
      [io.emit (.roomExcept e sid) "student-video-update"
        [("studentId", .str s), ("videoData", V), ("timestamp", .str (clock 0))]]) := by
  simp only [onStudentVideo, hE, hS, hV, he, hs, bind, Except.bind, pure, Except.pure]

theorem onIdVerificationResponse_valid (clock : Nat → String) (io : Io) (sid : SocketId)
    (data : JsVal) (E S V : JsAtom) (e s : String) (hS : data.getField "studentId" = .ok S)
    (hE : data.getField "examId" = .ok E) (hV : data.getField "verified" = .ok V)
    (he : E.toJsString = .ok e) (hs : S.toJsString = .ok s) :
    onIdVerificationResponse clock io sid data = .ok (io,
      [io.emit (.roomExcept e sid) "id-verification-result"
        [("studentId", .str s), ("verified", V), ("timestamp", .str (clock 0)),
         ("verifiedBy", .str sid)],
       io.emit (.sender sid) "verification-response-received"
        [("success", .bool true), ("verified", V)]]) := by
  simp only [onIdVerificationResponse, hE, hS, hV, he, hs, bind, Except.bind, pure,
    Except.pure]

theorem onStudentSubmitExam_valid (clock : Nat → String) (io : Io) (sid : SocketId)
    (data : JsVal) (E S : JsAtom) (e s : String) (hS : data.getField "studentId" = .ok S)
    (hE : data.getField "examId" = .ok E)
    (he : E.toJsString = .ok e) (hs : S.toJsString = .ok s) :
    onStudentSubmitExam clock io sid data = .ok (io,
      [io.emit (.roomExcept e sid) "student-submitted-exam"
        [("studentId", .str s), ("examId", .str e), ("timestamp", .str (clock 0))],
       io.emit (.sender sid) "exam-submission-received"
        [("success", .bool true), ("timestamp", .str (clock 0))]]) := by
  simp only [onStudentSubmitExam, hE, hS, he, hs, bind, Except.bind, pure, Except.pure]

/-- On parameters of which one is missing or empty, `request-id-verification` answers the
sender alone, provided the other parameter converts to a string. -/
theorem onRequestIdVerification_invalid (clock : Nat → String) (io : Io) (sid : SocketId)
    (data : JsVal) (S E : JsAtom) (hS : data.getField "studentId" = .ok S)
    (hE : data.getField "examId" = .ok E) (h : S.truthy = false ∨ E.truthy = false)
    (hSp : S ≠ .unprintable) (hEp : E ≠ .unprintable) :
    onRequestIdVerification clock io sid data = .ok (io,
      [io.emit (.sender sid) "verification-request-sent"
        [("studentId", S.orElse (.str "unknown")), ("examId", E.orElse (.str "unknown")),
         ("timestamp", .str (clock 0)), ("success", .bool false),
         ("error", .str "Missing required parameters")]]) := by
  have hc : (!S.truthy || !E.truthy) = true := by rcases h with h | h <;> simp [h]
  obtain ⟨s, hs⟩ := toJsString_ok_of_ne hSp
  obtain ⟨e, he⟩ := toJsString_ok_of_ne hEp
  simp only [onRequestIdVerification, hS, hE, hc, hs, he, if_true, bind, Except.bind, pure,
    Except.pure]

theorem onRequestIdVerification_valid (clock : Nat → String) (io : Io) (sid : SocketId)
    (data : JsVal) (S E : JsAtom) (s e : String) (hS : data.getField "studentId" = .ok S)
    (hE : data.getField "examId" = .ok E) (hSt : S.truthy = true) (hEt : E.truthy = true)
    (hs : S.toJsString = .ok s) (he : E.toJsString = .ok e) :
    onRequestIdVerification clock io sid data = .ok (io,
      [io.emit (.roomExcept e sid) "verify-id"
        [("studentId", .str s), ("requestedBy", .str sid), ("timestamp", .str (clock 0))],
       io.emit (.sender sid) "verification-request-sent"
        [("studentId", .str s), ("examId", .str e), ("timestamp", .str (clock 0)),
         ("success", .bool true)]]) := by
  simp only [onRequestIdVerification, hS, hE, hSt, hEt, hs, he, Bool.not_true, Bool.or_self,
    Bool.false_eq_true, if_false, bind, Except.bind, pure, Except.pure]

/-- When a parameter of `request-id-verification` does not convert to a string, the listener
throws: before the emission on invalid parameters, and out of the `catch` block on valid
ones. No `verification-request-sent` is ever sent from the `catch` block. -/
theorem onRequestIdVerification_throws (clock : Nat → String) (io : Io) (sid : SocketId)
    (data : JsVal) (S E : JsAtom) (hS : data.getField "studentId" = .ok S)
    (hE : data.getField "examId" = .ok E) (h : S = .unprintable ∨ E = .unprintable) :
    onRequestIdVerification clock io sid data = .error "TypeError" := by
  by_cases hc : (!S.truthy || !E.truthy) = true
  · simp only [onRequestIdVerification, hS, hE, hc, if_true, bind, Except.bind, pure,
      Except.pure]
    rcases h with h | h
    · rw [h]; rfl
    · rw [h]
      cases hs : S.toJsString with
      | error x => simp only; rw [(toJsString_error hs).2]
      | ok s => rfl
  · have hSt : S.truthy = true := by
      cases hx : S.truthy with
      | true => rfl
      | false => rw [hx] at hc; simp at hc
    have hEt : E.truthy = true := by
      cases hx : E.truthy with
      | true => rfl
      | false => rw [hx] at hc; simp at hc
    simp only [onRequestIdVerification, hS, hE, hc, if_false, bind, Except.bind, pure,
      Except.pure, orElse_of_truthy hSt, orElse_of_truthy hEt]
    rcases h with h | h
    · rw [h]; rfl
    · rw [h]
      cases hs : S.toJsString with
      | error x => simp only [Bool.false_eq_true, if_false]; rw [(toJsString_error hs).2]
      | ok s => rfl

theorem onRequestConnectionStatus_valid (clock : Nat → String) (io : Io) (sid : SocketId)
    (data : JsVal) (E : JsAtom) (e : String) (hE : data.getField "examId" = .ok E)
    (hEt : E.truthy = true) (he : E.toJsString = .ok e) :
    onRequestConnectionStatus clock io sid data = .ok (io,
      ((getRoomMembers io e).students.enum.map (fun p =>
        io.emit (.sender sid) "student-online"
          [("studentId", JsAtom.ofOption p.2.studentId), ("socketId", .str p.2.socketId),
           ("timestamp", .str (clock p.1))]))
      ++ [io.emit (.sender sid) "connection-status-response"
          [("success", .bool true), ("examId", .str e),
           ("connectedStudents", .num (SafeInt.ofNat (getRoomMembers io e).students.length)),
           ("connectedProctors", .num (SafeInt.ofNat (getRoomMembers io e).proctors.length)),
           ("timestamp", .str (clock (getRoomMembers io e).students.length))]]) := by
  simp only [onRequestConnectionStatus, hE, hEt, he, Bool.not_true, Bool.false_eq_true,
    if_false, bind, Except.bind, pure, Except.pure]

/-! ### What a listener does to the state -/

/-- The three shapes of the state after an event on `sid`. -/
theorem handle_state {clock : Nat → String} {io io' : Io} {sid : SocketId} {ev : Event}
    {emits : List Emit} (h : handle clock io sid ev = .ok (io', emits)) :
    io' = io ∨
    (∃ m E, m.examId = some E ∧ m.wellFormed ∧ io' = (io.setMetadata sid m).join sid E) ∨
    ((∃ reason, ev = .disconnect reason) ∧ io' = io.teardown sid) := by
  cases ev with
  | ping cb =>
    simp only [handle, onPing] at h
    split at h <;> · injection h with h; injection h with h1 _; exact Or.inl h1.symm
  | error =>
    simp only [handle] at h
    injection h with h; injection h with h1 _; exact Or.inl h1.symm
  | disconnect reason =>
    simp only [handle] at h
    split at h
    · injection h with h; injection h with h1 _; exact Or.inl h1.symm
    · injection h with h; injection h with h1 _
      exact Or.inr (Or.inr ⟨⟨reason, rfl⟩, h1.symm⟩)
  | _ =>
    simp only [handle, onProctorJoin, onStudentJoin, onStudentVideo, onRequestIdVerification,
      onIdVerificationResponse, onReportSuspiciousActivity, onStudentHeartbeat,
      onStudentSubmitExam, onRequestConnectionStatus, onProctorHeartbeat,
      bind, Except.bind, pure, Except.pure] at h
    repeat' split at h
    all_goals first
      | exact Except.noConfusion h
      | (injection h with h; injection h with h1 _; exact Or.inl h1.symm)
      | (injection h with h; injection h with h1 _
         exact Or.inr (Or.inl ⟨_, _, rfl, by exact ⟨rfl, rfl⟩, h1.symm⟩))
      | (injection h with h; injection h with h1 _
         rw [join_setMetadata_comm] at h1
         exact Or.inr (Or.inl ⟨_, _, rfl, by exact ⟨rfl, rfl⟩, h1.symm⟩))

theorem getSocket_isSome_iff (io : Io) (x : SocketId) :
    (io.getSocket x).isSome = true ↔ ∃ s ∈ io.sockets, s.id = x := by
  unfold Io.getSocket
  rw [List.find?_isSome]
  simp

theorem getSocket_eq_of_mem {io : Io} (hnd : (io.sockets.map (fun s => s.id)).Nodup)
    {s : Socket} (hs : s ∈ io.sockets) : io.getSocket s.id = some s := by
  cases h : io.getSocket s.id with
  | none =>
    have := (getSocket_isSome_iff io s.id).2 ⟨s, hs, rfl⟩
    rw [h] at this; exact Bool.noConfusion this
  | some s' =>
    have h1 := getSocket_some_mem h
    have h2 := getSocket_some_id h
    rw [List.inj_on_of_nodup_map hnd h1 hs h2]

theorem inv_init : Inv Io.init :=
  ⟨List.nodup_nil, by intro p hp; simp [Io.init] at hp, by intro s hs; simp [Io.init] at hs,
    by intro s hs; simp [Io.init] at hs, by intro s hs; simp [Io.init] at hs,
    by intro s hs; simp [Io.init] at hs⟩

theorem inv_connect {io : Io} (h : Inv io) {sid : SocketId} (hnew : io.getSocket sid = none) :
    Inv (io.connect sid) := by
  have hfresh : ∀ s ∈ io.sockets, s.id ≠ sid := by
    intro s hs hid
    have := (getSocket_isSome_iff io sid).2 ⟨s, hs, hid⟩
    rw [hnew] at this; exact Bool.noConfusion this
  refine ⟨?_, ?_, ?_, ?_, ?_, ?_⟩
  · simp only [Io.connect, List.map_append, List.map_cons, List.map_nil]
    rw [List.nodup_append]
    refine ⟨h.nodup, List.nodup_singleton _, ?_⟩
    intro a ha hb
    obtain ⟨s, hs, rfl⟩ := List.mem_map.1 ha
    simp only [List.mem_singleton] at hb
    exact hfresh s hs hb
  · intro p hp
    rw [getSocket_isSome_iff]
    simp only [Io.connect, List.mem_append, List.mem_singleton] at hp ⊢
    rcases hp with hp | hp
    · obtain ⟨s, hs, hid⟩ := (getSocket_isSome_iff io p.2).1 (h.connected p hp)
      exact ⟨s, Or.inl hs, hid⟩
    · exact ⟨_, Or.inr rfl, by rw [hp]⟩
  · intro s hs E hE
    simp only [Io.connect, List.mem_append, List.mem_singleton] at hs
    rcases hs with hs | hs
    · exact List.mem_append_left _ (h.metaRoom s hs E hE)
    · rw [hs] at hE; exact Option.noConfusion hE
  · intro s hs
    simp only [Io.connect, List.mem_append, List.mem_singleton] at hs
    rcases hs with hs | hs
    · exact h.shape s hs
    · rw [hs]; exact ⟨rfl, rfl⟩
  · intro s hs
    unfold Io.isMember
    simp only [Io.connect, List.mem_append, List.mem_singleton] at hs ⊢
    rcases hs with hs | hs
    · exact Or.inl (h.ownRoom s hs)
    · rw [hs]; exact Or.inr rfl
  · intro s hs hnone E hE
    unfold Io.isMember at hE
    simp only [Io.connect, List.mem_append, List.mem_singleton] at hs hE
    rcases hE with hE | hE
    · rcases hs with hs | hs
      · exact h.unjoined s hs hnone E hE
      · exfalso
        have := h.connected (E, s.id) hE
        rw [hs] at this
        simp only at this
        rw [hnew] at this
        exact Bool.noConfusion this
    · injection hE with h1 h2
      rw [h1, h2]

theorem inv_write_join {io : Io} (h : Inv io) {sid : SocketId}
    (hopen : (io.getSocket sid).isSome = true) (m : Metadata) (E : String)
    (hm : m.examId = some E) (hwf : m.wellFormed) :
    Inv ((io.setMetadata sid m).join sid E) := by
  refine ⟨?_, ?_, ?_, ?_, ?_, ?_⟩
  · rw [join_sockets]
    simp only [Io.setMetadata, List.map_map]
    have : ((fun s : Socket => s.id) ∘ fun s : Socket =>
        if s.id = sid then { s with socketMetadata := m } else s) = fun s => s.id := by
      funext s; simp only [Function.comp]; split <;> rfl
    rw [this]; exact h.nodup
  · intro p hp
    rw [getSocket_join, getSocket_setMetadata]
    rw [mem_join_rooms, setMetadata_rooms] at hp
    have hp2 : (io.getSocket p.2).isSome = true := by
      rcases hp with hp | hp
      · exact h.connected p hp
      · rw [hp]; exact hopen
    split
    · rw [Option.isSome_map']; exact hp2
    · exact hp2
  · intro s hs E' hE'
    rw [join_sockets] at hs
    unfold Io.isMember
    rw [mem_join_rooms, setMetadata_rooms]
    simp only [Io.setMetadata, List.mem_map] at hs
    obtain ⟨s0, hs0, rfl⟩ := hs
    by_cases hid : s0.id = sid
    · rw [if_pos hid] at hE' ⊢
      simp only at hE' ⊢
      rw [hm] at hE'
      injection hE' with hE'
      exact Or.inr (by rw [hE', hid])
    · rw [if_neg hid] at hE' ⊢
      exact Or.inl (h.metaRoom s0 hs0 E' hE')
  · intro s hs
    rw [join_sockets] at hs
    simp only [Io.setMetadata, List.mem_map] at hs
    obtain ⟨s0, hs0, rfl⟩ := hs
    by_cases hid : s0.id = sid
    · rw [if_pos hid]; exact hwf
    · rw [if_neg hid]; exact h.shape s0 hs0
  · intro s hs
    rw [join_sockets] at hs
    unfold Io.isMember
    rw [mem_join_rooms, setMetadata_rooms]
    simp only [Io.setMetadata, List.mem_map] at hs
    obtain ⟨s0, hs0, rfl⟩ := hs
    have hid : (if s0.id = sid then { s0 with socketMetadata := m } else s0).id = s0.id := by
      split <;> rfl
    rw [hid]
    exact Or.inl (h.ownRoom s0 hs0)
  · intro s hs hnone E' hE'
    rw [join_sockets] at hs
    unfold Io.isMember at hE'
    rw [mem_join_rooms, setMetadata_rooms] at hE'
    simp only [Io.setMetadata, List.mem_map] at hs
    obtain ⟨s0, hs0, rfl⟩ := hs
    by_cases hid : s0.id = sid
    · rw [if_pos hid] at hnone
      simp only at hnone
      rw [hm] at hnone
      exact Option.noConfusion hnone
    · rw [if_neg hid] at hnone hE' ⊢
      rcases hE' with hE' | hE'
      · exact h.unjoined s0 hs0 hnone E' hE'
      · injection hE' with _ h2
        exact absurd h2 hid

theorem inv_teardown {io : Io} (h : Inv io) (sid : SocketId) : Inv (io.teardown sid) := by
  refine ⟨?_, ?_, ?_, ?_, ?_, ?_⟩
  · exact List.Nodup.sublist (List.Sublist.map _ (List.filter_sublist _)) h.nodup
  · intro p hp
    simp only [Io.teardown, List.mem_filter, decide_eq_true_eq] at hp
    rw [getSocket_isSome_iff]
    obtain ⟨s, hs, hid⟩ := (getSocket_isSome_iff io p.2).1 (h.connected p hp.1)
    refine ⟨s, ?_, hid⟩
    simp only [Io.teardown, List.mem_filter, decide_eq_true_eq]
    exact ⟨hs, by rw [hid]; exact hp.2⟩
  · intro s hs E hE
    simp only [Io.teardown, List.mem_filter, decide_eq_true_eq] at hs
    unfold Io.isMember
    simp only [Io.teardown, List.mem_filter, decide_eq_true_eq]
    exact ⟨h.metaRoom s hs.1 E hE, hs.2⟩
  · intro s hs
    simp only [Io.teardown, List.mem_filter, decide_eq_true_eq] at hs
    exact h.shape s hs.1
  · intro s hs
    simp only [Io.teardown, List.mem_filter, decide_eq_true_eq] at hs
    unfold Io.isMember
    simp only [Io.teardown, List.mem_filter, decide_eq_true_eq]
    exact ⟨h.ownRoom s hs.1, hs.2⟩
  · intro s hs hnone E hE
    simp only [Io.teardown, List.mem_filter, decide_eq_true_eq] at hs
    unfold Io.isMember at hE
    simp only [Io.teardown, List.mem_filter, decide_eq_true_eq] at hE
    exact h.unjoined s hs.1 hnone E hE.1

theorem inv_step {io io' : Io} (h : Inv io) {i : Input} {emits : List Emit}
    (hs : step io i = .ok (io', emits)) : Inv io' := by
  cases i with
  | connection sid =>
    simp only [step] at hs
    split at hs
    · injection hs with hs; injection hs with h1 _; rw [← h1]; exact h
    · rename_i hn
      injection hs with hs; injection hs with h1 _; rw [← h1]
      apply inv_connect h
      cases hg : io.getSocket sid with
      | none => rfl
      | some s => rw [hg] at hn; exact absurd rfl hn
  | event sid ev clock =>
    simp only [step] at hs
    split at hs
    · rename_i hopen
      rcases handle_state hs with h1 | ⟨m, E, hm, hwf, h1⟩ | ⟨_, h1⟩
      · rw [h1]; exact h
      · rw [h1]; exact inv_write_join h hopen m E hm hwf
      · rw [h1]; exact inv_teardown h sid
    · injection hs with hs; injection hs with h1 _; rw [← h1]; exact h

theorem run_cons_ok {io io' : Io} {i : Input} {rest : List Input} {emits : List Emit}
    (h : run io (i :: rest) = .ok (io', emits)) :
    ∃ io1 e1 e2, step io i = .ok (io1, e1) ∧ run io1 rest = .ok (io', e2) ∧ emits = e1 ++ e2 := by
  simp only [run, bind, Except.bind, pure, Except.pure] at h
  split at h
  · exact Except.noConfusion h
  · rename_i v hv
    split at h
    · exact Except.noConfusion h
    · rename_i w hw
      injection h with h; injection h with h1 h2
      exact ⟨v.1, v.2, w.2, hv, by rw [hw, ← h1], h2.symm⟩

theorem inv_run {io io' : Io} (h : Inv io) {inputs : List Input} {emits : List Emit}
    (hr : run io inputs = .ok (io', emits)) : Inv io' := by
  induction inputs generalizing io emits with
  | nil =>
    simp only [run] at hr
    injection hr with hr; injection hr with h1 _; rw [← h1]; exact h
  | cons i rest ih =>
    obtain ⟨io1, e1, e2, hs, hrest, _⟩ := run_cons_ok hr
    exact ih (inv_step h hs) hrest

theorem inv_of_reachable {io : Io} (h : Reachable io) : Inv io := by
  obtain ⟨inputs, emits, hr⟩ := h
  exact inv_run inv_init hr

/-! ### `getRoomMembers` -/

theorem classifyMember_total (io : Io) (acc : RoomMembers) (x : SocketId) :
    (classifyMember io acc x).total = acc.total := by
  unfold classifyMember
  split
  · rfl
  · split
    · rfl
    · split <;> rfl

theorem mem_foldl_proctors (io : Io) (l : List SocketId) (acc : RoomMembers) (p : ProctorEntry) :
    p ∈ (l.foldl (classifyMember io) acc).proctors ↔
      p ∈ acc.proctors ∨ ∃ x ∈ l, ∃ s, io.getSocket x = some s ∧
        s.socketMetadata.type = some .proctor ∧ p = ⟨x, s.socketMetadata.examId⟩ := by
  induction l generalizing acc with
  | nil => simp
  | cons a l ih =>
    rw [List.foldl_cons, ih]
    unfold classifyMember
    cases hg : io.getSocket a with
    | none =>
      simp only [List.mem_cons, exists_eq_or_imp, hg]
      simp
    | some s =>
      simp only [List.mem_cons, exists_eq_or_imp, hg]
      by_cases hp : s.socketMetadata.type = some .proctor
      · simp only [hp, if_true, List.mem_append, List.mem_singleton]
        simp only [Option.some.injEq, exists_eq_left']
        constructor
        · rintro ((h | h) | h)
          · exact Or.inl h
          · exact Or.inr (Or.inl ⟨hp, h⟩)
          · exact Or.inr (Or.inr h)
        · rintro (h | ⟨_, h⟩ | h)
          · exact Or.inl (Or.inl h)
          · exact Or.inl (Or.inr h)
          · exact Or.inr h
      · simp only [hp, if_false]
        simp only [Option.some.injEq, exists_eq_left']
        have : ∀ q : RoomMembers, (if s.socketMetadata.type = some Role.student then
            { q with students := q.students ++
              [⟨a, s.socketMetadata.userId, s.socketMetadata.examId⟩] } else q).proctors
            = q.proctors := by intro q; split <;> rfl
        rw [this]
        constructor
        · rintro (h | h)
          · exact Or.inl h
          · exact Or.inr (Or.inr h)
        · rintro (h | ⟨h, _⟩ | h)
          · exact Or.inl h
          · exact absurd h hp
          · exact Or.inr h

theorem mem_foldl_students (io : Io) (l : List SocketId) (acc : RoomMembers) (q : StudentEntry) :
    q ∈ (l.foldl (classifyMember io) acc).students ↔
      q ∈ acc.students ∨ ∃ x ∈ l, ∃ s, io.getSocket x = some s ∧
        s.socketMetadata.type = some .student ∧
        q = ⟨x, s.socketMetadata.userId, s.socketMetadata.examId⟩ := by
  induction l generalizing acc with
  | nil => simp
  | cons a l ih =>
    rw [List.foldl_cons, ih]
    unfold classifyMember
    cases hg : io.getSocket a with
    | none =>
      simp only [List.mem_cons, exists_eq_or_imp, hg]
      simp
    | some s =>
      simp only [List.mem_cons, exists_eq_or_imp, hg]
      simp only [Option.some.injEq, exists_eq_left']
      by_cases hp : s.socketMetadata.type = some .proctor
      · have hns : ¬ s.socketMetadata.type = some .student := by rw [hp]; decide
        simp only [hp, if_true]
        constructor
        · rintro (h | h)
          · exact Or.inl h
          · exact Or.inr (Or.inr h)
        · rintro (h | ⟨h, _⟩ | h)
          · exact Or.inl h
          · exact absurd h (by decide)
          · exact Or.inr h
      · simp only [hp, if_false]
        by_cases hs : s.socketMetadata.type = some .student
        · simp only [hs, if_true, List.mem_append, List.mem_singleton]
          constructor
          · rintro ((h | h) | h)
            · exact Or.inl h
            · exact Or.inr (Or.inl ⟨trivial, h⟩)
            · exact Or.inr (Or.inr h)
          · rintro (h | ⟨_, h⟩ | h)
            · exact Or.inl (Or.inl h)
            · exact Or.inl (Or.inr h)
            · exact Or.inr h
        · simp only [hs, if_false]
          constructor
          · rintro (h | h)
            · exact Or.inl h
            · exact Or.inr (Or.inr h)
          · rintro (h | ⟨h, _⟩ | h)
            · exact Or.inl h
            · exact h.elim
            · exact Or.inr h

/-- The proctor entries of `getRoomMembers(io, E)` are the open members of room `E` whose
metadata type is `proctor`, each with its stored exam id. -/
theorem mem_getRoomMembers_proctors (io : Io) (E : RoomId) (p : ProctorEntry) :
    p ∈ (getRoomMembers io E).proctors ↔
      io.isMember p.socketId E ∧ ∃ s, io.getSocket p.socketId = some s ∧
        s.socketMetadata.type = some .proctor ∧ p.examId = s.socketMetadata.examId := by
  unfold getRoomMembers
  cases hr : io.getRoom E with
  | none =>
    simp only [List.not_mem_nil, false_iff, not_and]
    intro hm
    have := (mem_members_iff io E p.socketId).2 hm
    unfold Io.members at this; rw [hr] at this; simp at this
  | some l =>
    simp only
    rw [mem_foldl_proctors]
    simp only [List.not_mem_nil, false_or]
    constructor
    · rintro ⟨x, hx, s, hg, ht, rfl⟩
      exact ⟨(getRoom_some_mem hr x).1 hx, s, hg, ht, rfl⟩
    · rintro ⟨hm, s, hg, ht, he⟩
      refine ⟨p.socketId, (getRoom_some_mem hr _).2 hm, s, hg, ht, ?_⟩
      cases p; simp only at he ⊢; rw [he]

theorem mem_getRoomMembers_students (io : Io) (E : RoomId) (q : StudentEntry) :
    q ∈ (getRoomMembers io E).students ↔
      io.isMember q.socketId E ∧ ∃ s, io.getSocket q.socketId = some s ∧
        s.socketMetadata.type = some .student ∧ q.studentId = s.socketMetadata.userId ∧
        q.examId = s.socketMetadata.examId := by
  unfold getRoomMembers
  cases hr : io.getRoom E with
  | none =>
    simp only [List.not_mem_nil, false_iff, not_and]
    intro hm
    have := (mem_members_iff io E q.socketId).2 hm
    unfold Io.members at this; rw [hr] at this; simp at this
  | some l =>
    simp only
    rw [mem_foldl_students]
    simp only [List.not_mem_nil, false_or]
    constructor
    · rintro ⟨x, hx, s, hg, ht, rfl⟩
      exact ⟨(getRoom_some_mem hr x).1 hx, s, hg, ht, rfl, rfl⟩
    · rintro ⟨hm, s, hg, ht, hu, he⟩
      refine ⟨q.socketId, (getRoom_some_mem hr _).2 hm, s, hg, ht, ?_⟩
      cases q; simp only at hu he ⊢; rw [hu, he]

theorem step_join_rooms {io io1 : Io} {sid : SocketId} {ev : Event} {clock : Nat → String}
    {e : List Emit} (hs : step io (.event sid ev clock) = .ok (io1, e))
    (hk : ev.isJoinOrHeartbeat = true) :
    (∀ p ∈ io.rooms, p ∈ io1.rooms) ∧ (∀ p ∈ io1.rooms, p ∈ io.rooms ∨ p.2 = sid) := by
  simp only [step] at hs
  split at hs
  · rcases handle_state hs with h1 | ⟨m, E, _, _, h1⟩ | ⟨⟨reason, hr⟩, _⟩
    · rw [h1]; exact ⟨fun p hp => hp, fun p hp => Or.inl hp⟩
    · rw [h1]
      constructor
      · intro p hp
        rw [mem_join_rooms, setMetadata_rooms]; exact Or.inl hp
      · intro p hp
        rw [mem_join_rooms, setMetadata_rooms] at hp
        rcases hp with hp | hp
        · exact Or.inl hp
        · exact Or.inr (by rw [hp])
    · rw [hr] at hk; exact Bool.noConfusion hk
  · injection hs with hs; injection hs with h1 _
    rw [← h1]; exact ⟨fun p hp => hp, fun p hp => Or.inl hp⟩

theorem run_onConnection_rooms {io io' : Io} {sid : SocketId}
    {events : List (Event × (Nat → String))} {emits : List Emit}
    (hk : ∀ p ∈ events, p.1.isJoinOrHeartbeat = true)
    (hr : run io (onConnection sid events) = .ok (io', emits)) :
    (∀ p ∈ io.rooms, p ∈ io'.rooms) ∧ (∀ p ∈ io'.rooms, p ∈ io.rooms ∨ p.2 = sid) := by
  induction events generalizing io emits with
  | nil =>
    simp only [onConnection, List.map_nil, run] at hr
    injection hr with hr; injection hr with h1 _
    rw [← h1]; exact ⟨fun p hp => hp, fun p hp => Or.inl hp⟩
  | cons a rest ih =>
    simp only [onConnection, List.map_cons] at hr
    obtain ⟨io1, e1, e2, hs, hrest, _⟩ := run_cons_ok hr
    obtain ⟨a1, a2⟩ := step_join_rooms hs (hk a (List.mem_cons_self _ _))
    obtain ⟨b1, b2⟩ := ih (fun p hp => hk p (List.mem_cons_of_mem _ hp)) hrest
    constructor
    · intro p hp; exact b1 p (a1 p hp)
    · intro p hp
      rcases b2 p hp with h | h
      · exact a2 p h
      · exact Or.inr h

theorem metadataOf_member {io : Io} (h : Inv io) {sid : SocketId} {m : Metadata} {E : String}
    (hm : io.metadataOf sid = some m) (hE : m.examId = some E) : io.isMember sid E := by
  unfold Io.metadataOf at hm
  cases hg : io.getSocket sid with
  | none => rw [hg] at hm; exact Option.noConfusion hm
  | some s =>
    rw [hg] at hm
    simp only [Option.map_some', Option.some.injEq] at hm
    have := h.metaRoom s (getSocket_some_mem hg) E (by rw [hm]; exact hE)
    rw [getSocket_some_id hg] at this
    exact this

/-- Claim C6, counterexample. A proctor connection that joins exam `A` and then exam `B` is a member
of both rooms: the second join does not remove it from the first room. -/
theorem rejoin_member_of_two_rooms :
    stateAfter Io.init rejoinInputs = some twoRooms ∧
    twoRooms.isMember "s1" "A" ∧ twoRooms.isMember "s1" "B" ∧ ("A" : String) ≠ "B" := by
  decide

/-- Claim C6, amended. For every sequence of `proctor-join`, `student-join`, `student-heartbeat` and
`proctor-heartbeat` events handled without an exception on one connection of a reachable state,
every room membership that held before still holds afterwards (no listener leaves a room), every
membership added is one of this connection, and the exam id in the connection's stored metadata
names a room it is a member of. -/
theorem joins_add_rooms_never_remove (io : Io) (hreach : Reachable io) (sid : SocketId)
    (events : List (Event × (Nat → String)))
    (hkind : ∀ p ∈ events, p.1.isJoinOrHeartbeat = true)
    (io' : Io) (emits : List Emit)
    (hrun : run io (onConnection sid events) = .ok (io', emits)) :
    (∀ x r, io.isMember x r → io'.isMember x r) ∧
    (∀ x r, io'.isMember x r → io.isMember x r ∨ x = sid) ∧
    (∀ m E, io'.metadataOf sid = some m → m.examId = some E → io'.isMember sid E) := by
  obtain ⟨h1, h2⟩ := run_onConnection_rooms hkind hrun
  refine ⟨fun x r hx => h1 _ hx, fun x r hx => h2 _ hx, ?_⟩
  intro m E hm hE
  exact metadataOf_member (inv_run (inv_of_reachable hreach) hrun) hm hE

/-- Claim C7, counterexample. A proctor connection in room `A` that sends a valid `proctor-heartbeat`
naming exam `B` is a member of room `B` afterwards and is still a member of room `A`. -/
theorem heartbeat_keeps_old_room :
    stateAfter Io.init migrateInputs = some twoRooms ∧
    twoRooms.isMember "s1" "B" ∧ twoRooms.isMember "s1" "A" ∧ ("A" : String) ≠ "B" := by
  decide

/-- Claim C7, amended. In a reachable state, if a connection that is a member of room `A` sends a
valid `proctor-heartbeat` naming the exam id `B` (the exam id converts to the string `B`), then
the listener returns, and after it the connection is a member of room `B`, it is still a member
of room `A`, and its stored metadata has type `proctor` and exam id `B`. -/
theorem proctor_heartbeat_joins_new_room (clock : Nat → String) (io : Io)
    (hreach : Reachable io) (sid : SocketId)
    (A : RoomId) (hA : io.isMember sid A) (data : JsVal) (B : String)
    (hvalid : (proctorExamId data).truthy = true)
    (hB : (proctorExamId data).toJsString = .ok B) :
    ∃ io' emits, onProctorHeartbeat clock io sid data = .ok (io', emits) ∧
      io'.isMember sid B ∧
      io'.isMember sid A ∧
      (io'.metadataOf sid).map (fun m => (m.type, m.examId)) = some (some .proctor, some B) := by
  have hinv := inv_of_reachable hreach
  have hopen : (io.getSocket sid).isSome = true := hinv.connected (A, sid) hA
  obtain ⟨io', hio, hrun⟩ := onProctorHeartbeat_valid clock io sid data B hvalid hB
  refine ⟨io', _, hrun, ?_⟩
  rcases hio with h | ⟨h, m, hm, ht, he⟩
  · rw [h]
    refine ⟨?_, ?_, ?_⟩
    · unfold Io.isMember; rw [mem_join_rooms]; exact Or.inr rfl
    · unfold Io.isMember; rw [mem_join_rooms, setMetadata_rooms]; exact Or.inl hA
    · rw [metadataOf_join, metadataOf_setMetadata_self _ _ _ hopen]; rfl
  · rw [h]
    refine ⟨metadataOf_member hinv hm he, hA, ?_⟩
    rw [hm]
    simp only [Option.map_some', ht, he]

/-- A student who joined exam `A` and heartbeats with the same student id into exam `B` is left
as it was: the listener compares type and user id only, so neither the metadata nor the room
membership follows the exam id of the heartbeat. -/
theorem student_heartbeat_same_id_keeps_exam :
    onStudentHeartbeat tickClock
        ⟨[⟨"s1", ⟨some .student, some "A", some "u1"⟩⟩], [("s1", "s1"), ("A", "s1")]⟩ "s1"
        (.record [("examId", .str "B"), ("studentId", .str "u1")])
      = .ok (⟨[⟨"s1", ⟨some .student, some "A", some "u1"⟩⟩], [("s1", "s1"), ("A", "s1")]⟩,
          [⟨.roomExcept "B" "s1", "student-online",
            [("studentId", .str "u1"), ("socketId", .str "s1"), ("timestamp", .str "t0")], []⟩]) := by
  rfl

/-- Claim C8, counterexample. After a proctor joined exam `A` and then exam `B`,
`getRoomMembers(io, "A")` lists it with the stored exam id `B`, and `getRoomMembers(io, "B")`
lists it as well. -/
theorem listed_under_earlier_exam :
    stateAfter Io.init rejoinInputs = some twoRooms ∧
    (getRoomMembers twoRooms "A").proctors = [⟨"s1", some "B"⟩] ∧
    (getRoomMembers twoRooms "B").proctors = [⟨"s1", some "B"⟩] ∧
    (some "B" : Option String) ≠ some "A" := by
  decide

theorem wellFormed_examId {m : Metadata} (h : m.wellFormed) (ht : m.type.isSome = true) :
    ∃ E, m.examId = some E := by
  unfold Metadata.wellFormed at h
  cases hty : m.type with
  | none => rw [hty] at ht; exact Bool.noConfusion ht
  | some r =>
    rw [hty] at h
    cases r with
    | proctor => exact Option.isSome_iff_exists.1 h.1
    | student => exact Option.isSome_iff_exists.1 h.1

/-- Claim C8, amended. In every reachable state and for every exam id `E`, every proctor or student
entry of `getRoomMembers(io, E)` is a member of room `E`, carries the type and the exam id of
that connection's stored metadata, and that exam id is not null and names a room the
connection is a member of too (it need not be `E`). -/
theorem getRoomMembers_entries (io : Io) (hreach : Reachable io) (E : RoomId) :
    (∀ p ∈ (getRoomMembers io E).proctors,
      io.isMember p.socketId E ∧
      (io.metadataOf p.socketId).map (fun m => (m.type, m.examId)) = some (some .proctor, p.examId) ∧
      ∃ E', p.examId = some E' ∧ io.isMember p.socketId E') ∧
    (∀ q ∈ (getRoomMembers io E).students,
      io.isMember q.socketId E ∧
      (io.metadataOf q.socketId).map (fun m => (m.type, m.examId)) = some (some .student, q.examId) ∧
      ∃ E', q.examId = some E' ∧ io.isMember q.socketId E') := by
  have hinv := inv_of_reachable hreach
  constructor
  · intro p hp
    obtain ⟨hm, s, hg, ht, he⟩ := (mem_getRoomMembers_proctors io E p).1 hp
    have hmeta : io.metadataOf p.socketId = some s.socketMetadata := by
      unfold Io.metadataOf; rw [hg]; rfl
    obtain ⟨E', hE'⟩ := wellFormed_examId (hinv.shape s (getSocket_some_mem hg))
      (by rw [ht]; rfl)
    refine ⟨hm, by rw [hmeta, he, ← ht]; rfl, E', by rw [he]; exact hE', ?_⟩
    exact metadataOf_member hinv hmeta hE'
  · intro q hq
    obtain ⟨hm, s, hg, ht, _, he⟩ := (mem_getRoomMembers_students io E q).1 hq
    have hmeta : io.metadataOf q.socketId = some s.socketMetadata := by
      unfold Io.metadataOf; rw [hg]; rfl
    obtain ⟨E', hE'⟩ := wellFormed_examId (hinv.shape s (getSocket_some_mem hg))
      (by rw [ht]; rfl)
    refine ⟨hm, by rw [hmeta, he, ← ht]; rfl, E', by rw [he]; exact hE', ?_⟩
    exact metadataOf_member hinv hmeta hE'

/-- What `socket.to(E)` of the socket `sid` reaches: the members of room `E` that are not
members of the room named `sid`. -/
theorem mem_recipients_roomExcept_iff (io : Io) (x sid : SocketId) (E : RoomId) :
    x ∈ io.recipients (.roomExcept E sid) ↔ io.isMember x E ∧ ¬ io.isMember x sid := by
  unfold Io.recipients
  simp only [List.mem_filter, decide_eq_true_eq, mem_members_iff]

theorem mem_recipients_room {io : Io} {sid : SocketId} {E : RoomId}
    (hm : io.isMember sid E) : sid ∈ io.recipients (.room E) := by
  unfold Io.recipients
  exact (mem_members_iff io E sid).2 hm

/-- In a state the server can be in, an open connection is a member of the room named by
its own id, so its own `socket.to` never reaches it. -/
theorem sender_not_reached {io : Io} (hinv : Inv io) {sid : SocketId}
    (hopen : (io.getSocket sid).isSome = true) (E : RoomId) :
    sid ∉ io.recipients (.roomExcept E sid) := by
  intro h
  obtain ⟨s, hs, hid⟩ := (getSocket_isSome_iff io sid).1 hopen
  have := hinv.ownRoom s hs
  rw [hid] at this
  exact ((mem_recipients_roomExcept_iff io sid sid E).1 h).2 this

/-- Claim C9, counterexample. The connection `s2`, which never joined, sends a `student-heartbeat`
whose exam id is `s1`, the socket id of another open connection: its metadata becomes
(student, `s1`, `u2`) and it is a member of room `s1`. The next broadcast to that room by the
other connection, the `verify-id` of a `request-id-verification` of `s1`, is delivered to
nobody: `socket.to` leaves out the members of the room named by the id of the sender. -/
theorem heartbeat_into_socket_room_not_reached :
    twoOpen.metadataOf "s2" = some ⟨none, none, none⟩ ∧
    onStudentHeartbeat tickClock twoOpen "s2"
        (.record [("examId", .str "s1"), ("studentId", .str "u2")])
      = .ok (⟨[⟨"s1", ⟨none, none, none⟩⟩, ⟨"s2", ⟨some .student, some "s1", some "u2"⟩⟩],
              [("s1", "s1"), ("s2", "s2"), ("s1", "s2")]⟩,
          [⟨.roomExcept "s1" "s2", "student-online",
            [("studentId", .str "u2"), ("socketId", .str "s2"),
             ("timestamp", .str (tickClock 0))], ["s1"]⟩]) ∧
    onRequestIdVerification tickClock
        ⟨[⟨"s1", ⟨none, none, none⟩⟩, ⟨"s2", ⟨some .student, some "s1", some "u2"⟩⟩],
         [("s1", "s1"), ("s2", "s2"), ("s1", "s2")]⟩ "s1"
        (.record [("studentId", .str "u2"), ("examId", .str "s1")])
      = .ok (⟨[⟨"s1", ⟨none, none, none⟩⟩, ⟨"s2", ⟨some .student, some "s1", some "u2"⟩⟩],
              [("s1", "s1"), ("s2", "s2"), ("s1", "s2")]⟩,
          [⟨.roomExcept "s1" "s1", "verify-id",
            [("studentId", .str "u2"), ("requestedBy", .str "s1"),
             ("timestamp", .str (tickClock 0))], []⟩,
           ⟨.sender "s1", "verification-request-sent",
            [("studentId", .str "u2"), ("examId", .str "s1"),
             ("timestamp", .str (tickClock 0)), ("success", .bool true)], ["s1"]⟩]) :=
  ⟨rfl, rfl, rfl⟩

/-- Claim C9, amended. In a reachable state, for an open connection whose metadata is still three
nulls, `student-heartbeat` with a truthy `examId` E and a truthy `studentId` S that convert to
the strings `e` and `s` returns, setting the metadata to (student, `e`, `s`) and making the
connection a member of room `e`. Right after it, an emission to room `e` through `socket.to` of
another connection is delivered to it exactly when `e` is not the socket id of that connection.
From then on, in every state that keeps these memberships, such an emission is delivered to it
exactly when it is not a member of the room named by the socket id of the sender, and an
emission through `io.to` always. -/
theorem first_heartbeat_joins_room (clock : Nat → String) (io : Io) (hreach : Reachable io)
    (sid : SocketId) (hfresh : io.metadataOf sid = some ⟨none, none, none⟩)
    (data : JsVal) (E S : JsAtom) (e s : String)
    (hE : data.getField "examId" = .ok E) (hS : data.getField "studentId" = .ok S)
    (hEt : E.truthy = true) (hSt : S.truthy = true)
    (he : E.toJsString = .ok e) (hs : S.toJsString = .ok s) :
    ∃ io' emits, onStudentHeartbeat clock io sid data = .ok (io', emits) ∧
      io'.metadataOf sid = some ⟨some .student, some e, some s⟩ ∧
      io'.isMember sid e ∧
      (∀ (other : SocketId) (event : String) (payload : List (String × JsAtom)), other ≠ sid →
        (sid ∈ (io'.emit (.roomExcept e other) event payload).recipients ↔ other ≠ e) ∧
        sid ∈ (io'.emit (.room e) event payload).recipients) ∧
      ∀ io'' : Io, (∀ x r, io'.isMember x r → io''.isMember x r) →
        ∀ (other : SocketId) (event : String) (payload : List (String × JsAtom)),
          (sid ∈ (io''.emit (.roomExcept e other) event payload).recipients
            ↔ ¬ io''.isMember sid other) ∧
          sid ∈ (io''.emit (.room e) event payload).recipients := by
  have hinv := inv_of_reachable hreach
  obtain ⟨s0, hg, hmeta⟩ : ∃ s0, io.getSocket sid = some s0 ∧
      s0.socketMetadata = ⟨none, none, none⟩ := by
    unfold Io.metadataOf at hfresh
    cases hg : io.getSocket sid with
    | none => rw [hg] at hfresh; exact Option.noConfusion hfresh
    | some s0 =>
      rw [hg] at hfresh
      simp only [Option.map_some', Option.some.injEq] at hfresh
      exact ⟨s0, rfl, hfresh⟩
  have hopen : (io.getSocket sid).isSome = true := by rw [hg]; rfl
  have honly : ∀ r, io.isMember sid r → r = sid := by
    intro r hr
    have := hinv.unjoined s0 (getSocket_some_mem hg) (by rw [hmeta]) r
      (by rw [getSocket_some_id hg]; exact hr)
    rw [getSocket_some_id hg] at this
    exact this
  obtain ⟨io', hio, hrun⟩ := onStudentHeartbeat_valid clock io sid data E S e s hE hS hEt hSt he hs
  have hio' : io' = (io.setMetadata sid ⟨some .student, some e, some s⟩).join sid e := by
    rcases hio with h | ⟨_, m, hm, ht, _⟩
    · exact h
    · rw [hfresh] at hm
      injection hm with hm
      rw [← hm] at ht
      exact Option.noConfusion ht
  have hmem : io'.isMember sid e := by
    rw [hio']; unfold Io.isMember; rw [mem_join_rooms]; exact Or.inr rfl
  refine ⟨io', _, hrun, ?_, hmem, ?_, ?_⟩
  · rw [hio', metadataOf_join, metadataOf_setMetadata_self _ _ _ hopen]
  · intro other event payload hne
    refine ⟨?_, mem_recipients_room hmem⟩
    show sid ∈ io'.recipients (.roomExcept e other) ↔ other ≠ e
    rw [mem_recipients_roomExcept_iff]
    constructor
    · rintro ⟨_, hnot⟩ hoe
      apply hnot
      rw [hoe]; exact hmem
    · intro hoe
      refine ⟨hmem, ?_⟩
      intro hin
      rw [hio'] at hin
      unfold Io.isMember at hin
      rw [mem_join_rooms, setMetadata_rooms] at hin
      rcases hin with hin | hin
      · exact hne (honly other hin)
      · injection hin with h1 _
        exact hoe h1
  · intro io'' hsup other event payload
    refine ⟨?_, mem_recipients_room (hsup _ _ hmem)⟩
    show sid ∈ io''.recipients (.roomExcept e other) ↔ ¬ io''.isMember sid other
    rw [mem_recipients_roomExcept_iff]
    exact ⟨fun h => h.2, fun h => ⟨hsup _ _ hmem, h⟩⟩

theorem getSocket_none_iff (io : Io) (x : SocketId) :
    io.getSocket x = none ↔ ∀ s ∈ io.sockets, s.id ≠ x := by
  unfold Io.getSocket
  rw [List.find?_eq_none]
  simp

theorem closed_teardown (io : Io) (sid : SocketId) : (io.teardown sid).closed sid := by
  constructor
  · rw [getSocket_none_iff]
    intro s hs
    simp only [Io.teardown, List.mem_filter, decide_eq_true_eq] at hs
    exact hs.2
  · intro p hp
    simp only [Io.teardown, List.mem_filter, decide_eq_true_eq] at hp
    exact hp.2

theorem closed_step {io io1 : Io} {sid : SocketId} (h : io.closed sid) {i : Input}
    (hi : i.sid ≠ sid) {e : List Emit} (hs : step io i = .ok (io1, e)) : io1.closed sid := by
  cases i with
  | connection x =>
    simp only [Input.sid] at hi
    simp only [step] at hs
    split at hs
    · injection hs with hs; injection hs with h1 _; rw [← h1]; exact h
    · injection hs with hs; injection hs with h1 _; rw [← h1]
      constructor
      · rw [getSocket_none_iff]
        intro s hs'
        simp only [Io.connect, List.mem_append, List.mem_singleton] at hs'
        rcases hs' with hs' | hs'
        · exact (getSocket_none_iff io sid).1 h.1 s hs'
        · rw [hs']; exact hi
      · intro p hp
        simp only [Io.connect, List.mem_append, List.mem_singleton] at hp
        rcases hp with hp | hp
        · exact h.2 p hp
        · rw [hp]; exact hi
  | event x ev clock =>
    simp only [Input.sid] at hi
    simp only [step] at hs
    split at hs
    · rcases handle_state hs with h1 | ⟨m, E, _, _, h1⟩ | ⟨_, h1⟩
      · rw [h1]; exact h
      · rw [h1]
        constructor
        · rw [getSocket_join, getSocket_setMetadata, if_neg (Ne.symm hi)]; exact h.1
        · intro p hp
          rw [mem_join_rooms, setMetadata_rooms] at hp
          rcases hp with hp | hp
          · exact h.2 p hp
          · rw [hp]; exact hi
      · rw [h1]
        constructor
        · rw [getSocket_none_iff]
          intro s hs'
          simp only [Io.teardown, List.mem_filter, decide_eq_true_eq] at hs'
          exact (getSocket_none_iff io sid).1 h.1 s hs'.1
        · intro p hp
          simp only [Io.teardown, List.mem_filter, decide_eq_true_eq] at hp
          exact h.2 p hp.1
    · injection hs with hs; injection hs with h1 _; rw [← h1]; exact h

theorem closed_run {io io' : Io} {sid : SocketId} (h : io.closed sid) {inputs : List Input}
    (hi : ∀ i ∈ inputs, i.sid ≠ sid) {e : List Emit} (hr : run io inputs = .ok (io', e)) :
    io'.closed sid := by
  induction inputs generalizing io e with
  | nil =>
    simp only [run] at hr
    injection hr with hr; injection hr with h1 _; rw [← h1]; exact h
  | cons i rest ih =>
    obtain ⟨io1, e1, e2, hs, hrest, _⟩ := run_cons_ok hr
    exact ih (closed_step h (hi i (List.mem_cons_self _ _)) hs)
      (fun j hj => hi j (List.mem_cons_of_mem _ hj)) hrest

/-- Claim C10. Once the disconnect of an open connection has been handled, and after any further inputs
on other connections handled without an exception, the connection is not in
`io.sockets.sockets`, is a member of no room, and `getRoomMembers(io, E)` lists it neither
among the proctors nor among the students, for every `E`. -/
theorem disconnected_never_listed (io : Io) (sid : SocketId)
    (hopen : (io.getSocket sid).isSome = true) (reason : String) (clock : Nat → String)
    (inputs : List Input) (hothers : ∀ i ∈ inputs, i.sid ≠ sid) (io' : Io) (emits : List Emit)
    (hrun : run io (.event sid (.disconnect reason) clock :: inputs) = .ok (io', emits)) :
    io'.getSocket sid = none ∧
    ∀ E, ¬ io'.isMember sid E ∧
      (∀ p ∈ (getRoomMembers io' E).proctors, p.socketId ≠ sid) ∧
      (∀ q ∈ (getRoomMembers io' E).students, q.socketId ≠ sid) := by
  obtain ⟨io1, e1, e2, hs, hrest, _⟩ := run_cons_ok hrun
  have h1 : io1 = io.teardown sid := by
    simp only [step, hopen, if_true, handle] at hs
    cases hg : io.getSocket sid with
    | none => rw [hg] at hopen; exact Bool.noConfusion hopen
    | some s =>
      rw [hg] at hs
      injection hs with hs; injection hs with h1 _; exact h1.symm
  have hc : io'.closed sid := closed_run (h1 ▸ closed_teardown io sid) hothers hrest
  refine ⟨hc.1, fun E => ⟨fun hm => hc.2 _ hm rfl, ?_, ?_⟩⟩
  · intro p hp heq
    obtain ⟨hm, _⟩ := (mem_getRoomMembers_proctors io' E p).1 hp
    rw [heq] at hm
    exact hc.2 _ hm rfl
  · intro q hq heq
    obtain ⟨hm, _⟩ := (mem_getRoomMembers_students io' E q).1 hq
    rw [heq] at hm
    exact hc.2 _ hm rfl

/-! ### Heartbeats -/

/-- No emission of the `student-heartbeat` listener is addressed to the sender. -/
theorem onStudentHeartbeat_no_ack (clock : Nat → String) (io : Io) (sid : SocketId)
    (data : JsVal) (r : Io × List Emit) (h : onStudentHeartbeat clock io sid data = .ok r) :
    ∀ m ∈ r.2, m.dest ≠ .sender sid ∧ m.event = "student-online" := by
  simp only [onStudentHeartbeat, bind, Except.bind, pure, Except.pure] at h
  repeat' split at h
  all_goals first
    | exact Except.noConfusion h
    | (injection h with h; rw [← h]; intro m hm; exact absurd hm (List.not_mem_nil _))
    | (injection h with h; rw [← h]
       intro m hm
       simp only [List.mem_singleton] at hm
       rw [hm]
       exact ⟨by simp [Io.emit], rfl⟩)

/-- A valid `proctor-heartbeat` returns and always ends with `heartbeat-ack` to the sender,
stamped with the reading of the clock taken by the listener. -/
theorem onProctorHeartbeat_ack (clock : Nat → String) (io : Io) (sid : SocketId) (data : JsVal)
    (e : String) (hvalid : (proctorExamId data).truthy = true)
    (he : (proctorExamId data).toJsString = .ok e) :
    ∃ io' emits, onProctorHeartbeat clock io sid data = .ok (io', emits) ∧
      emits.getLast? =
        some ⟨.sender sid, "heartbeat-ack",
          [("received", .bool true), ("timestamp", .str (clock 0))], [sid]⟩ := by
  obtain ⟨io', _, hrun⟩ := onProctorHeartbeat_valid clock io sid data e hvalid he
  refine ⟨io', _, hrun, ?_⟩
  simp [Io.emit, Io.recipients]

/-- Claim C13, evaluation at a failing input. A valid `student-heartbeat` of the open connection
`s2` emits one event only, `student-online` to the rest of the room: nothing is sent back to
`s2`, while `proctor-heartbeat` ends with `heartbeat-ack` (see `onProctorHeartbeat_ack`). -/
theorem student_heartbeat_sends_no_ack :
    onStudentHeartbeat tickClock proctorAndGuest "s2"
        (.record [("examId", .str "A"), ("studentId", .str "u2")])
      = .ok (⟨[⟨"s1", ⟨some .proctor, some "A", none⟩⟩,
               ⟨"s2", ⟨some .student, some "A", some "u2"⟩⟩],
              [("s1", "s1"), ("A", "s1"), ("s2", "s2"), ("A", "s2")]⟩,
          [⟨.roomExcept "A" "s2", "student-online",
            [("studentId", .str "u2"), ("socketId", .str "s2"), ("timestamp", .str "t0")],
            ["s1"]⟩]) := by
  rfl

/-- Claim C14. In a reachable state, handling a valid `proctor-heartbeat` for exam `E` (the exam
id converts to a string) returns: if `getRoomMembers` reports at least one student in room `E`
in the state after the self-healing join, the listener emits `proctor-status-update`
(`connected: true`, `proctorId` the sender) to all members of room `E`, the sender among them,
and then `heartbeat-ack`; if it reports no student, `heartbeat-ack` is the only emission and no
`proctor-status-update` is emitted. -/
theorem proctor_heartbeat_status_update (clock : Nat → String) (io : Io)
    (hreach : Reachable io) (sid : SocketId) (data : JsVal) (e : String)
    (hvalid : (proctorExamId data).truthy = true)
    (he : (proctorExamId data).toJsString = .ok e) :
    ∃ io' emits, onProctorHeartbeat clock io sid data = .ok (io', emits) ∧
      (0 < (getRoomMembers io' e).students.length →
        emits =
          [⟨.room e, "proctor-status-update",
            [("examId", .str e), ("connected", .bool true),
             ("proctorId", .str sid), ("timestamp", .str (clock 0))],
            io'.members e⟩,
           ⟨.sender sid, "heartbeat-ack",
            [("received", .bool true), ("timestamp", .str (clock 0))], [sid]⟩] ∧
        sid ∈ io'.members e) ∧
      ((getRoomMembers io' e).students.length = 0 →
        emits =
          [⟨.sender sid, "heartbeat-ack",
            [("received", .bool true), ("timestamp", .str (clock 0))], [sid]⟩] ∧
        ∀ m ∈ emits, m.event ≠ "proctor-status-update") := by
  have hinv := inv_of_reachable hreach
  obtain ⟨io', hio, hrun⟩ := onProctorHeartbeat_valid clock io sid data e hvalid he
  have hmem : io'.isMember sid e := by
    rcases hio with h | ⟨h, m, hm, _, hx⟩
    · rw [h]; unfold Io.isMember; rw [mem_join_rooms]; exact Or.inr rfl
    · rw [h]; exact metadataOf_member hinv hm hx
  refine ⟨io', _, hrun, ?_, ?_⟩
  · intro hpos
    rw [if_pos hpos]
    exact ⟨rfl, (mem_members_iff _ _ _).2 hmem⟩
  · intro hzero
    have hnot : ¬ (getRoomMembers io' e).students.length > 0 := by omega
    rw [if_neg hnot]
    refine ⟨rfl, ?_⟩
    intro m hm
    simp only [List.nil_append, List.mem_singleton] at hm
    rw [hm]
    simp [Io.emit]

/-- Claim C15, counterexample. The proctor `s1` and the student `s2` are members of room `A`, and
the proctor has also joined the room named `s2`, the socket id of the student. The valid
`student-heartbeat` of `s2` for exam `A` emits `student-online`, which is delivered to nobody,
although `s1` is a member of room `A` other than the sender. -/
theorem heartbeat_misses_crossed_member :
    stateAfter Io.init crossedInputs = some crossed ∧
    crossed.isMember "s1" "A" ∧ crossed.isMember "s1" "s2" ∧
    onStudentHeartbeat tickClock crossed "s2"
        (.record [("examId", .str "A"), ("studentId", .str "u2")])
      = .ok (crossed,
          [⟨.roomExcept "A" "s2", "student-online",
            [("studentId", .str "u2"), ("socketId", .str "s2"),
             ("timestamp", .str (tickClock 0))], []⟩]) :=
  ⟨by decide, by decide, by decide, rfl⟩

/-- Claim C15, amended. In a reachable state, handling a valid `student-heartbeat` of an open
connection, with exam id and student id that convert to the strings `e` and `s`, returns and
emits exactly one event, `student-online` with `studentId` `s`, through `socket.to`: it is
delivered to the members of room `e`, in the state after the listener, that are not members of
the room named by the socket id of the sender, each of them and nobody else. The sender is
never among them, and for any other connection both memberships are those it had before. -/
theorem student_heartbeat_reaches_others (clock : Nat → String) (io : Io)
    (hreach : Reachable io) (sid : SocketId) (hopen : (io.getSocket sid).isSome = true)
    (data : JsVal) (E S : JsAtom) (e s : String)
    (hE : data.getField "examId" = .ok E) (hS : data.getField "studentId" = .ok S)
    (hEt : E.truthy = true) (hSt : S.truthy = true)
    (he : E.toJsString = .ok e) (hs : S.toJsString = .ok s) :
    ∃ (io' : Io) (reached : List SocketId),
      onStudentHeartbeat clock io sid data = .ok (io',
        [⟨.roomExcept e sid, "student-online",
          [("studentId", .str s), ("socketId", .str sid),
           ("timestamp", .str (clock 0))], reached⟩]) ∧
      (∀ x, x ∈ reached ↔ io'.isMember x e ∧ ¬ io'.isMember x sid) ∧
      sid ∉ reached ∧
      (∀ x, x ≠ sid → (x ∈ reached ↔ io.isMember x e ∧ ¬ io.isMember x sid)) := by
  have hinv := inv_of_reachable hreach
  obtain ⟨io', hio, hrun⟩ :=
    onStudentHeartbeat_valid clock io sid data E S e s hE hS hEt hSt he hs
  have hrec : ∀ x, x ∈ io'.recipients (.roomExcept e sid)
      ↔ io'.isMember x e ∧ ¬ io'.isMember x sid :=
    fun x => mem_recipients_roomExcept_iff io' x sid e
  have hown : io.isMember sid sid := by
    obtain ⟨s0, hs0, hid⟩ := (getSocket_isSome_iff io sid).1 hopen
    have := hinv.ownRoom s0 hs0
    rw [hid] at this; exact this
  have hsame : ∀ x r, x ≠ sid → (io'.isMember x r ↔ io.isMember x r) := by
    intro x r hx
    rcases hio with h | ⟨h, _⟩
    · rw [h]
      unfold Io.isMember
      rw [mem_join_rooms, setMetadata_rooms]
      constructor
      · rintro (h1 | h1)
        · exact h1
        · injection h1 with _ h2; exact absurd h2 hx
      · exact Or.inl
    · rw [h]
  have hown' : io'.isMember sid sid := by
    rcases hio with h | ⟨h, _⟩
    · rw [h]; unfold Io.isMember; rw [mem_join_rooms, setMetadata_rooms]; exact Or.inl hown
    · rw [h]; exact hown
  refine ⟨io', io'.recipients (.roomExcept e sid), hrun, hrec, ?_, ?_⟩
  · intro h; exact ((hrec sid).1 h).2 hown'
  · intro x hx
    rw [hrec, hsame x e hx, hsame x sid hx]

/-! ### Disconnects and dropped joins -/

theorem onDisconnect_student (clock : Nat → String) (io : Io) (sid : SocketId) (E U : String)
    (reason : String) (hE : E ≠ "") (hU : U ≠ "") :
    onDisconnect clock io sid ⟨some .student, some E, some U⟩ reason =
      [io.emit (.roomExcept E sid) "student-disconnected"
        [("studentId", .str U), ("socketId", .str sid), ("reason", .str reason),
         ("timestamp", .str (clock 0))]] := by
  simp [onDisconnect, hE, hU]

theorem onDisconnect_other (clock : Nat → String) (io : Io) (sid : SocketId) (m : Metadata)
    (reason : String)
    (h : ¬ (m.type = some .student ∧
      ∃ E U, m.examId = some E ∧ m.userId = some U ∧ E ≠ "" ∧ U ≠ "")) :
    onDisconnect clock io sid m reason = [] := by
  obtain ⟨t, e, u⟩ := m
  unfold onDisconnect
  split
  · rename_i E U ht he hu
    simp only at ht he hu
    split
    · rename_i hne
      exact absurd ⟨ht, E, U, he, hu, hne.1, hne.2⟩ h
    · rfl
  · rfl

/-- Claim C16, counterexample. The proctor `s1` and the student `s2` are members of room `A`, and
the proctor has also joined the room named `s2`. When `s2` disconnects, `student-disconnected`
is emitted to room `A` and delivered to nobody, although `s1` is the rest of that room. -/
theorem disconnect_misses_crossed_member :
    stateAfter Io.init crossedInputs = some crossed ∧
    handle tickClock crossed "s2" (.disconnect "transport close")
      = .ok (⟨[⟨"s1", ⟨some .proctor, some "s2", none⟩⟩],
              [("s1", "s1"), ("A", "s1"), ("s2", "s1")]⟩,
          [⟨.roomExcept "A" "s2", "student-disconnected",
            [("studentId", .str "u2"), ("socketId", .str "s2"),
             ("reason", .str "transport close"), ("timestamp", .str (tickClock 0))], []⟩]) ∧
    (crossed.teardown "s2").isMember "s1" "A" :=
  ⟨by decide, rfl, by decide⟩

/-- Claim C16, amended. The disconnect of an open connection returns, in the state torn down by the
library. If the stored metadata is a student with a non-empty exam id `E` and a non-empty user
id `U`, exactly one event is emitted: `student-disconnected` with `studentId` `U`, the reason
and a timestamp, through `socket.to` to room `E`; it is delivered to the connections that were
members of room `E`, other than the closed one, and not members of the room named by its
socket id. Otherwise, and in particular for a proctor and for a connection that never joined,
nothing is emitted. -/
theorem disconnect_broadcasts_for_students_only (clock : Nat → String) (io : Io)
    (sid : SocketId) (socket : Socket) (reason : String)
    (hopen : io.getSocket sid = some socket) :
    ∃ emits, handle clock io sid (.disconnect reason) = .ok (io.teardown sid, emits) ∧
      (∀ E U, socket.socketMetadata = ⟨some .student, some E, some U⟩ → E ≠ "" → U ≠ "" →
        emits = [⟨.roomExcept E sid, "student-disconnected",
          [("studentId", .str U), ("socketId", .str sid), ("reason", .str reason),
           ("timestamp", .str (clock 0))],
          ((io.teardown sid).members E).filter (fun x => x ∉ (io.teardown sid).members sid)⟩] ∧
        ∀ x, x ∈ ((io.teardown sid).members E).filter
              (fun x => x ∉ (io.teardown sid).members sid)
          ↔ (io.isMember x E ∧ ¬ io.isMember x sid ∧ x ≠ sid)) ∧
      (¬ (socket.socketMetadata.type = some .student ∧
          ∃ E U, socket.socketMetadata.examId = some E ∧ socket.socketMetadata.userId = some U ∧
            E ≠ "" ∧ U ≠ "") → emits = []) ∧
      (socket.socketMetadata.type = some .proctor ∨ socket.socketMetadata.type = none →
        emits = []) := by
  refine ⟨onDisconnect clock (io.teardown sid) sid socket.socketMetadata reason, ?_, ?_, ?_, ?_⟩
  · simp only [handle, hopen]
  · intro E U hm hE hU
    rw [hm, onDisconnect_student clock _ sid E U reason hE hU]
    refine ⟨rfl, ?_⟩
    intro x
    have hmem : ∀ r, (io.teardown sid).isMember x r ↔ io.isMember x r ∧ x ≠ sid := by
      intro r
      unfold Io.isMember
      simp only [Io.teardown, List.mem_filter, decide_eq_true_eq, ne_eq]
    simp only [List.mem_filter, decide_eq_true_eq, mem_members_iff]
    rw [hmem, hmem]
    constructor
    · rintro ⟨⟨h1, h2⟩, h3⟩
      exact ⟨h1, fun h => h3 ⟨h, h2⟩, h2⟩
    · rintro ⟨h1, h2, h3⟩
      exact ⟨⟨h1, h3⟩, fun h => h2 h.1⟩
  · intro h
    exact onDisconnect_other clock _ sid _ reason h
  · intro h
    apply onDisconnect_other
    rintro ⟨ht, _⟩
    rcases h with h | h
    · rw [h] at ht; injection ht with ht; exact Role.noConfusion ht
    · rw [h] at ht; exact Option.noConfusion ht

/-- Claim C17. A `proctor-join` whose exam id (the bare payload, or its field `examId`) is missing,
null or the empty string, and a `student-join` with an object payload whose `examId` or
`studentId` is missing, null or the empty string, return the state they were given, metadata
and rooms included, and emit nothing. -/
theorem malformed_join_is_dropped (clock : Nat → String) (io : Io) (sid : SocketId) :
    (∀ data : JsVal,
      proctorExamId data = .undefined ∨ proctorExamId data = .null ∨
        proctorExamId data = .str "" →
      onProctorJoin clock io sid data = .ok (io, [])) ∧
    (∀ fields : List (String × JsAtom),
      ((JsVal.record fields).field "examId" = .undefined ∨
        (JsVal.record fields).field "examId" = .null ∨
        (JsVal.record fields).field "examId" = .str "" ∨
        (JsVal.record fields).field "studentId" = .undefined ∨
        (JsVal.record fields).field "studentId" = .null ∨
        (JsVal.record fields).field "studentId" = .str "") →
      onStudentJoin clock io sid (.record fields) = .ok (io, [])) := by
  constructor
  · intro data h
    have hf : (proctorExamId data).truthy = false := by
      rcases h with h | h | h <;> rw [h] <;> rfl
    exact onProctorJoin_dropped clock io sid data hf
  · intro fields h
    have hget : ∀ key, (JsVal.record fields).getField key = .ok ((JsVal.record fields).field key) :=
      fun _ => rfl
    have hf : (!((JsVal.record fields).field "examId").truthy ||
        !((JsVal.record fields).field "studentId").truthy) = true := by
      rcases h with h | h | h | h | h | h <;> rw [h] <;> simp [JsAtom.truthy]
    simp only [onStudentJoin, hget, bind, Except.bind, pure, Except.pure, hf, if_true]

/-! ## Incident reports and acknowledgments -/

/-! ### Incident reports: the socket listener and the route -/

theorem descriptions_keys {t label : String} (h : descriptions.lookup t = some label) :
    t ∈ incidentTypes ∧ t ≠ "" := by
  unfold descriptions at h
  simp only [List.lookup] at h
  unfold incidentTypes
  repeat' split at h
  all_goals first
    | exact Option.noConfusion h
    | (rename_i hb; have := eq_of_beq hb; subst this; exact ⟨by decide, by decide⟩)

theorem str_truthy {t : String} (h : t ≠ "") : (JsAtom.str t).truthy = true := by
  simp [JsAtom.truthy, h]

/-- The acknowledgment sent from the `catch` block of `report-suspicious-activity`. -/
theorem reportAttempt_emits (clock : Nat → String) (io : Io) (sid : SocketId) (data : JsVal)
    (S E T : JsAtom) :
    ∀ m ∈ (reportAttempt clock io sid data S E T).1,
      m.event = "suspicious-activity" ∨
      ((reportAttempt clock io sid data S E T).2 = true ∧
        m.dest = .sender sid ∧ m.event = "incident-report-sent" ∧
        m.payload.lookup "success" = some (.bool true) ∧
        (m.payload.lookup "timestamp").isSome = true) := by
  intro m hm
  unfold reportAttempt at hm ⊢
  repeat' split at hm
  all_goals first
    | exact absurd hm (List.not_mem_nil _)
    | (simp only [List.mem_singleton] at hm; rw [hm]; exact Or.inl rfl)
    | (simp only [List.mem_cons, List.mem_singleton, List.not_mem_nil, or_false] at hm
       rcases hm with hm | hm
       · rw [hm]; exact Or.inl rfl
       · rw [hm]; exact Or.inr ⟨rfl, rfl, rfl, rfl, rfl⟩)

/-- A valid report on the socket whose ids and type convert to strings: `suspicious-activity`
is sent through `socket.to` to the room, the reporter hears `incident-report-sent` with
`success: true`, and the state is left as it is. -/
theorem onReportSuspiciousActivity_valid (clock : Nat → String) (io : Io) (sid : SocketId)
    (data : JsVal) (S E T D : JsAtom) (s e t : String)
    (hS : data.getField "studentId" = .ok S) (hE : data.getField "examId" = .ok E)
    (hT : data.getField "type" = .ok T)
    (hSt : S.truthy = true) (hEt : E.truthy = true) (hTt : T.truthy = true)
    (hs : S.toJsString = .ok s) (he : E.toJsString = .ok e) (ht : T.toJsString = .ok t)
    (hD : reportDescription data T = .ok D) :
    onReportSuspiciousActivity clock io sid data = .ok (io,
      [io.emit (.roomExcept e sid) "suspicious-activity"
        [("studentId", .str s), ("type", T), ("description", D),
         ("timestamp", (data.field "timestamp").orElse (.str (clock 0))),
         ("reportedBy", .str sid)],
       io.emit (.sender sid) "incident-report-sent"
        [("studentId", .str s), ("examId", .str e), ("type", T),
         ("timestamp", (data.field "timestamp").orElse (.str (clock 0))),
         ("success", .bool true)]]) := by
  simp only [onReportSuspiciousActivity, reportAttempt, hS, hE, hT, bind, Except.bind, pure,
    Except.pure, hSt, hEt, hTt, hs, he, ht, hD, Bool.not_true, Bool.or_self,
    Bool.false_eq_true, if_false, if_true]

/-- The description of a report whose type converts to a string is always found. -/
theorem reportDescription_ok (data : JsVal) (T : JsAtom) (t : String)
    (ht : T.toJsString = .ok t) : ∃ D, reportDescription data T = .ok D := by
  unfold reportDescription
  split
  · exact ⟨_, rfl⟩
  · simp only [getIncidentTypeDescription, ht, bind, Except.bind, pure, Except.pure]
    split
    · exact ⟨_, rfl⟩
    · split <;> exact ⟨_, rfl⟩

/-- A valid report on the socket of which an id or the type does not convert to a string:
the `catch` block sends `incident-report-sent` with `success: false` and the message of the
error to the reporter; before it, at most the broadcast was emitted, and nothing at all if
it is an id that does not convert. The state is left as it is. -/
theorem onReportSuspiciousActivity_caught (clock : Nat → String) (io : Io) (sid : SocketId)
    (data : JsVal) (S E T : JsAtom)
    (hS : data.getField "studentId" = .ok S) (hE : data.getField "examId" = .ok E)
    (hT : data.getField "type" = .ok T)
    (hSt : S.truthy = true) (hEt : E.truthy = true) (hTt : T.truthy = true)
    (hbad : S = .unprintable ∨ E = .unprintable ∨ T = .unprintable) :
    ∃ before, onReportSuspiciousActivity clock io sid data = .ok (io,
        before ++ [⟨.sender sid, "incident-report-sent",
          [("success", .bool false), ("error", .str conversionMessage)], [sid]⟩]) ∧
      (∀ m ∈ before, m.event = "suspicious-activity") ∧
      (S = .unprintable ∨ E = .unprintable → before = []) := by
  have hfail : (reportAttempt clock io sid data S E T).2 = false := by
    unfold reportAttempt
    repeat' split
    all_goals first
      | rfl
      | (exfalso
         rcases hbad with h | h | h <;> (subst h; simp [JsAtom.toJsString] at *))
  refine ⟨(reportAttempt clock io sid data S E T).1, ?_, ?_, ?_⟩
  · simp only [onReportSuspiciousActivity, hS, hE, hT, bind, Except.bind, pure, Except.pure,
      hSt, hEt, hTt, hfail, Bool.not_true, Bool.or_self, Bool.false_eq_true, if_false]
    rfl
  · intro m hm
    rcases reportAttempt_emits clock io sid data S E T m hm with h | ⟨h, _⟩
    · exact h
    · rw [hfail] at h; exact Bool.noConfusion h
  · intro h
    unfold reportAttempt
    rcases h with h | h
    · rw [h]; rfl
    · rw [h]
      cases hs : S.toJsString with
      | error x => rfl
      | ok s => rfl

/-- The route when every check passes and the creation succeeds. -/
theorem postIncident_created (env : IncidentEnv) (exams : List Exam) (incidents : List Incident)
    (id userId : String) (body : JsVal) (exam : Exam) (student type description : JsAtom)
    (incident : Incident) (stored : List Incident)
    (hid : env.isValid (.str id) = true) (hfind : env.findError = none)
    (hexam : exams.find? (fun e => e._id = id) = some exam)
    (hs : body.getField "student" = .ok student) (ht : body.getField "type" = .ok type)
    (hd : body.getField "description" = .ok description)
    (hst : student.truthy = true) (htt : type.truthy = true)
    (hsv : env.isValid student = true)
    (hcreate : Incident.create env incidents id student userId type
      (description.orElse (.str "")) = .ok (incident, stored)) :
    postIncident env exams incidents id userId body =
      (⟨201, true, none, none, some incident⟩, stored) := by
  simp only [postIncident, hid, hfind, hexam, hs, ht, hd, hst, htt, hsv, Bool.not_true,
    Bool.false_eq_true, if_false, hcreate]

/-- The route when every check passes and the creation fails. -/
theorem postIncident_create_failed (env : IncidentEnv) (exams : List Exam)
    (incidents : List Incident) (id userId : String) (body : JsVal) (exam : Exam)
    (student type description : JsAtom) (err : StorageError)
    (hid : env.isValid (.str id) = true) (hfind : env.findError = none)
    (hexam : exams.find? (fun e => e._id = id) = some exam)
    (hs : body.getField "student" = .ok student) (ht : body.getField "type" = .ok type)
    (hd : body.getField "description" = .ok description)
    (hst : student.truthy = true) (htt : type.truthy = true)
    (hsv : env.isValid student = true)
    (hcreate : Incident.create env incidents id student userId type
      (description.orElse (.str "")) = .error err) :
    postIncident env exams incidents id userId body =
      (⟨500, false, some "Error creating incident", some err.message, none⟩, incidents) := by
  simp only [postIncident, hid, hfind, hexam, hs, ht, hd, hst, htt, hsv, Bool.not_true,
    Bool.false_eq_true, if_false, hcreate]

/-- Claim C18, counterexample. The route stores the report of `multiple_faces` sent without
description with the empty string as description and the time of creation as timestamp, although
the canonical label of the type is `Multiple faces detected`. -/
theorem persisted_description_is_empty :
    Server.onPostIncident sampleEnv sampleServer sampleExamId sampleProctorId sampleBody
      = (⟨201, true, none, none,
          some ⟨sampleExamId, .str sampleStudentId, sampleProctorId, "multiple_faces", "", 5000,
            false⟩⟩,
         { sampleServer with incidents :=
            [⟨sampleExamId, .str sampleStudentId, sampleProctorId, "multiple_faces", "", 5000,
              false⟩] }) ∧
    ("" : String) ≠ "Multiple faces detected" ∧
    getIncidentTypeDescription (.str "multiple_faces")
      = .ok (.str "Multiple faces detected") :=
  ⟨by decide, by decide, rfl⟩

/-- Claim C18, amended. For a type `t` of the closed enum with canonical label `label`, a report
without description, whose ids convert to strings, has `label` as description in the
`suspicious-activity` payload of the socket listener, together with the type `t` and the
timestamp given by the client or else read from the clock; the listener leaves the state as it
is. The record created for such a report by `POST /api/exams/:id/incidents`, when every check
passes and nothing rejects, has type `t`, the empty string as description and the time of its
creation as timestamp. -/
theorem report_description_defaults (t label : String)
    (henum : descriptions.lookup t = some label) :
    (∀ (clock : Nat → String) (io : Io) (sid : SocketId) (data : JsVal) (S E : JsAtom)
        (s e : String),
      data.getField "studentId" = .ok S → data.getField "examId" = .ok E →
      data.getField "type" = .ok (.str t) → S.truthy = true → E.truthy = true →
      S.toJsString = .ok s → E.toJsString = .ok e →
      (data.field "description").truthy = false →
        onReportSuspiciousActivity clock io sid data = .ok (io,
          [io.emit (.roomExcept e sid) "suspicious-activity"
            [("studentId", .str s), ("type", .str t), ("description", .str label),
             ("timestamp", (data.field "timestamp").orElse (.str (clock 0))),
             ("reportedBy", .str sid)],
           io.emit (.sender sid) "incident-report-sent"
            [("studentId", .str s), ("examId", .str e), ("type", .str t),
             ("timestamp", (data.field "timestamp").orElse (.str (clock 0))),
             ("success", .bool true)]])) ∧
    (∀ (env : IncidentEnv) (exams : List Exam) (incidents : List Incident) (id userId : String)
        (body : JsVal) (exam : Exam) (student description : JsAtom),
      env.isValid (.str id) = true → env.findError = none → env.insertError = none →
      exams.find? (fun e => e._id = id) = some exam →
      body.getField "student" = .ok student → body.getField "type" = .ok (.str t) →
      body.getField "description" = .ok description →
      student.truthy = true → env.isValid student = true → description.truthy = false →
        postIncident env exams incidents id userId body =
          (⟨201, true, none, none, some ⟨id, student, userId, t, "", env.now, false⟩⟩,
           incidents ++ [⟨id, student, userId, t, "", env.now, false⟩])) := by
  obtain ⟨hmem, hne⟩ := descriptions_keys henum
  constructor
  · intro clock io sid data S E s e hS hE hT hSt hEt hs he hD
    have hdesc : reportDescription data (.str t) = .ok (.str label) := by
      unfold reportDescription
      rw [hD]
      simp only [Bool.false_eq_true, if_false, getIncidentTypeDescription, JsAtom.toJsString,
        henum, bind, Except.bind, pure, Except.pure]
    exact onReportSuspiciousActivity_valid clock io sid data S E (.str t) (.str label) s e t
      hS hE hT hSt hEt (str_truthy hne) hs he rfl hdesc
  · intro env exams incidents id userId body exam student description hid hfind hins hexam hs
      ht hd hst hsv hdt
    have hor : description.orElse (.str "") = .str "" := by
      unfold JsAtom.orElse; rw [hdt]; rfl
    apply postIncident_created env exams incidents id userId body exam student (.str t)
      description _ _ hid hfind hexam hs ht hd hst (str_truthy hne) hsv
    rw [hor]
    simp only [Incident.create, castString, hmem, if_true, hins]

/-- A socket event leaves the stored documents as they are. -/
theorem onEvent_stores {clock : Nat → String} {s s' : Server} {sid : SocketId} {ev : Event}
    {emits : List Emit} (h : Server.onEvent clock s sid ev = .ok (s', emits)) :
    s'.incidents = s.incidents ∧ s'.exams = s.exams := by
  unfold Server.onEvent at h
  split at h
  · injection h with h; injection h with h1 _; rw [← h1]; exact ⟨rfl, rfl⟩
  · exact Except.noConfusion h

/-- Claim C19, counterexample. A valid `report-suspicious-activity` event on a server that stores no
incident is broadcast to the student in the room and acknowledged with `success: true`, and the
server still stores no incident. -/
theorem report_broadcast_without_record :
    Server.onEvent tickClock sampleServer "s1" (.reportSuspiciousActivity sampleReport)
      = .ok (sampleServer,
          [⟨.roomExcept sampleExamId "s1", "suspicious-activity",
            [("studentId", .str sampleStudentId), ("type", .str "multiple_faces"),
             ("description", .str "Multiple faces detected"), ("timestamp", .str "t0"),
             ("reportedBy", .str "s1")], ["s2"]⟩,
           ⟨.sender "s1", "incident-report-sent",
            [("studentId", .str sampleStudentId), ("examId", .str sampleExamId),
             ("type", .str "multiple_faces"), ("timestamp", .str "t0"),
             ("success", .bool true)], ["s1"]⟩]) ∧
    sampleServer.incidents = [] := by
  exact ⟨rfl, rfl⟩

/-- Claim C19, amended. No socket event changes the stored incidents or exams, whatever its outcome.
A valid `report-suspicious-activity` event whose ids and type convert to strings emits
`suspicious-activity` through `socket.to` to the room and `incident-report-sent` with
`success: true` to the reporter, and leaves the server as it is. When one of them does not
convert, the `catch` block sends `incident-report-sent` with `success: false` and the message of
the error to the reporter, after at most the broadcast, and the server is left as it is.
Records are created by `POST /api/exams/:id/incidents` only; when the creation fails there,
the response has status 500 with `success: false`, the message `Error creating incident` and
the error message, and the server is left as it is. -/
theorem report_event_persists_nothing :
    (∀ (clock : Nat → String) (s s' : Server) (sid : SocketId) (ev : Event)
        (emits : List Emit),
      Server.onEvent clock s sid ev = .ok (s', emits) →
        s'.incidents = s.incidents ∧ s'.exams = s.exams) ∧
    (∀ (clock : Nat → String) (s : Server) (sid : SocketId) (data : JsVal) (S E T : JsAtom)
        (se ee te : String),
      data.getField "studentId" = .ok S → data.getField "examId" = .ok E →
      data.getField "type" = .ok T →
      S.truthy = true → E.truthy = true → T.truthy = true →
      S.toJsString = .ok se → E.toJsString = .ok ee → T.toJsString = .ok te →
        ∃ D, reportDescription data T = .ok D ∧
        Server.onEvent clock s sid (.reportSuspiciousActivity data) = .ok (s,
          [s.io.emit (.roomExcept ee sid) "suspicious-activity"
            [("studentId", .str se), ("type", T), ("description", D),
             ("timestamp", (data.field "timestamp").orElse (.str (clock 0))),
             ("reportedBy", .str sid)],
           s.io.emit (.sender sid) "incident-report-sent"
            [("studentId", .str se), ("examId", .str ee), ("type", T),
             ("timestamp", (data.field "timestamp").orElse (.str (clock 0))),
             ("success", .bool true)]])) ∧
    (∀ (clock : Nat → String) (s : Server) (sid : SocketId) (data : JsVal) (S E T : JsAtom),
      data.getField "studentId" = .ok S → data.getField "examId" = .ok E →
      data.getField "type" = .ok T →
      S.truthy = true → E.truthy = true → T.truthy = true →
      (S = .unprintable ∨ E = .unprintable ∨ T = .unprintable) →
        ∃ before, Server.onEvent clock s sid (.reportSuspiciousActivity data) = .ok (s,
            before ++ [⟨.sender sid, "incident-report-sent",
              [("success", .bool false), ("error", .str conversionMessage)], [sid]⟩]) ∧
          (∀ m ∈ before, m.event = "suspicious-activity") ∧
          (S = .unprintable ∨ E = .unprintable → before = [])) ∧
    (∀ (env : IncidentEnv) (s : Server) (id userId : String) (body : JsVal) (exam : Exam)
        (student type description : JsAtom) (err : StorageError),
      env.isValid (.str id) = true → env.findError = none →
      s.exams.find? (fun e => e._id = id) = some exam →
      body.getField "student" = .ok student → body.getField "type" = .ok type →
      body.getField "description" = .ok description →
      student.truthy = true → type.truthy = true → env.isValid student = true →
      Incident.create env s.incidents id student userId type (description.orElse (.str ""))
        = .error err →
        Server.onPostIncident env s id userId body =
          (⟨500, false, some "Error creating incident", some err.message, none⟩, s)) := by
  refine ⟨?_, ?_, ?_, ?_⟩
  · intro clock s s' sid ev emits h
    exact onEvent_stores h
  · intro clock s sid data S E T se ee te hS hE hT hSt hEt hTt hs he ht
    obtain ⟨D, hD⟩ := reportDescription_ok data T te ht
    refine ⟨D, hD, ?_⟩
    simp only [Server.onEvent, handle,
      onReportSuspiciousActivity_valid clock s.io sid data S E T D se ee te hS hE hT hSt hEt hTt
        hs he ht hD]
  · intro clock s sid data S E T hS hE hT hSt hEt hTt hbad
    obtain ⟨before, h1, h2, h3⟩ :=
      onReportSuspiciousActivity_caught clock s.io sid data S E T hS hE hT hSt hEt hTt hbad
    refine ⟨before, ?_, h2, h3⟩
    simp only [Server.onEvent, handle, h1]
  · intro env s id userId body exam student type description err hid hfind hexam hs ht hd hst
      htt hsv hcreate
    simp only [Server.onPostIncident,
      postIncident_create_failed env s.exams s.incidents id userId body exam student type
        description err hid hfind hexam hs ht hd hst htt hsv hcreate]

/-! ### The fields of the acknowledgments -/

/-- Claim C20, counterexample. A `proctor-join` for exam `A` is acknowledged with
`proctor-join-ack`, which carries `success`, `examId` and `socketId`, and no timestamp. -/
theorem join_ack_has_no_timestamp :
    onProctorJoin tickClock oneOpen "s1" (.atom (.str "A"))
      = .ok (⟨[⟨"s1", ⟨some .proctor, some "A", none⟩⟩], [("s1", "s1"), ("A", "s1")]⟩,
          [⟨.roomExcept "A" "s1", "proctor-connected",
            [("socketId", .str "s1"), ("timestamp", .str (tickClock 0))], []⟩,
           ⟨.room "A", "proctor-status-update",
            [("examId", .str "A"), ("connected", .bool true), ("proctorId", .str "s1"),
             ("timestamp", .str (tickClock 1))], ["s1"]⟩,
           ⟨.sender "s1", "proctor-join-ack",
            [("success", .bool true), ("examId", .str "A"), ("socketId", .str "s1")],
            ["s1"]⟩]) ∧
    Emit.field ⟨.sender "s1", "proctor-join-ack",
        [("success", .bool true), ("examId", .str "A"), ("socketId", .str "s1")], ["s1"]⟩
      "timestamp" = none ∧
    "proctor-join-ack" ∈ ackEvents :=
  ⟨rfl, by decide, by decide⟩

theorem mem_onDisconnect {clock : Nat → String} {io : Io} {sid : SocketId} {metadata : Metadata}
    {reason : String} {m : Emit} (hm : m ∈ onDisconnect clock io sid metadata reason) :
    m.event = "student-disconnected" := by
  unfold onDisconnect at hm
  split at hm
  · split at hm
    · simp only [List.mem_singleton] at hm
      rw [hm]; rfl
    · exact absurd hm (List.not_mem_nil _)
  · exact absurd hm (List.not_mem_nil _)

/-- The acknowledgment sent from the `catch` block of `report-suspicious-activity` has the
shape of an acknowledgment. -/
theorem ackShape_report_failed (clock : Nat → String) (sid : SocketId) :
    ackShape clock sid ⟨.sender sid, "incident-report-sent",
      [("success", .bool false), ("error", .str conversionMessage)], [sid]⟩ := by
  simp [ackShape, Emit.field, List.lookup]

theorem ackShape_report_sent (clock : Nat → String) (sid : SocketId) {m : Emit}
    (hd : m.dest = .sender sid) (hev : m.event = "incident-report-sent")
    (hsu : m.payload.lookup "success" = some (.bool true))
    (hts : (m.payload.lookup "timestamp").isSome = true) : ackShape clock sid m := by
  unfold ackShape Emit.field
  rw [hev, hsu]
  simp [hd, hts]

/-- The three outcomes of `report-suspicious-activity`: dropped, the `try` block ran to its
end, or the `catch` block added its acknowledgment. -/
theorem report_emits_cases {clock : Nat → String} {io io' : Io} {sid : SocketId} {data : JsVal}
    {emits : List Emit} (h : onReportSuspiciousActivity clock io sid data = .ok (io', emits)) :
    ∃ S E T, emits = [] ∨ emits = (reportAttempt clock io sid data S E T).1 ∨
      emits = (reportAttempt clock io sid data S E T).1 ++
        [⟨.sender sid, "incident-report-sent",
          [("success", .bool false), ("error", .str conversionMessage)], [sid]⟩] := by
  simp only [onReportSuspiciousActivity, bind, Except.bind, pure, Except.pure] at h
  repeat' split at h
  all_goals first
    | exact Except.noConfusion h
    | (injection h with h; injection h with _ h2
       exact ⟨.undefined, .undefined, .undefined, Or.inl h2.symm⟩)
    | (injection h with h; injection h with _ h2
       exact ⟨_, _, _, Or.inr (Or.inl h2.symm)⟩)
    | (injection h with h; injection h with _ h2
       exact ⟨_, _, _, Or.inr (Or.inr h2.symm)⟩)

theorem acks_of_report {clock : Nat → String} {io io' : Io} {sid : SocketId} {data : JsVal}
    {emits : List Emit} (h : onReportSuspiciousActivity clock io sid data = .ok (io', emits)) :
    ∀ m ∈ emits, m.event ∈ ackEvents → ackShape clock sid m := by
  have hsus : ¬ ("suspicious-activity" ∈ ackEvents) := by decide
  have key : ∀ S E T, ∀ m ∈ (reportAttempt clock io sid data S E T).1,
      m.event ∈ ackEvents → ackShape clock sid m := by
    intro S E T m hm hack
    rcases reportAttempt_emits clock io sid data S E T m hm with h3 | ⟨_, hd, hev, hsu, hts⟩
    · rw [h3] at hack; exact absurd hack hsus
    · exact ackShape_report_sent clock sid hd hev hsu hts
  obtain ⟨S, E, T, h1 | h1 | h1⟩ := report_emits_cases h
  · rw [h1]; intro m hm; exact absurd hm (List.not_mem_nil _)
  · rw [h1]; exact key S E T
  · rw [h1]
    intro m hm hack
    rcases List.mem_append.1 hm with hm | hm
    · exact key S E T m hm hack
    · simp only [List.mem_singleton] at hm
      rw [hm]
      exact ackShape_report_failed clock sid

set_option maxHeartbeats 1000000 in
theorem acks_of_proctorJoin {clock : Nat → String} {io io' : Io} {sid : SocketId} {data : JsVal}
    {emits : List Emit} (h : onProctorJoin clock io sid data = .ok (io', emits)) :
    ∀ m ∈ emits, m.event ∈ ackEvents → ackShape clock sid m := by
  simp only [onProctorJoin, bind, Except.bind, pure, Except.pure] at h
  repeat' split at h
  all_goals first
    | exact Except.noConfusion h
    | (injection h with h; injection h with _ h2; rw [← h2]
       simp [Io.emit, Io.recipients, ackEvents, ackShape, Emit.field, List.lookup]
       done)
    | (injection h with h; injection h with _ h2; rw [← h2]
       simp [Io.emit, Io.recipients, ackEvents, ackShape, Emit.field, List.lookup]
       intro a b hab hts
       subst hts
       simp at hab)

set_option maxHeartbeats 1000000 in
theorem acks_of_studentJoin {clock : Nat → String} {io io' : Io} {sid : SocketId} {data : JsVal}
    {emits : List Emit} (h : onStudentJoin clock io sid data = .ok (io', emits)) :
    ∀ m ∈ emits, m.event ∈ ackEvents → ackShape clock sid m := by
  simp only [onStudentJoin, bind, Except.bind, pure, Except.pure] at h
  repeat' split at h
  all_goals first
    | exact Except.noConfusion h
    | (injection h with h; injection h with _ h2; rw [← h2]
       simp [Io.emit, Io.recipients, ackEvents, ackShape, Emit.field, List.lookup])

set_option maxHeartbeats 1000000 in
theorem acks_of_studentVideo {clock : Nat → String} {io io' : Io} {sid : SocketId} {data : JsVal}
    {emits : List Emit} (h : onStudentVideo clock io sid data = .ok (io', emits)) :
    ∀ m ∈ emits, m.event ∈ ackEvents → ackShape clock sid m := by
  simp only [onStudentVideo, bind, Except.bind, pure, Except.pure] at h
  repeat' split at h
  all_goals first
    | exact Except.noConfusion h
    | (injection h with h; injection h with _ h2; rw [← h2]
       simp [Io.emit, Io.recipients, ackEvents, ackShape, Emit.field, List.lookup])

set_option maxHeartbeats 1000000 in
theorem acks_of_requestIdVerification {clock : Nat → String} {io io' : Io} {sid : SocketId} {data : JsVal}
    {emits : List Emit} (h : onRequestIdVerification clock io sid data = .ok (io', emits)) :
    ∀ m ∈ emits, m.event ∈ ackEvents → ackShape clock sid m := by
  simp only [onRequestIdVerification, bind, Except.bind, pure, Except.pure] at h
  repeat' split at h
  all_goals first
    | exact Except.noConfusion h
    | (injection h with h; injection h with _ h2; rw [← h2]
       simp [Io.emit, Io.recipients, ackEvents, ackShape, Emit.field, List.lookup])

set_option maxHeartbeats 1000000 in
theorem acks_of_idVerificationResponse {clock : Nat → String} {io io' : Io} {sid : SocketId} {data : JsVal}
    {emits : List Emit} (h : onIdVerificationResponse clock io sid data = .ok (io', emits)) :
    ∀ m ∈ emits, m.event ∈ ackEvents → ackShape clock sid m := by
  simp only [onIdVerificationResponse, bind, Except.bind, pure, Except.pure] at h
  repeat' split at h
  all_goals first
    | exact Except.noConfusion h
    | (injection h with h; injection h with _ h2; rw [← h2]
       simp [Io.emit, Io.recipients, ackEvents, ackShape, Emit.field, List.lookup]
       intro a b hab hts
       subst hts
       simp at hab)

set_option maxHeartbeats 1000000 in
theorem acks_of_studentSubmitExam {clock : Nat → String} {io io' : Io} {sid : SocketId} {data : JsVal}
    {emits : List Emit} (h : onStudentSubmitExam clock io sid data = .ok (io', emits)) :
    ∀ m ∈ emits, m.event ∈ ackEvents → ackShape clock sid m := by
  simp only [onStudentSubmitExam, bind, Except.bind, pure, Except.pure] at h
  repeat' split at h
  all_goals first
    | exact Except.noConfusion h
    | (injection h with h; injection h with _ h2; rw [← h2]
       simp [Io.emit, Io.recipients, ackEvents, ackShape, Emit.field, List.lookup])

set_option maxHeartbeats 1000000 in
theorem acks_of_proctorHeartbeat {clock : Nat → String} {io io' : Io} {sid : SocketId} {data : JsVal}
    {emits : List Emit} (h : onProctorHeartbeat clock io sid data = .ok (io', emits)) :
    ∀ m ∈ emits, m.event ∈ ackEvents → ackShape clock sid m := by
  simp only [onProctorHeartbeat, bind, Except.bind, pure, Except.pure] at h
  repeat' split at h
  all_goals first
    | exact Except.noConfusion h
    | (injection h with h; injection h with _ h2; rw [← h2]
       simp [Io.emit, Io.recipients, ackEvents, ackShape, Emit.field, List.lookup]
       done)
    | (injection h with h; injection h with _ h2; rw [← h2]
       simp [Io.emit, Io.recipients, ackEvents, ackShape, Emit.field, List.lookup]
       intro a b hab hts
       subst hts
       simp at hab)

theorem acks_of_requestConnectionStatus {clock : Nat → String} {io io' : Io} {sid : SocketId}
    {data : JsVal} {emits : List Emit}
    (h : onRequestConnectionStatus clock io sid data = .ok (io', emits)) :
    ∀ m ∈ emits, m.event ∈ ackEvents → ackShape clock sid m := by
  simp only [onRequestConnectionStatus, bind, Except.bind, pure, Except.pure] at h
  repeat' split at h
  all_goals first
    | exact Except.noConfusion h
    | (injection h with h; injection h with _ h2; rw [← h2]
       intro m hm; exact absurd hm (List.not_mem_nil _))
    | (injection h with h; injection h with _ h2; rw [← h2]
       intro m hm hack
       rcases List.mem_append.1 hm with hm | hm
       · obtain ⟨p, _, hp⟩ := List.mem_map.1 hm
         rw [← hp] at hack
         simp [Io.emit, ackEvents] at hack
       · simp only [List.mem_singleton] at hm
         rw [hm]
         simp [ackShape, Io.emit, Io.recipients, Emit.field, List.lookup])

theorem acks_of_handle {clock : Nat → String} {io io' : Io} {sid : SocketId} {ev : Event}
    {emits : List Emit} (h : handle clock io sid ev = .ok (io', emits)) :
    ∀ m ∈ emits, m.event ∈ ackEvents → ackShape clock sid m := by
  cases ev with
  | ping cb =>
    simp only [handle, onPing] at h
    split at h <;>
    · injection h with h; injection h with _ h2; rw [← h2]
      intro m hm hack
      simp only [List.mem_singleton] at hm
      rw [hm] at hack
      simp [Io.emit, ackEvents] at hack
  | proctorJoin data => exact acks_of_proctorJoin h
  | studentJoin data => exact acks_of_studentJoin h
  | studentVideo data => exact acks_of_studentVideo h
  | requestIdVerification data => exact acks_of_requestIdVerification h
  | idVerificationResponse data => exact acks_of_idVerificationResponse h
  | reportSuspiciousActivity data => exact acks_of_report h
  | studentHeartbeat data =>
    intro m hm hack
    have := (onStudentHeartbeat_no_ack clock io sid data (io', emits) h m hm).2
    rw [this] at hack
    simp [ackEvents] at hack
  | studentSubmitExam data => exact acks_of_studentSubmitExam h
  | requestConnectionStatus data => exact acks_of_requestConnectionStatus h
  | proctorHeartbeat data => exact acks_of_proctorHeartbeat h
  | error =>
    simp only [handle] at h
    injection h with h; injection h with _ h2; rw [← h2]; intro m hm; simp at hm
  | disconnect reason =>
    simp only [handle] at h
    split at h
    · injection h with h; injection h with _ h2; rw [← h2]; intro m hm; simp at hm
    · injection h with h; injection h with _ h2; rw [← h2]
      intro m hm hack
      rw [mem_onDisconnect hm] at hack
      simp [ackEvents] at hack

/-- Claim C20, amended. Every acknowledgment the listeners emit goes to the sender, and:
`proctor-join-ack` and `verification-response-received` carry `success: true` and no timestamp;
`heartbeat-ack` carries `received: true` and a timestamp, and no `success`;
`verification-request-sent`, `exam-submission-received` and `connection-status-response` carry
a boolean `success` and a timestamp; `incident-report-sent` carries either `success: true` and
a timestamp, or, sent from the `catch` block, `success: false`, the message of the error and no
timestamp; and an acknowledgment whose `success` is false carries an `error`. -/
theorem acknowledgment_fields (clock : Nat → String) (io io' : Io) (sid : SocketId)
    (ev : Event) (emits : List Emit) (h : handle clock io sid ev = .ok (io', emits)) :
    ∀ m ∈ emits, m.event ∈ ackEvents →
      m.dest = .sender sid ∧
      (m.event = "proctor-join-ack" ∨ m.event = "verification-response-received" →
        m.field "success" = some (.bool true) ∧ m.field "timestamp" = none) ∧
      (m.event = "heartbeat-ack" →
        m.field "success" = none ∧ m.field "received" = some (.bool true) ∧
        m.field "timestamp" = some (.str (clock 0))) ∧
      (m.event = "verification-request-sent" ∨
          m.event = "exam-submission-received" ∨ m.event = "connection-status-response" →
        (∃ b, m.field "success" = some (.bool b)) ∧ (m.field "timestamp").isSome = true) ∧
      (m.event = "incident-report-sent" →
        (m.field "success" = some (.bool true) ∧ (m.field "timestamp").isSome = true) ∨
        (m.field "success" = some (.bool false) ∧ m.field "timestamp" = none ∧
          m.field "error" = some (.str conversionMessage))) ∧
      (m.field "success" = some (.bool false) → (m.field "error").isSome = true) :=
  fun m hm hack => acks_of_handle h m hm hack

/-! ## Payload checks and the reach of room events -/

/-- Reading a field of a payload that is neither `undefined` nor `null` does not throw. -/
theorem getField_ok {data : JsVal} (h1 : data ≠ .atom .undefined) (h2 : data ≠ .atom .null)
    (key : String) : data.getField key = .ok (data.field key) := by
  cases data with
  | atom a => cases a <;> first | exact absurd rfl h1 | exact absurd rfl h2 | rfl
  | record fields => rfl

/-- On a payload that is neither `undefined` nor `null`, be it an object or not, and whose
`studentId` and `examId` convert to strings, the six listeners that read fields of their
payload return; the listener of `report-suspicious-activity` returns even when they do not
convert. -/
theorem listeners_return_on_defined_payload (clock : Nat → String) (io : Io) (sid : SocketId)
    (data : JsVal) (h1 : data ≠ .atom .undefined) (h2 : data ≠ .atom .null) :
    (∃ r, onReportSuspiciousActivity clock io sid data = .ok r) ∧
    (data.field "studentId" ≠ .unprintable → data.field "examId" ≠ .unprintable →
      (∃ r, onStudentJoin clock io sid data = .ok r) ∧
      (∃ r, onStudentHeartbeat clock io sid data = .ok r) ∧
      (∃ r, onStudentVideo clock io sid data = .ok r) ∧
      (∃ r, onIdVerificationResponse clock io sid data = .ok r) ∧
      (∃ r, onRequestConnectionStatus clock io sid data = .ok r)) := by
  have h := getField_ok h1 h2
  constructor
  · simp only [onReportSuspiciousActivity, h, bind, Except.bind, pure, Except.pure]
    repeat' split
    all_goals exact ⟨_, rfl⟩
  · intro hs he
    obtain ⟨s, hs⟩ := toJsString_ok_of_ne hs
    obtain ⟨e, he⟩ := toJsString_ok_of_ne he
    refine ⟨?_, ?_, ?_, ?_, ?_⟩
    · simp only [onStudentJoin, h, hs, he, bind, Except.bind, pure, Except.pure]
      split <;> exact ⟨_, rfl⟩
    · simp only [onStudentHeartbeat, h, hs, he, bind, Except.bind, pure, Except.pure]
      split <;> exact ⟨_, rfl⟩
    · simp only [onStudentVideo, h, hs, he, bind, Except.bind, pure, Except.pure]
      exact ⟨_, rfl⟩
    · simp only [onIdVerificationResponse, h, hs, he, bind, Except.bind, pure, Except.pure]
      exact ⟨_, rfl⟩
    · simp only [onRequestConnectionStatus, h, he, bind, Except.bind, pure, Except.pure]
      split <;> exact ⟨_, rfl⟩

/-- Claim C21, evaluation at failing inputs. On the payload `undefined` and on the payload `null`,
in every state, each of the listeners of `student-join`, `student-heartbeat`, `student-video`,
`id-verification-response`, `report-suspicious-activity` and `request-connection-status` throws
a `TypeError` while reading a field of its payload, and the exception is not caught: a server
that handles `student-join` without payload on a fresh connection ends with it. The listeners
of `proctor-join` and `proctor-heartbeat` test the payload first and drop it. For the other
payloads see `listeners_return_on_defined_payload`. -/
theorem listeners_throw_on_missing_payload (clock : Nat → String) (io : Io) (sid : SocketId) :
    (onStudentJoin clock io sid (.atom .undefined) = .error "TypeError" ∧
     onStudentHeartbeat clock io sid (.atom .undefined) = .error "TypeError" ∧
     onStudentVideo clock io sid (.atom .undefined) = .error "TypeError" ∧
     onIdVerificationResponse clock io sid (.atom .undefined) = .error "TypeError" ∧
     onReportSuspiciousActivity clock io sid (.atom .undefined) = .error "TypeError" ∧
     onRequestConnectionStatus clock io sid (.atom .undefined) = .error "TypeError") ∧
    (onStudentJoin clock io sid (.atom .null) = .error "TypeError" ∧
     onStudentHeartbeat clock io sid (.atom .null) = .error "TypeError" ∧
     onStudentVideo clock io sid (.atom .null) = .error "TypeError" ∧
     onIdVerificationResponse clock io sid (.atom .null) = .error "TypeError" ∧
     onReportSuspiciousActivity clock io sid (.atom .null) = .error "TypeError" ∧
     onRequestConnectionStatus clock io sid (.atom .null) = .error "TypeError") ∧
    run Io.init [.connection "s1", .event "s1" (.studentJoin (.atom .undefined)) tickClock]
      = .error "TypeError" ∧
    (onProctorJoin clock io sid (.atom .undefined) = .ok (io, []) ∧
     onProctorHeartbeat clock io sid (.atom .null) = .ok (io, [])) :=
  ⟨⟨rfl, rfl, rfl, rfl, rfl, rfl⟩, ⟨rfl, rfl, rfl, rfl, rfl, rfl⟩, rfl, rfl, rfl⟩

/-- Claim C22, evaluation at failing inputs. In a room with the proctor `s1`, the student `s2` sends
`id-verification-response` without `studentId`: `id-verification-result` with the student id
`undefined` is delivered to `s1`. It sends `student-video` without `studentId`:
`student-video-update` with the student id `undefined` is delivered to `s1`; without `examId`,
the event is emitted to the room named `undefined`. The listener of `request-id-verification`
does test its fields and emits to the sender only. -/
theorem incomplete_events_are_broadcast :
    onIdVerificationResponse tickClock proctorAndStudent "s2"
        (.record [("examId", .str "A"), ("verified", .bool true)])
      = .ok (proctorAndStudent,
          [⟨.roomExcept "A" "s2", "id-verification-result",
            [("studentId", .str "undefined"), ("verified", .bool true),
             ("timestamp", .str (tickClock 0)), ("verifiedBy", .str "s2")], ["s1"]⟩,
           ⟨.sender "s2", "verification-response-received",
            [("success", .bool true), ("verified", .bool true)], ["s2"]⟩]) ∧
    onStudentVideo tickClock proctorAndStudent "s2"
        (.record [("examId", .str "A"), ("videoData", .str "frame")])
      = .ok (proctorAndStudent,
          [⟨.roomExcept "A" "s2", "student-video-update",
            [("studentId", .str "undefined"), ("videoData", .str "frame"),
             ("timestamp", .str (tickClock 0))], ["s1"]⟩]) ∧
    onStudentVideo tickClock proctorAndStudent "s2"
        (.record [("studentId", .str "u2"), ("videoData", .str "frame")])
      = .ok (proctorAndStudent,
          [⟨.roomExcept "undefined" "s2", "student-video-update",
            [("studentId", .str "u2"), ("videoData", .str "frame"),
             ("timestamp", .str (tickClock 0))], []⟩]) ∧
    onRequestIdVerification tickClock proctorAndStudent "s1" (.record [("examId", .str "A")])
      = .ok (proctorAndStudent,
          [⟨.sender "s1", "verification-request-sent",
            [("studentId", .str "unknown"), ("examId", .str "A"),
             ("timestamp", .str (tickClock 0)), ("success", .bool false),
             ("error", .str "Missing required parameters")], ["s1"]⟩]) :=
  ⟨rfl, rfl, rfl, rfl⟩

/-- Claim C23, counterexample. The proctor `s1` and the student `s2` are members of room `A`, and
the student has also joined the room named `s1`, the socket id of the proctor. The valid
`request-id-verification` of `s1` for exam `A` is acknowledged with `success: true`, but its
`verify-id` is delivered to nobody, although `s2` is the rest of room `A`. With a student id
that does not convert to a string the listener throws: neither event is sent. -/
theorem verify_id_misses_crossed_member :
    stateAfter Io.init crossedBackInputs = some crossedBack ∧
    crossedBack.isMember "s2" "A" ∧ crossedBack.isMember "s2" "s1" ∧
    onRequestIdVerification tickClock crossedBack "s1"
        (.record [("studentId", .str "u2"), ("examId", .str "A")])
      = .ok (crossedBack,
          [⟨.roomExcept "A" "s1", "verify-id",
            [("studentId", .str "u2"), ("requestedBy", .str "s1"),
             ("timestamp", .str (tickClock 0))], []⟩,
           ⟨.sender "s1", "verification-request-sent",
            [("studentId", .str "u2"), ("examId", .str "A"),
             ("timestamp", .str (tickClock 0)), ("success", .bool true)], ["s1"]⟩]) ∧
    onRequestIdVerification tickClock crossedBack "s1"
        (.record [("studentId", .unprintable), ("examId", .str "A")])
      = .error "TypeError" :=
  ⟨by decide, by decide, by decide, rfl, rfl⟩

/-- Claim C23, amended. Handling `request-id-verification` on a payload whose fields can be read,
with a `studentId` S and an `examId` E that convert to strings. If S or E is missing or empty
(falsy), the listener returns with one emission, `verification-request-sent` to the sender with
`success: false` and the non-empty `error` `Missing required parameters`, and no `verify-id` is
emitted. If both are present, it emits `verify-id` with `studentId` String(S) through
`socket.to` to room String(E), delivered to the members of that room that are not members of
the room named by the socket id of the sender, then `verification-request-sent` to the sender
with `success: true` and the same `studentId` and timestamp. The state is left as it is in both
cases. -/
theorem request_id_verification_outcomes (clock : Nat → String) (io : Io) (sid : SocketId)
    (data : JsVal) (S E : JsAtom)
    (hS : data.getField "studentId" = .ok S) (hE : data.getField "examId" = .ok E)
    (hSp : S ≠ .unprintable) (hEp : E ≠ .unprintable) :
    (S.truthy = false ∨ E.truthy = false →
      onRequestIdVerification clock io sid data = .ok (io,
        [⟨.sender sid, "verification-request-sent",
          [("studentId", S.orElse (.str "unknown")), ("examId", E.orElse (.str "unknown")),
           ("timestamp", .str (clock 0)), ("success", .bool false),
           ("error", .str "Missing required parameters")], [sid]⟩]) ∧
      "Missing required parameters" ≠ "" ∧
      ∀ r, onRequestIdVerification clock io sid data = .ok r →
        ∀ m ∈ r.2, m.event ≠ "verify-id") ∧
    (S.truthy = true → E.truthy = true →
      ∃ s e, S.toJsString = .ok s ∧ E.toJsString = .ok e ∧
        onRequestIdVerification clock io sid data = .ok (io,
          [⟨.roomExcept e sid, "verify-id",
            [("studentId", .str s), ("requestedBy", .str sid),
             ("timestamp", .str (clock 0))],
            (io.members e).filter (fun x => x ∉ io.members sid)⟩,
           ⟨.sender sid, "verification-request-sent",
            [("studentId", .str s), ("examId", .str e),
             ("timestamp", .str (clock 0)), ("success", .bool true)], [sid]⟩]) ∧
        ∀ x, x ∈ (io.members e).filter (fun x => x ∉ io.members sid)
          ↔ (io.isMember x e ∧ ¬ io.isMember x sid)) := by
  constructor
  · intro h
    have heq := onRequestIdVerification_invalid clock io sid data S E hS hE h hSp hEp
    refine ⟨heq, by decide, ?_⟩
    intro r hr m hm
    rw [heq] at hr
    injection hr with hr
    rw [← hr] at hm
    simp only [List.mem_singleton] at hm
    rw [hm]
    show "verification-request-sent" ≠ "verify-id"
    decide
  · intro h1 h2
    obtain ⟨s, hs⟩ := toJsString_ok_of_ne hSp
    obtain ⟨e, he⟩ := toJsString_ok_of_ne hEp
    refine ⟨s, e, hs, he,
      onRequestIdVerification_valid clock io sid data S E s e hS hE h1 h2 hs he, ?_⟩
    intro x
    simp only [List.mem_filter, decide_eq_true_eq, mem_members_iff]

/-- Claim C24. For every string `E`, the listeners of `proctor-join` and of `proctor-heartbeat`
return the same state (metadata and memberships) and the same emissions, timestamps included,
on the bare value `E` as on an object whose field `examId` is `E`. For a non-empty `E` this
common result is not a drop: `proctor-join` returns, writes the metadata (proctor, `E`, null),
joins room `E` and ends with `proctor-join-ack`, and `proctor-heartbeat` returns and ends with
`heartbeat-ack`. -/
theorem proctor_bare_id_same_as_object (clock : Nat → String) (io : Io) (sid : SocketId)
    (E : String) (fields : List (String × JsAtom))
    (hE : fields.lookup "examId" = some (.str E)) :
    onProctorJoin clock io sid (.atom (.str E)) = onProctorJoin clock io sid (.record fields) ∧
    onProctorHeartbeat clock io sid (.atom (.str E))
      = onProctorHeartbeat clock io sid (.record fields) ∧
    (E ≠ "" →
      (∃ emits, onProctorJoin clock io sid (.atom (.str E))
          = .ok ((io.setMetadata sid ⟨some .proctor, some E, none⟩).join sid E, emits) ∧
        emits.getLast?
          = some ⟨.sender sid, "proctor-join-ack",
              [("success", .bool true), ("examId", .str E), ("socketId", .str sid)], [sid]⟩) ∧
      (∃ io' emits, onProctorHeartbeat clock io sid (.atom (.str E)) = .ok (io', emits) ∧
        emits.getLast?
          = some ⟨.sender sid, "heartbeat-ack",
              [("received", .bool true), ("timestamp", .str (clock 0))], [sid]⟩)) := by
  have h1 : proctorExamId (.atom (.str E)) = .str E := rfl
  have h2 : proctorExamId (.record fields) = .str E := by
    simp [proctorExamId, JsVal.isObject, JsVal.field, hE]
  refine ⟨?_, ?_, ?_⟩
  · unfold onProctorJoin; rw [h1, h2]
  · unfold onProctorHeartbeat; rw [h1, h2]
  · intro hne
    have ht : (proctorExamId (.atom (.str E))).truthy = true := by rw [h1]; exact str_truthy hne
    have hs : (proctorExamId (.atom (.str E))).toJsString = .ok E := rfl
    refine ⟨⟨_, onProctorJoin_valid clock io sid _ E ht hs, ?_⟩,
      onProctorHeartbeat_ack clock io sid _ E ht hs⟩
    simp [Io.emit, Io.recipients]

/-- Claim C25, counterexample. In room `A` with the proctor `s1` and the students `s2` and `s3`, the
`id-verification-result` and the `student-submitted-exam` caused by `s2` are delivered to `s1`
and to the student `s3`. Sent with the exam id `s4`, the id of a connection that never joined,
`student-submitted-exam` is delivered to `s4`, whose stored role is unset. -/
theorem verification_result_reaches_students :
    onIdVerificationResponse tickClock proctorAndTwoStudents "s2"
        (.record [("studentId", .str "u2"), ("examId", .str "A"), ("verified", .bool true)])
      = .ok (proctorAndTwoStudents,
          [⟨.roomExcept "A" "s2", "id-verification-result",
            [("studentId", .str "u2"), ("verified", .bool true),
             ("timestamp", .str (tickClock 0)), ("verifiedBy", .str "s2")], ["s1", "s3"]⟩,
           ⟨.sender "s2", "verification-response-received",
            [("success", .bool true), ("verified", .bool true)], ["s2"]⟩]) ∧
    onStudentSubmitExam tickClock proctorAndTwoStudents "s2"
        (.record [("examId", .str "A"), ("studentId", .str "u2")])
      = .ok (proctorAndTwoStudents,
          [⟨.roomExcept "A" "s2", "student-submitted-exam",
            [("studentId", .str "u2"), ("examId", .str "A"),
             ("timestamp", .str (tickClock 0))], ["s1", "s3"]⟩,
           ⟨.sender "s2", "exam-submission-received",
            [("success", .bool true), ("timestamp", .str (tickClock 0))], ["s2"]⟩]) ∧
    proctorAndTwoStudents.metadataOf "s3" = some ⟨some .student, some "A", some "u3"⟩ ∧
    onStudentSubmitExam tickClock proctorAndTwoStudents "s2"
        (.record [("examId", .str "s4"), ("studentId", .str "u2")])
      = .ok (proctorAndTwoStudents,
          [⟨.roomExcept "s4" "s2", "student-submitted-exam",
            [("studentId", .str "u2"), ("examId", .str "s4"),
             ("timestamp", .str (tickClock 0))], ["s4"]⟩,
           ⟨.sender "s2", "exam-submission-received",
            [("success", .bool true), ("timestamp", .str (tickClock 0))], ["s2"]⟩]) ∧
    proctorAndTwoStudents.metadataOf "s4" = some ⟨none, none, none⟩ :=
  ⟨rfl, rfl, rfl, rfl, rfl⟩

/-- Claim C25, amended. On a payload whose fields can be read, with an exam id and a student id
that convert to the strings `e` and `s`, the listeners of `id-verification-response` and of
`student-submit-exam` emit `id-verification-result`, resp. `student-submitted-exam`, through
`socket.to` to room `e`: a connection receives the event exactly when it is a member of that
room and not a member of the room named by the socket id of the sender, whatever its stored
role. In a reachable state the sender, an open connection, is not among them. The sender
receives the acknowledgment and the state is left as it is. -/
theorem room_events_reach_by_membership (clock : Nat → String) (io : Io)
    (sid : SocketId) (data : JsVal) (S E V : JsAtom) (s e : String)
    (hS : data.getField "studentId" = .ok S) (hE : data.getField "examId" = .ok E)
    (hV : data.getField "verified" = .ok V)
    (hs : S.toJsString = .ok s) (he : E.toJsString = .ok e) :
    onIdVerificationResponse clock io sid data = .ok (io,
      [⟨.roomExcept e sid, "id-verification-result",
        [("studentId", .str s), ("verified", V), ("timestamp", .str (clock 0)),
         ("verifiedBy", .str sid)],
        (io.members e).filter (fun x => x ∉ io.members sid)⟩,
       ⟨.sender sid, "verification-response-received",
        [("success", .bool true), ("verified", V)], [sid]⟩]) ∧
    onStudentSubmitExam clock io sid data = .ok (io,
      [⟨.roomExcept e sid, "student-submitted-exam",
        [("studentId", .str s), ("examId", .str e),
         ("timestamp", .str (clock 0))],
        (io.members e).filter (fun x => x ∉ io.members sid)⟩,
       ⟨.sender sid, "exam-submission-received",
        [("success", .bool true), ("timestamp", .str (clock 0))], [sid]⟩]) ∧
    (∀ x, x ∈ (io.members e).filter (fun x => x ∉ io.members sid)
      ↔ (io.isMember x e ∧ ¬ io.isMember x sid)) ∧
    (Reachable io → (io.getSocket sid).isSome = true →
      sid ∉ (io.members e).filter (fun x => x ∉ io.members sid)) := by
  refine ⟨?_, ?_, ?_, ?_⟩
  · exact onIdVerificationResponse_valid clock io sid data E S V e s hS hE hV he hs
  · exact onStudentSubmitExam_valid clock io sid data E S e s hS hE he hs
  · intro x
    simp only [List.mem_filter, decide_eq_true_eq, mem_members_iff]
  · intro hreach hopen
    exact sender_not_reached (inv_of_reachable hreach) hopen e

/-- Claim C28. In every reachable state, for every open connection with stored metadata `m`: if the
exam id of `m` is `E` (not null), the connection is a member of room `E`; if the role is
student, the exam id and the user id are not null; if the role is proctor, the exam id is not
null and the user id is null; if the role is unset, the exam id and the user id are null. -/
theorem reachable_metadata_consistent (io : Io) (h : Reachable io) (sid : SocketId)
    (m : Metadata) (hm : io.metadataOf sid = some m) :
    (∀ E, m.examId = some E → io.isMember sid E) ∧
    (m.type = some .student → m.examId.isSome = true ∧ m.userId.isSome = true) ∧
    (m.type = some .proctor → m.examId.isSome = true ∧ m.userId = none) ∧
    (m.type = none → m.examId = none ∧ m.userId = none) := by
  have hinv := inv_of_reachable h
  unfold Io.metadataOf at hm
  cases hs : io.getSocket sid with
  | none => rw [hs] at hm; exact Option.noConfusion hm
  | some s =>
    rw [hs] at hm
    simp only [Option.map_some'] at hm
    injection hm with hm
    have hmem := getSocket_some_mem hs
    have hid := getSocket_some_id hs
    have hroom := hinv.metaRoom s hmem
    have hshape := hinv.shape s hmem
    rw [hm] at hroom hshape
    rw [hid] at hroom
    refine ⟨hroom, ?_, ?_, ?_⟩
    · intro ht
      unfold Metadata.wellFormed at hshape
      rw [ht] at hshape
      exact hshape
    · intro ht
      unfold Metadata.wellFormed at hshape
      rw [ht] at hshape
      exact hshape
    · intro ht
      unfold Metadata.wellFormed at hshape
      rw [ht] at hshape
      exact hshape

/-! ## The status route and the middleware `authorize` -/

/-- The strings that stand for a status are those of `validStatuses`. -/
theorem ofString_isSome_iff (s : String) :
    (Status.ofString s).isSome = true ↔ s ∈ validStatuses := by
  unfold Status.ofString validStatuses
  split <;> simp_all

theorem ofString_ne_empty {s : String} {requested : Status}
    (h : Status.ofString s = some requested) : s ≠ "" := by
  intro he
  rw [he] at h
  have h0 : Status.ofString "" = none := by decide
  rw [h0] at h
  exact Option.noConfusion h

/-- A response of the status route other than 200 leaves the stored exams as they are. -/
theorem patchStatus_rejected (env : StatusEnv) (exams : List Exam) (id : String) (body : JsVal)
    (h : (patchStatus env exams id body).1.status ≠ 200) :
    (patchStatus env exams id body).2 = exams := by
  by_cases hgoal : (patchStatus env exams id body).2 = exams
  · exact hgoal
  · exfalso
    apply h
    unfold patchStatus at hgoal ⊢
    repeat' split
    all_goals first
      | rfl
      | (exfalso; apply hgoal; simp_all)

/-- Claim C26, counterexample. `PATCH /api/exams/:id/status` with the status `scheduled` on the
completed exam `e5` answers 200 and stores `scheduled`; with the status `in-progress` on the
cancelled exam `e6` it answers 200 and stores `in-progress`. -/
theorem completed_exam_is_rescheduled :
    patchStatus calmEnv archivedStore "e5" (.record [("status", .str "scheduled")])
      = (⟨200, true, "Exam status updated to scheduled", none,
          some ⟨"e5", "History", .scheduled, 0, 900⟩⟩,
         [⟨"e5", "History", .scheduled, 0, 900⟩, ⟨"e6", "Physics", .cancelled, 0, 900⟩]) ∧
    patchStatus calmEnv archivedStore "e6" (.record [("status", .str "in-progress")])
      = (⟨200, true, "Exam status updated to in-progress", none,
          some ⟨"e6", "Physics", .inProgress, 0, 900⟩⟩,
         [⟨"e5", "History", .completed, 0, 900⟩, ⟨"e6", "Physics", .inProgress, 0, 900⟩]) :=
  ⟨by decide, by decide⟩

/-- Claim C26, amended. When the body of `PATCH /api/exams/:id/status` carries one of the four valid
statuses, the exam exists and no storage operation rejects, the route answers 200 and the
stored exam takes the requested status, whatever its status was, completed and cancelled
included. Whenever the route answers with another status code, the stored exams are left as
they are. -/
theorem patchStatus_sets_any_valid_status (env : StatusEnv) (exams : List Exam) (id : String)
    (body : JsVal) (s : String) (requested : Status) (exam : Exam)
    (hbody : body.getField "status" = .ok (.str s))
    (hvalid : Status.ofString s = some requested)
    (hfind : env.findError = none) (hsave : env.saveError = none)
    (hexam : exams.find? (fun e => e._id = id) = some exam) :
    patchStatus env exams id body
      = (⟨200, true, "Exam status updated to " ++ s, none,
          some { exam with status := requested }⟩,
         save exams { exam with status := requested }) ∧
    ({ exam with status := requested } : Exam) ∈ (patchStatus env exams id body).2 ∧
    ∀ body', (patchStatus env exams id body').1.status ≠ 200 →
      (patchStatus env exams id body').2 = exams := by
  have ht : (JsAtom.str s).truthy = true := by
    simp [JsAtom.truthy, ofString_ne_empty hvalid]
  have heq : patchStatus env exams id body
      = (⟨200, true, "Exam status updated to " ++ s, none,
          some { exam with status := requested }⟩,
         save exams { exam with status := requested }) := by
    simp only [patchStatus, hbody, ht, Bool.not_true, Bool.false_eq_true, if_false, hvalid,
      hfind, hsave, hexam]
  refine ⟨heq, ?_, fun body' => patchStatus_rejected env exams id body'⟩
  rw [heq]
  unfold save
  exact List.mem_map.2 ⟨exam, List.mem_of_find?_eq_some hexam, by simp⟩

/-- Claim C27. The middleware `authorize(...roles)` calls `next()` exactly when `req.user` is present
and its role is one of `roles`. When `req.user` is absent it answers 500 with `success: false`;
when `req.user` is present with a role outside `roles` it answers 403 with `success: false`
and a message naming the role; in neither case is `next()` called. -/
theorem authorize_outcomes (roles : List String) (user : Option User) :
    (authorize roles user = .next ↔ ∃ u, user = some u ∧ ∃ r ∈ roles, u.role = .str r) ∧
    (user = none →
      authorize roles user = .respond 500 false "User not authenticated properly") ∧
    (∀ u, user = some u → (¬ ∃ r ∈ roles, u.role = .str r) →
      authorize roles user = .respond 403 false
        ("User role " ++ u.role.image u.printable
          ++ " is not authorized to access this route")) := by
  have hany : ∀ u : User, roles.any (fun r => decide (u.role = .str r)) = true ↔
      ∃ r ∈ roles, u.role = .str r := by
    intro u; simp [List.any_eq_true]
  refine ⟨?_, ?_, ?_⟩
  · cases user with
    | none => simp [authorize]
    | some u =>
      by_cases h : roles.any (fun r => decide (u.role = .str r)) = true
      · have h2 := (hany u).1 h
        simp only [authorize, h, Bool.not_true, Bool.false_eq_true, if_false, true_iff]
        exact ⟨u, rfl, h2⟩
      · have h2 : ¬ ∃ r ∈ roles, u.role = .str r := fun hx => h ((hany u).2 hx)
        have h3 : roles.any (fun r => decide (u.role = .str r)) = false := by
          simpa using h
        simp only [authorize, h3, Bool.not_false, if_true]
        constructor
        · intro hc; exact Handled.noConfusion hc
        · rintro ⟨u', hu', hx⟩
          injection hu' with hu'
          rw [← hu'] at hx
          exact absurd hx h2
  · intro h; rw [h]; rfl
  · intro u hu hno
    have h3 : roles.any (fun r => decide (u.role = .str r)) = false := by
      cases hc : roles.any (fun r => decide (u.role = .str r)) with
      | false => rfl
      | true => exact absurd ((hany u).1 hc) hno
    rw [hu]
    simp only [authorize, h3, Bool.not_false, if_true]

/-! ## Instances on the sample data -/

/-- Claim C1 on the sample documents at time 1000. -/
theorem checkExamSchedules_starts_exactly_due_witness :
    (sampleStore.map (fun e => e._id)).Nodup ∧
    (checkExamSchedules Faults.none tickClock sampleRooms 1000 sampleStore).failed = false ∧
    (checkExamSchedules Faults.none tickClock sampleRooms 1000 sampleStore).emits.filter
        (fun m => m.event = "exam-started")
      = ((sampleStore.filter
          (fun e => e.status = .scheduled ∧ e.startTime ≤ 1000 ∧ 1000 < e.endTime)).enum).map
          (fun p => sampleRooms.emit (.room p.2._id) "exam-started"
            [("examId", .str p.2._id), ("title", .str p.2.title),
             ("message", .str ("The exam \"" ++ p.2.title ++ "\" has " ++ "started" ++ "!")),
             ("timestamp", .str (tickClock p.1))]) :=
  ⟨by decide, by decide,
    (checkExamSchedules_starts_exactly_due Faults.none tickClock sampleRooms 1000 sampleStore
      (by decide) (by decide)).2⟩

/-- Claim C2 on the sample documents at time 1000. -/
theorem checkExamSchedules_ends_exactly_due_witness :
    (sampleStore.map (fun e => e._id)).Nodup ∧
    (checkExamSchedules Faults.none tickClock sampleRooms 1000 sampleStore).failed = false ∧
    (checkExamSchedules Faults.none tickClock sampleRooms 1000 sampleStore).emits.filter
        (fun m => m.event = "exam-ended")
      = ((sampleStore.filter (fun e => e.status = .inProgress ∧ e.endTime ≤ 1000)).enumFrom
          (sampleStore.filter
            (fun e => e.status = .scheduled ∧ e.startTime ≤ 1000 ∧ 1000 < e.endTime)).length).map
          (fun p => sampleRooms.emit (.room p.2._id) "exam-ended"
            [("examId", .str p.2._id), ("title", .str p.2.title),
             ("message", .str ("The exam \"" ++ p.2.title ++ "\" has " ++ "ended" ++ "!")),
             ("timestamp", .str (tickClock p.1))]) :=
  ⟨by decide, by decide,
    (checkExamSchedules_ends_exactly_due Faults.none tickClock sampleRooms 1000 sampleStore
      (by decide) (by decide)).2⟩

/-- Claim C3 on the sample documents at time 1000. -/
theorem checkExamSchedules_idempotent_witness :
    (sampleStore.map (fun e => e._id)).Nodup ∧
    (checkExamSchedules Faults.none tickClock sampleRooms 1000 sampleStore).failed = false ∧
    (checkExamSchedules Faults.none tickClock sampleRooms 1000
        (checkExamSchedules Faults.none tickClock sampleRooms 1000 sampleStore).store).store
      = (checkExamSchedules Faults.none tickClock sampleRooms 1000 sampleStore).store ∧
    (checkExamSchedules Faults.none tickClock sampleRooms 1000
        (checkExamSchedules Faults.none tickClock sampleRooms 1000 sampleStore).store).emits = [] :=
  ⟨by decide, by decide,
    (checkExamSchedules_idempotent Faults.none Faults.none tickClock tickClock sampleRooms
      sampleRooms 1000 sampleStore (by decide) (by decide)).1,
    (checkExamSchedules_idempotent Faults.none Faults.none tickClock tickClock sampleRooms
      sampleRooms 1000 sampleStore (by decide) (by decide)).2.1⟩

/-- Claim C4 on the sample documents, for three cycles at times 1000, 1000 and 2000. -/
theorem runCycles_fires_each_transition_once_witness :
    (sampleStore.map (fun e => e._id)).Nodup ∧
    (runCycles [sampleTick 1000, sampleTick 1000, sampleTick 2000] sampleStore).failed = false ∧
    countTo "exam-ended" "e2"
      (runCycles [sampleTick 1000, sampleTick 1000, sampleTick 2000] sampleStore).emits = 1 ∧
    (⟨"e2", "Logic", .completed, 0, 900⟩ : Exam) ∈
      (runCycles [sampleTick 1000, sampleTick 1000, sampleTick 2000] sampleStore).store :=
  ⟨by decide, by decide,
    (runCycles_fires_each_transition_once
      [sampleTick 1000, sampleTick 1000, sampleTick 2000] sampleStore (by decide) (by decide)).2
      ⟨"e2", "Logic", .inProgress, 0, 900⟩ (by decide) rfl (List.cons_ne_nil _ _) (by decide)⟩

/-- Claim C5 on the sample documents: the exam of zero duration stays scheduled. -/
theorem checkExamSchedules_zero_duration_never_starts_witness :
    (sampleStore.map (fun e => e._id)).Nodup ∧
    (⟨"e4", "Zero", .scheduled, 1000, 1000⟩ : Exam) ∈
      (checkExamSchedules Faults.none tickClock sampleRooms 1000 sampleStore).store :=
  ⟨by decide,
    (checkExamSchedules_zero_duration_never_starts Faults.none tickClock sampleRooms 1000
      sampleStore (by decide) ⟨"e4", "Zero", .scheduled, 1000, 1000⟩ (by decide) rfl rfl).2.1⟩

/-- The sample state `oneOpen` is reachable. -/
theorem reachable_oneOpen : Reachable oneOpen := ⟨[.connection "s1"], [], rfl⟩

/-- The sample state `proctorAndGuest` is reachable. -/
theorem reachable_proctorAndGuest : Reachable proctorAndGuest :=
  ⟨proctorAndGuestInputs, emitsAfter Io.init proctorAndGuestInputs, rfl⟩

/-- The sample state `twoRooms` is reachable. -/
theorem reachable_twoRooms : Reachable twoRooms :=
  ⟨rejoinInputs, emitsAfter Io.init rejoinInputs, rfl⟩

/-- Claim C6, amended, on a connection that joins exam A and then exam B. -/
theorem joins_add_rooms_never_remove_witness :
    Reachable oneOpen ∧
    run oneOpen (onConnection "s1"
        [(.proctorJoin (.atom (.str "A")), tickClock),
         (.proctorJoin (.record [("examId", .str "B")]), tickClock)])
      = .ok (twoRooms, emitsAfter Io.init rejoinInputs) ∧
    (∀ m E, twoRooms.metadataOf "s1" = some m → m.examId = some E → twoRooms.isMember "s1" E) :=
  ⟨reachable_oneOpen, rfl,
    (joins_add_rooms_never_remove oneOpen reachable_oneOpen "s1"
      [(.proctorJoin (.atom (.str "A")), tickClock),
       (.proctorJoin (.record [("examId", .str "B")]), tickClock)]
      (by decide) twoRooms (emitsAfter Io.init rejoinInputs) rfl).2.2⟩

/-- Claim C7, amended, on a proctor of exam A that heartbeats into exam B. -/
theorem proctor_heartbeat_joins_new_room_witness :
    Reachable proctorAndGuest ∧ proctorAndGuest.isMember "s1" "A" ∧
    (proctorExamId (.atom (.str "B"))).truthy = true ∧
    (proctorExamId (.atom (.str "B"))).toJsString = .ok "B" ∧
    ∃ io' emits,
      onProctorHeartbeat tickClock proctorAndGuest "s1" (.atom (.str "B")) = .ok (io', emits) ∧
      io'.isMember "s1" "B" ∧
      io'.isMember "s1" "A" ∧
      (io'.metadataOf "s1").map (fun m => (m.type, m.examId))
        = some (some .proctor, some "B") :=
  ⟨reachable_proctorAndGuest, by decide, by decide, rfl,
    proctor_heartbeat_joins_new_room tickClock proctorAndGuest reachable_proctorAndGuest "s1"
      "A" (by decide) (.atom (.str "B")) "B" (by decide) rfl⟩

/-- Claim C8, amended, on the state reached by joining exam A and then exam B. -/
theorem getRoomMembers_entries_witness :
    Reachable twoRooms ∧
    ∀ p ∈ (getRoomMembers twoRooms "A").proctors,
      twoRooms.isMember p.socketId "A" ∧
      (twoRooms.metadataOf p.socketId).map (fun m => (m.type, m.examId))
        = some (some .proctor, p.examId) ∧
      ∃ E', p.examId = some E' ∧ twoRooms.isMember p.socketId E' :=
  ⟨reachable_twoRooms, (getRoomMembers_entries twoRooms reachable_twoRooms "A").1⟩

/-- Claim C9, amended, on a second connection that heartbeats into exam A before joining,
with the number 7 as student id. -/
theorem first_heartbeat_joins_room_witness :
    Reachable proctorAndGuest ∧
    proctorAndGuest.metadataOf "s2" = some ⟨none, none, none⟩ ∧
    (JsAtom.num ⟨7, by decide⟩).toJsString = .ok "7" ∧
    ∃ io' emits,
      onStudentHeartbeat tickClock proctorAndGuest "s2"
        (.record [("examId", .str "A"), ("studentId", .num ⟨7, by decide⟩)])
          = .ok (io', emits) ∧
      io'.metadataOf "s2" = some ⟨some .student, some "A", some "7"⟩ ∧
      io'.isMember "s2" "A" ∧
      (∀ (other : SocketId) (event : String) (payload : List (String × JsAtom)),
        other ≠ "s2" →
          ("s2" ∈ (io'.emit (.roomExcept "A" other) event payload).recipients ↔ other ≠ "A") ∧
          "s2" ∈ (io'.emit (.room "A") event payload).recipients) ∧
      ∀ io'' : Io, (∀ x r, io'.isMember x r → io''.isMember x r) →
        ∀ (other : SocketId) (event : String) (payload : List (String × JsAtom)),
          ("s2" ∈ (io''.emit (.roomExcept "A" other) event payload).recipients
            ↔ ¬ io''.isMember "s2" other) ∧
          "s2" ∈ (io''.emit (.room "A") event payload).recipients :=
  ⟨reachable_proctorAndGuest, by decide, rfl,
    first_heartbeat_joins_room tickClock proctorAndGuest reachable_proctorAndGuest "s2"
      (by decide)
      (.record [("examId", .str "A"), ("studentId", .num ⟨7, by decide⟩)]) (.str "A")
      (.num ⟨7, by decide⟩) "A" "7" rfl rfl (by decide) (by decide) rfl rfl⟩

/-- Claim C10 on a proctor that disconnects before a student joins the same exam. -/
theorem disconnected_never_listed_witness :
    (twoRooms.getSocket "s1").isSome = true ∧
    run twoRooms [.event "s1" (.disconnect "transport close") tickClock, .connection "s2",
        .event "s2" (.studentJoin (.record [("examId", .str "A"), ("studentId", .str "u2")]))
          tickClock]
      = .ok (⟨[⟨"s2", ⟨some .student, some "A", some "u2"⟩⟩], [("s2", "s2"), ("A", "s2")]⟩,
          emitsAfter twoRooms [.event "s1" (.disconnect "transport close") tickClock,
            .connection "s2",
            .event "s2" (.studentJoin (.record [("examId", .str "A"), ("studentId", .str "u2")]))
              tickClock]) ∧
    ∀ E, ¬ Io.isMember ⟨[⟨"s2", ⟨some .student, some "A", some "u2"⟩⟩],
        [("s2", "s2"), ("A", "s2")]⟩ "s1" E ∧
      (∀ p ∈ (getRoomMembers ⟨[⟨"s2", ⟨some .student, some "A", some "u2"⟩⟩],
        [("s2", "s2"), ("A", "s2")]⟩ E).proctors, p.socketId ≠ "s1") ∧
      (∀ q ∈ (getRoomMembers ⟨[⟨"s2", ⟨some .student, some "A", some "u2"⟩⟩],
        [("s2", "s2"), ("A", "s2")]⟩ E).students, q.socketId ≠ "s1") :=
  ⟨by decide, rfl,
    (disconnected_never_listed twoRooms "s1" (by decide) "transport close" tickClock
      [.connection "s2",
       .event "s2" (.studentJoin (.record [("examId", .str "A"), ("studentId", .str "u2")]))
         tickClock]
      (by decide) ⟨[⟨"s2", ⟨some .student, some "A", some "u2"⟩⟩], [("s2", "s2"), ("A", "s2")]⟩
      (emitsAfter twoRooms [.event "s1" (.disconnect "transport close") tickClock,
        .connection "s2",
        .event "s2" (.studentJoin (.record [("examId", .str "A"), ("studentId", .str "u2")]))
          tickClock]) rfl).2⟩

/-- Claim C11 on the sample documents at time 1000, when the first save rejects. -/
theorem rejected_save_skips_and_retries_witness :
    (sampleStore.map (fun e => e._id)).Nodup ∧
    sampleStore.filter (startDue 1000) = [] ++ ⟨"e1", "Algebra", .scheduled, 1000, 61000⟩ :: [] ∧
    firstSaveRejects.saveFails 0 = true ∧
    (checkExamSchedules firstSaveRejects tickClock sampleRooms 1000 sampleStore).failed = true ∧
    (∀ m ∈ (checkExamSchedules firstSaveRejects tickClock sampleRooms 1000 sampleStore).emits,
      m.dest ≠ .room "e1") ∧
    (⟨"e1", "Algebra", .scheduled, 1000, 61000⟩ : Exam) ∈
      (checkExamSchedules firstSaveRejects tickClock sampleRooms 1000 sampleStore).store :=
  ⟨by decide, by decide, rfl,
    ((rejected_save_skips_and_retries firstSaveRejects tickClock sampleRooms 1000 sampleStore
      (by decide) [] [] ⟨"e1", "Algebra", .scheduled, 1000, 61000⟩).1 rfl (by decide)
      (fun i hi => absurd hi (Nat.not_lt_zero i)) rfl).1,
    ((rejected_save_skips_and_retries firstSaveRejects tickClock sampleRooms 1000 sampleStore
      (by decide) [] [] ⟨"e1", "Algebra", .scheduled, 1000, 61000⟩).1 rfl (by decide)
      (fun i hi => absurd hi (Nat.not_lt_zero i)) rfl).2.1,
    ((rejected_save_skips_and_retries firstSaveRejects tickClock sampleRooms 1000 sampleStore
      (by decide) [] [] ⟨"e1", "Algebra", .scheduled, 1000, 61000⟩).1 rfl (by decide)
      (fun i hi => absurd hi (Nat.not_lt_zero i)) rfl).2.2.1⟩

/-- Claim C12 on the sample documents at time 1000. -/
theorem checkExamSchedules_only_forward_witness :
    (sampleStore.map (fun e => e._id)).Nodup ∧
    List.Forall₂
      (fun e e' => e'._id = e._id ∧ e'.title = e.title ∧
        e'.startTime = e.startTime ∧ e'.endTime = e.endTime ∧
        (e'.status = e.status ∨
          (e.status = .scheduled ∧ e'.status = .inProgress) ∨
          (e.status = .inProgress ∧ e'.status = .completed)) ∧
        (e'.status ≠ e.status → e'.status ≠ .cancelled ∧ e'.status ≠ .scheduled) ∧
        (e.status = .completed ∨ e.status = .cancelled → e' = e))
      sampleStore (checkExamSchedules Faults.none tickClock sampleRooms 1000 sampleStore).store :=
  ⟨by decide,
    checkExamSchedules_only_forward Faults.none tickClock sampleRooms 1000 sampleStore
      (by decide)⟩

/-- The sample state `proctorAndStudent` is reachable. -/
theorem reachable_proctorAndStudent : Reachable proctorAndStudent :=
  ⟨proctorAndStudentInputs, emitsAfter Io.init proctorAndStudentInputs, rfl⟩

/-- Claim C14 on a proctor that heartbeats into a room with one student. -/
theorem proctor_heartbeat_status_update_witness :
    Reachable proctorAndStudent ∧
    (proctorExamId (.atom (.str "A"))).truthy = true ∧
    (proctorExamId (.atom (.str "A"))).toJsString = .ok "A" ∧
    ∃ io' emits,
      onProctorHeartbeat tickClock proctorAndStudent "s1" (.atom (.str "A")) = .ok (io', emits) ∧
      (0 < (getRoomMembers io' "A").students.length →
        emits =
          [⟨.room "A", "proctor-status-update",
            [("examId", .str "A"), ("connected", .bool true),
             ("proctorId", .str "s1"), ("timestamp", .str (tickClock 0))],
            io'.members "A"⟩,
           ⟨.sender "s1", "heartbeat-ack",
            [("received", .bool true), ("timestamp", .str (tickClock 0))], ["s1"]⟩] ∧
        "s1" ∈ io'.members "A") ∧
      ((getRoomMembers io' "A").students.length = 0 →
        emits =
          [⟨.sender "s1", "heartbeat-ack",
            [("received", .bool true), ("timestamp", .str (tickClock 0))], ["s1"]⟩] ∧
        ∀ m ∈ emits, m.event ≠ "proctor-status-update") :=
  ⟨reachable_proctorAndStudent, by decide, rfl,
    proctor_heartbeat_status_update tickClock proctorAndStudent reachable_proctorAndStudent
      "s1" (.atom (.str "A")) "A" (by decide) rfl⟩

/-- The sample state `crossed` is reachable. -/
theorem reachable_crossed : Reachable crossed :=
  ⟨crossedInputs, emitsAfter Io.init crossedInputs, rfl⟩

/-- Claim C15, amended, on the student of the sample state `crossed`, whose proctor has
joined the room named by the id of the student. -/
theorem student_heartbeat_reaches_others_witness :
    Reachable crossed ∧ (crossed.getSocket "s2").isSome = true ∧
    (JsVal.record [("examId", .str "A"), ("studentId", .str "u2")]).getField "examId"
      = .ok (.str "A") ∧
    ∃ (io' : Io) (reached : List SocketId),
      onStudentHeartbeat tickClock crossed "s2"
          (.record [("examId", .str "A"), ("studentId", .str "u2")]) = .ok (io',
        [⟨.roomExcept "A" "s2", "student-online",
          [("studentId", .str "u2"), ("socketId", .str "s2"),
           ("timestamp", .str (tickClock 0))], reached⟩]) ∧
      (∀ x, x ∈ reached ↔ io'.isMember x "A" ∧ ¬ io'.isMember x "s2") ∧
      "s2" ∉ reached ∧
      (∀ x, x ≠ "s2" → (x ∈ reached ↔ crossed.isMember x "A" ∧ ¬ crossed.isMember x "s2")) :=
  ⟨reachable_crossed, by decide, rfl,
    student_heartbeat_reaches_others tickClock crossed reachable_crossed "s2" (by decide)
      (.record [("examId", .str "A"), ("studentId", .str "u2")]) (.str "A") (.str "u2")
      "A" "u2" rfl rfl (by decide) (by decide) rfl rfl⟩

/-- Claim C16, amended, on the disconnect of the student of the sample rooms. -/
theorem disconnect_broadcasts_for_students_only_witness :
    sampleRooms.getSocket "s1" = some ⟨"s1", ⟨some .student, some "e1", some "u1"⟩⟩ ∧
    ∃ emits, handle tickClock sampleRooms "s1" (.disconnect "transport close")
        = .ok (sampleRooms.teardown "s1", emits) ∧
      (∀ E U, (⟨some .student, some "e1", some "u1"⟩ : Metadata) = ⟨some .student, some E, some U⟩ →
        E ≠ "" → U ≠ "" →
        emits = [⟨.roomExcept E "s1", "student-disconnected",
          [("studentId", .str U), ("socketId", .str "s1"), ("reason", .str "transport close"),
           ("timestamp", .str (tickClock 0))],
          ((sampleRooms.teardown "s1").members E).filter
            (fun x => x ∉ (sampleRooms.teardown "s1").members "s1")⟩] ∧
        ∀ x, x ∈ ((sampleRooms.teardown "s1").members E).filter
              (fun x => x ∉ (sampleRooms.teardown "s1").members "s1")
          ↔ (sampleRooms.isMember x E ∧ ¬ sampleRooms.isMember x "s1" ∧ x ≠ "s1")) :=
  ⟨by decide,
    (disconnect_broadcasts_for_students_only tickClock sampleRooms "s1"
      ⟨"s1", ⟨some .student, some "e1", some "u1"⟩⟩ "transport close" (by decide)).elim
      (fun emits h => ⟨emits, h.1, h.2.1⟩)⟩

/-- Claim C17 on a `proctor-join` with an empty exam id and a `student-join` without
student id. -/
theorem malformed_join_is_dropped_witness :
    onProctorJoin tickClock oneOpen "s1" (.atom (.str "")) = .ok (oneOpen, []) ∧
    onStudentJoin tickClock oneOpen "s1" (.record [("examId", .str "A")]) = .ok (oneOpen, []) :=
  ⟨(malformed_join_is_dropped tickClock oneOpen "s1").1 (.atom (.str "")) (Or.inr (Or.inr rfl)),
    (malformed_join_is_dropped tickClock oneOpen "s1").2 [("examId", .str "A")]
      (Or.inr (Or.inr (Or.inr (Or.inl rfl))))⟩

/-- Claim C18, amended, on a report of `multiple_faces` sent to the route. -/
theorem report_description_defaults_witness :
    descriptions.lookup "multiple_faces" = some "Multiple faces detected" ∧
    postIncident sampleEnv sampleServer.exams [] sampleExamId sampleProctorId sampleBody =
      (⟨201, true, none, none,
        some ⟨sampleExamId, .str sampleStudentId, sampleProctorId, "multiple_faces", "",
          sampleEnv.now, false⟩⟩,
       [] ++ [⟨sampleExamId, .str sampleStudentId, sampleProctorId, "multiple_faces", "",
          sampleEnv.now, false⟩]) :=
  ⟨by decide,
    (report_description_defaults "multiple_faces" "Multiple faces detected" (by decide)).2
      sampleEnv sampleServer.exams [] sampleExamId sampleProctorId sampleBody
      ⟨sampleExamId, "Algebra", .inProgress, 0, 9000⟩ (.str sampleStudentId) .undefined
      (by decide) rfl rfl (by decide) rfl rfl rfl (by decide) (by decide) rfl⟩

/-- Claim C19, amended, on a report sent to the route while the insertion rejects, and on a
report sent on the socket whose student id does not convert to a string. -/
theorem report_event_persists_nothing_witness :
    Server.onPostIncident rejectingEnv sampleServer sampleExamId sampleProctorId sampleBody =
      (⟨500, false, some "Error creating incident", some "connection lost", none⟩,
        sampleServer) ∧
    ∃ before, Server.onEvent tickClock sampleServer "s1"
        (.reportSuspiciousActivity unprintableReport) = .ok (sampleServer,
        before ++ [⟨.sender "s1", "incident-report-sent",
          [("success", .bool false), ("error", .str conversionMessage)], ["s1"]⟩]) ∧
      (∀ m ∈ before, m.event = "suspicious-activity") ∧
      (JsAtom.unprintable = .unprintable ∨ JsAtom.str sampleExamId = .unprintable →
        before = []) :=
  ⟨report_event_persists_nothing.2.2.2 rejectingEnv sampleServer sampleExamId sampleProctorId
    sampleBody ⟨sampleExamId, "Algebra", .inProgress, 0, 9000⟩ (.str sampleStudentId)
    (.str "multiple_faces") .undefined ⟨"", "connection lost"⟩
    (by decide) rfl (by decide) rfl rfl rfl (by decide) (by decide) (by decide) rfl,
   report_event_persists_nothing.2.2.1 tickClock sampleServer "s1" unprintableReport
    .unprintable (.str sampleExamId) (.str "other") rfl rfl rfl (by decide) (by decide)
    (by decide) (Or.inl rfl)⟩

/-- Claim C20, amended, on the acknowledgment of a `proctor-join` and on the acknowledgment of
a report whose student id does not convert to a string. -/
theorem acknowledgment_fields_witness :
    handle tickClock oneOpen "s1" (.proctorJoin (.atom (.str "A")))
      = .ok (⟨[⟨"s1", ⟨some .proctor, some "A", none⟩⟩], [("s1", "s1"), ("A", "s1")]⟩,
          [⟨.roomExcept "A" "s1", "proctor-connected",
            [("socketId", .str "s1"), ("timestamp", .str (tickClock 0))], []⟩,
           ⟨.room "A", "proctor-status-update",
            [("examId", .str "A"), ("connected", .bool true), ("proctorId", .str "s1"),
             ("timestamp", .str (tickClock 1))], ["s1"]⟩,
           ⟨.sender "s1", "proctor-join-ack",
            [("success", .bool true), ("examId", .str "A"), ("socketId", .str "s1")],
            ["s1"]⟩]) ∧
    Emit.field ⟨.sender "s1", "proctor-join-ack",
        [("success", .bool true), ("examId", .str "A"), ("socketId", .str "s1")], ["s1"]⟩
      "success" = some (.bool true) ∧
    Emit.field ⟨.sender "s1", "proctor-join-ack",
        [("success", .bool true), ("examId", .str "A"), ("socketId", .str "s1")], ["s1"]⟩
      "timestamp" = none ∧
    handle tickClock sampleServer.io "s1" (.reportSuspiciousActivity unprintableReport)
      = .ok (sampleServer.io,
          [⟨.sender "s1", "incident-report-sent",
            [("success", .bool false), ("error", .str conversionMessage)], ["s1"]⟩]) ∧
    (Emit.field ⟨.sender "s1", "incident-report-sent",
        [("success", .bool false), ("error", .str conversionMessage)], ["s1"]⟩ "success"
      = some (.bool false) →
     (Emit.field ⟨.sender "s1", "incident-report-sent",
        [("success", .bool false), ("error", .str conversionMessage)], ["s1"]⟩ "error").isSome
      = true) :=
  ⟨rfl,
    ((acknowledgment_fields tickClock oneOpen _ "s1" (.proctorJoin (.atom (.str "A"))) _ rfl
      ⟨.sender "s1", "proctor-join-ack",
        [("success", .bool true), ("examId", .str "A"), ("socketId", .str "s1")], ["s1"]⟩
      (by decide) (by decide)).2.1 (Or.inl rfl)).1,
    ((acknowledgment_fields tickClock oneOpen _ "s1" (.proctorJoin (.atom (.str "A"))) _ rfl
      ⟨.sender "s1", "proctor-join-ack",
        [("success", .bool true), ("examId", .str "A"), ("socketId", .str "s1")], ["s1"]⟩
      (by decide) (by decide)).2.1 (Or.inl rfl)).2,
    rfl,
    (acknowledgment_fields tickClock sampleServer.io _ "s1"
      (.reportSuspiciousActivity unprintableReport) _ rfl
      ⟨.sender "s1", "incident-report-sent",
        [("success", .bool false), ("error", .str conversionMessage)], ["s1"]⟩
      (by decide) (by decide)).2.2.2.2.2⟩

/-- The sample state `proctorAndTwoStudents` is reachable. -/
theorem reachable_proctorAndTwoStudents : Reachable proctorAndTwoStudents :=
  ⟨proctorAndTwoStudentsInputs, emitsAfter Io.init proctorAndTwoStudentsInputs, rfl⟩

/-- The sample state `crossedBack` is reachable. -/
theorem reachable_crossedBack : Reachable crossedBack :=
  ⟨crossedBackInputs, emitsAfter Io.init crossedBackInputs, rfl⟩

/-- Claim C23, amended, on a request that names the student `u2` of exam `A`, and on one that
names no student. -/
theorem request_id_verification_outcomes_witness :
    (JsVal.record [("studentId", .str "u2"), ("examId", .str "A")]).getField "studentId"
      = .ok (.str "u2") ∧
    (JsAtom.str "u2").truthy = true ∧ (JsAtom.str "A").truthy = true ∧
    (∃ s e, (JsAtom.str "u2").toJsString = .ok s ∧ (JsAtom.str "A").toJsString = .ok e ∧
      onRequestIdVerification tickClock proctorAndStudent "s1"
          (.record [("studentId", .str "u2"), ("examId", .str "A")])
        = .ok (proctorAndStudent,
          [⟨.roomExcept e "s1", "verify-id",
            [("studentId", .str s), ("requestedBy", .str "s1"),
             ("timestamp", .str (tickClock 0))],
            (proctorAndStudent.members e).filter
              (fun x => x ∉ proctorAndStudent.members "s1")⟩,
           ⟨.sender "s1", "verification-request-sent",
            [("studentId", .str s), ("examId", .str e),
             ("timestamp", .str (tickClock 0)), ("success", .bool true)], ["s1"]⟩]) ∧
      ∀ x, x ∈ (proctorAndStudent.members e).filter
            (fun x => x ∉ proctorAndStudent.members "s1")
        ↔ (proctorAndStudent.isMember x e ∧ ¬ proctorAndStudent.isMember x "s1")) ∧
    JsAtom.undefined.truthy = false ∧
    onRequestIdVerification tickClock proctorAndStudent "s1" (.record [("examId", .str "A")])
      = .ok (proctorAndStudent,
        [⟨.sender "s1", "verification-request-sent",
          [("studentId", JsAtom.undefined.orElse (.str "unknown")),
           ("examId", (JsAtom.str "A").orElse (.str "unknown")),
           ("timestamp", .str (tickClock 0)), ("success", .bool false),
           ("error", .str "Missing required parameters")], ["s1"]⟩]) :=
  ⟨rfl, rfl, rfl,
    (request_id_verification_outcomes tickClock proctorAndStudent "s1"
      (.record [("studentId", .str "u2"), ("examId", .str "A")]) (.str "u2") (.str "A")
      rfl rfl (by decide) (by decide)).2 rfl rfl,
    rfl,
    ((request_id_verification_outcomes tickClock proctorAndStudent "s1"
      (.record [("examId", .str "A")]) .undefined (.str "A") rfl rfl (by decide)
      (by decide)).1 (Or.inl rfl)).1⟩

/-- Claim C24 on the exam id `A` and the object whose only field is `examId: "A"`. -/
theorem proctor_bare_id_same_as_object_witness :
    [("examId", JsAtom.str "A")].lookup "examId" = some (.str "A") ∧
    onProctorJoin tickClock oneOpen "s1" (.atom (.str "A"))
      = onProctorJoin tickClock oneOpen "s1" (.record [("examId", .str "A")]) ∧
    onProctorHeartbeat tickClock oneOpen "s1" (.atom (.str "A"))
      = onProctorHeartbeat tickClock oneOpen "s1" (.record [("examId", .str "A")]) :=
  ⟨rfl,
    (proctor_bare_id_same_as_object tickClock oneOpen "s1" "A" [("examId", .str "A")] rfl).1,
    (proctor_bare_id_same_as_object tickClock oneOpen "s1" "A" [("examId", .str "A")] rfl).2.1⟩

/-- Claim C25, amended, on the response of the student `s2` in a room with a proctor and
another student. -/
theorem room_events_reach_by_membership_witness :
    (JsVal.record [("studentId", .str "u2"), ("examId", .str "A"),
      ("verified", .bool true)]).getField "verified" = .ok (.bool true) ∧
    (JsAtom.str "A").toJsString = .ok "A" ∧
    onIdVerificationResponse tickClock proctorAndTwoStudents "s2"
        (.record [("studentId", .str "u2"), ("examId", .str "A"), ("verified", .bool true)])
      = .ok (proctorAndTwoStudents,
        [⟨.roomExcept "A" "s2", "id-verification-result",
          [("studentId", .str "u2"), ("verified", .bool true),
           ("timestamp", .str (tickClock 0)), ("verifiedBy", .str "s2")],
          (proctorAndTwoStudents.members "A").filter
            (fun x => x ∉ proctorAndTwoStudents.members "s2")⟩,
         ⟨.sender "s2", "verification-response-received",
          [("success", .bool true), ("verified", .bool true)], ["s2"]⟩]) ∧
    (proctorAndTwoStudents.members "A").filter
      (fun x => x ∉ proctorAndTwoStudents.members "s2") = ["s1", "s3"] :=
  ⟨rfl, rfl,
    (room_events_reach_by_membership tickClock proctorAndTwoStudents "s2"
      (.record [("studentId", .str "u2"), ("examId", .str "A"), ("verified", .bool true)])
      (.str "u2") (.str "A") (.bool true) "u2" "A" rfl rfl rfl rfl rfl).1,
    by decide⟩

/-- Claim C26, amended, on the completed exam `e5` and the requested status `scheduled`. -/
theorem patchStatus_sets_any_valid_status_witness :
    (JsVal.record [("status", .str "scheduled")]).getField "status" = .ok (.str "scheduled") ∧
    Status.ofString "scheduled" = some .scheduled ∧
    archivedStore.find? (fun e => e._id = "e5") = some ⟨"e5", "History", .completed, 0, 900⟩ ∧
    (⟨"e5", "History", .scheduled, 0, 900⟩ : Exam) ∈
      (patchStatus calmEnv archivedStore "e5" (.record [("status", .str "scheduled")])).2 :=
  ⟨rfl, by decide, by decide,
    (patchStatus_sets_any_valid_status calmEnv archivedStore "e5"
      (.record [("status", .str "scheduled")]) "scheduled" .scheduled
      ⟨"e5", "History", .completed, 0, 900⟩ rfl (by decide) rfl rfl (by decide)).2.1⟩

/-- Claim C27 on the route guard `authorize('admin')`: an admin passes, a student is answered
403, a request without user 500. -/
theorem authorize_outcomes_witness :
    authorize ["admin"] (some ⟨"u1", .str "admin", by decide⟩) = .next ∧
    authorize ["admin"] (some ⟨"u2", .str "student", by decide⟩)
      = .respond 403 false "User role student is not authorized to access this route" ∧
    authorize ["admin"] none = .respond 500 false "User not authenticated properly" :=
  ⟨(authorize_outcomes ["admin"] (some ⟨"u1", .str "admin", by decide⟩)).1.2
      ⟨⟨"u1", .str "admin", by decide⟩, rfl, "admin", List.mem_singleton.2 rfl, rfl⟩,
    (authorize_outcomes ["admin"] (some ⟨"u2", .str "student", by decide⟩)).2.2
      ⟨"u2", .str "student", by decide⟩ rfl
      (by
        rintro ⟨r, hr, h⟩
        rw [List.mem_singleton.1 hr] at h
        exact absurd h (by decide)),
    (authorize_outcomes ["admin"] none).2.1 rfl⟩

/-- Claim C28 on the student `s2` of the sample state. -/
theorem reachable_metadata_consistent_witness :
    Reachable proctorAndStudent ∧
    proctorAndStudent.metadataOf "s2" = some ⟨some .student, some "A", some "u2"⟩ ∧
    proctorAndStudent.isMember "s2" "A" :=
  ⟨reachable_proctorAndStudent, rfl,
    (reachable_metadata_consistent proctorAndStudent reachable_proctorAndStudent "s2"
      ⟨some .student, some "A", some "u2"⟩ rfl).1 "A" rfl⟩

/-- Claim C29 on the exam `e7`, scheduled from 100 to 900 and never started, over cycles at
1000 and at 70000. -/
theorem past_end_scheduled_never_runs_witness :
    (lateStore.map (fun e => e._id)).Nodup ∧
    (⟨"e7", "Late", .scheduled, 100, 900⟩ : Exam) ∈ lateStore ∧
    (⟨"e7", "Late", .scheduled, 100, 900⟩ : Exam).endTime ≤ 1000 ∧
    (⟨"e7", "Late", .scheduled, 100, 900⟩ : Exam) ∈
      (runCycles [sampleTick 1000, sampleTick 70000] lateStore).store ∧
    (∀ m ∈ (runCycles [sampleTick 1000, sampleTick 70000] lateStore).emits,
      m.dest ≠ .room "e7") :=
  ⟨by decide, by decide, by decide,
    (past_end_scheduled_never_runs [sampleTick 1000, sampleTick 70000] lateStore (by decide)
      ⟨"e7", "Late", .scheduled, 100, 900⟩ (by decide) rfl 1000 (by decide)
      (by
        intro t ht
        simp only [List.mem_cons, List.mem_singleton, List.not_mem_nil, or_false] at ht
        rcases ht with h | h <;> rw [h] <;> decide)).1,
    (past_end_scheduled_never_runs [sampleTick 1000, sampleTick 70000] lateStore (by decide)
      ⟨"e7", "Late", .scheduled, 100, 900⟩ (by decide) rfl 1000 (by decide)
      (by
        intro t ht
        simp only [List.mem_cons, List.mem_singleton, List.not_mem_nil, or_false] at ht
        rcases ht with h | h <;> rw [h] <;> decide)).2.2⟩

/-- Claim C30 on the sample documents at time 1000, when the first save rejects: the exam `e2`,
due to end, is left in progress and its room hears nothing. -/
theorem rejected_save_stops_the_cycle_witness :
    (sampleStore.map (fun e => e._id)).Nodup ∧
    sampleStore.filter (startDue 1000) = [] ++ ⟨"e1", "Algebra", .scheduled, 1000, 61000⟩ :: [] ∧
    firstSaveRejects.saveFails 0 = true ∧
    endDue 1000 ⟨"e2", "Logic", .inProgress, 0, 900⟩ = true ∧
    (⟨"e2", "Logic", .inProgress, 0, 900⟩ : Exam) ∈
      (checkExamSchedules firstSaveRejects tickClock sampleRooms 1000 sampleStore).store ∧
    (∀ m ∈ (checkExamSchedules firstSaveRejects tickClock sampleRooms 1000 sampleStore).emits,
      m.dest ≠ .room "e2") :=
  ⟨by decide, by decide, rfl, by decide,
    (((rejected_save_stops_the_cycle firstSaveRejects tickClock sampleRooms 1000 sampleStore
      (by decide) [] [] ⟨"e1", "Algebra", .scheduled, 1000, 61000⟩).1 rfl (by decide)
      (fun i hi => absurd hi (Nat.not_lt_zero i)) rfl).2.2.2
      ⟨"e2", "Logic", .inProgress, 0, 900⟩ (Or.inr ⟨by decide, by decide⟩)).1,
    (((rejected_save_stops_the_cycle firstSaveRejects tickClock sampleRooms 1000 sampleStore
      (by decide) [] [] ⟨"e1", "Algebra", .scheduled, 1000, 61000⟩).1 rfl (by decide)
      (fun i hi => absurd hi (Nat.not_lt_zero i)) rfl).2.2.2
      ⟨"e2", "Logic", .inProgress, 0, 900⟩ (Or.inr ⟨by decide, by decide⟩)).2⟩

end ExamProctor
